import Mathlib

/-!
Probe lifecycle manager.

A shallow embedding of the Go packages `manager`, `target_registrar/k8s_secret` and
`probe_controller/t8c`.

Go functions that talk to the Kubernetes API become state-passing functions over a world
state `σ`; a Go `(value, error)` result is a pair whose second component is an
`Option Error` (`none` is the nil error); a Go pointer that may be nil is an `Option`.
A nil-pointer dereference is the outcome `Outcome.nilPanic`.
-/

set_option linter.dupNamespace false

namespace ProbeLifecycle

/-! ## Errors -/

/-- The `metav1.StatusReason` of an API status error. -/
inductive StatusReason where
  | AlreadyExists
  | Conflict
  | NotFound
  | BadRequest
  | Unknown
deriving DecidableEq, Repr

/-- A Go `error` value.  `status` is an `*errors.StatusError` returned by the API machinery,
`text` is an error made by `errors.New` or by `fmt.Errorf` without the wrapping verb, and
`waitTimeout` is the sentinel `wait.ErrWaitTimeout`. -/
inductive Error where
  | status (reason : StatusReason) (message : String)
  | text (message : String)
  | waitTimeout
deriving DecidableEq, Repr

/-- The method `Error()` of a Go error: its text. -/
def Error.Error : Error → String
  | .status _ message => message
  | .text message => message
  | .waitTimeout => "timed out waiting for the condition"

/-- Go `errors.IsAlreadyExists`. -/
def IsAlreadyExists : Error → Bool
  | .status .AlreadyExists _ => true
  | _ => false

/-- Go `errors.IsConflict`. -/
def IsConflict : Error → Bool
  | .status .Conflict _ => true
  | _ => false

/-- Go `errors.IsNotFound`. -/
def IsNotFound : Error → Bool
  | .status .NotFound _ => true
  | _ => false

/-- Go `fmt.Sprintf` restricted to the verb `%v`: the arguments, already rendered, replace
the verbs from left to right. -/
def Sprintf (format : String) (args : List String) : String :=
  let rec go : List String → List String → String
    | [], _ => ""
    | [piece], _ => piece
    | piece :: pieces, [] => piece ++ "%!v(MISSING)" ++ go pieces []
    | piece :: pieces, a :: rest => piece ++ a ++ go pieces rest
  go (format.splitOn "%v") args

/-- Go `fmt.Errorf` with `%v` verbs only: a new error that carries the formatted text. -/
def Errorf (format : String) (args : List String) : Error :=
  .text (Sprintf format args)

/-- The rendering of an error under `%v`; a nil error prints as `<nil>`. -/
def fmtErr : Option Error → String
  | none => "<nil>"
  | some e => e.Error

/-! ## Outcomes and the state-passing monad -/

/-- The outcome of running a Go function: it returns a value or it panics on a nil pointer. -/
inductive Outcome (α : Type) where
  | ok (a : α)
  | nilPanic
deriving DecidableEq, Repr

/-- A Go function that reads and writes the world state `σ`. -/
def Go (σ α : Type) : Type := σ → Outcome α × σ

/-- Sequencing: a panic stops the run and keeps the state reached so far. -/
def Go.bind {σ α β : Type} (m : Go σ α) (f : α → Go σ β) : Go σ β :=
  fun s => match m s with
    | (.ok a, s') => f a s'
    | (.nilPanic, s') => (.nilPanic, s')

/-- Returning a value leaves the state alone. -/
def Go.pure {σ α : Type} (a : α) : Go σ α := fun s => (.ok a, s)

instance (σ : Type) : Monad (Go σ) where
  pure := Go.pure
  bind := Go.bind

/-- A nil-pointer dereference. -/
def nilDeref {σ α : Type} : Go σ α := fun s => (.nilPanic, s)

/-- Dereferencing a pointer. -/
def deref {σ α : Type} : Option α → Go σ α
  | some a => Go.pure a
  | none => nilDeref

/-! ## Targets (package `target_registrar`) -/

/-- The interface `Target`: a value is given by what its three methods return and by what
`fmt` prints for it.  `Bytes` returns a byte string and an error; the conversion
`string(bytes)` is the identity on it.  `format` is the rendering of the value under `%v`:
`fmt` reads the concrete value behind the interface by reflection, so the text is not a
function of the three methods; for a `UserPassTarget` it is the four fields between braces,
`{Id Probetype Username Password}`. -/
structure Target where
  GetProbeType : String
  GetId : String
  Bytes : String × Option Error
  format : String
deriving DecidableEq, Repr

/-- The interface `Registrar`. -/
structure Registrar (σ : Type) where
  RegisterTarget : Target → Go σ (Bool × Option Error)
  UnregisterTarget : Target → Go σ (Bool × Option Error)

/-! ## Probe controllers (package `probe_controller`) -/

/-- The interface `ProbeController`. -/
structure ProbeController (σ : Type) where
  StartProbe : String → Go σ (Option Error)
  StopProbe : String → Go σ (Option Error)

/-! ## The lifecycle manager (package `manager`) -/

/-- The struct `ProbeLifecycleManager`. -/
structure ProbeLifecycleManager (σ : Type) where
  targetRegistrar : Registrar σ
  probeController : ProbeController σ

/-- `AddOrUpdateTarget` adds or updates the given target and starts the probe if not already
started. -/
def ProbeLifecycleManager.AddOrUpdateTarget {σ : Type} (m : ProbeLifecycleManager σ)
    (target : Target) : Go σ (Option Error) := do
  let (isFirstTarget, err) ← m.targetRegistrar.RegisterTarget target
  if err ≠ none then
    return some (Errorf "failed to register target %v\n%v" [target.format, fmtErr err])
  if !isFirstTarget then
    return none
  m.probeController.StartProbe target.GetProbeType

/-- `DeleteTarget` deletes the given target and stops the probe if it has no more targets. -/
def ProbeLifecycleManager.DeleteTarget {σ : Type} (m : ProbeLifecycleManager σ)
    (target : Target) : Go σ (Option Error) := do
  let (isLastTarget, err) ← m.targetRegistrar.UnregisterTarget target
  if err ≠ none then
    return err
  if !isLastTarget then
    return none
  m.probeController.StopProbe target.GetProbeType

/-! ### Observing the calls made on a controller -/

/-- A call received by a probe controller. -/
inductive ControllerCall where
  | StartProbe (probeType : String)
  | StopProbe (probeType : String)
deriving DecidableEq, Repr

/-- A controller that behaves as `c` and appends every call it receives to a log kept next to
the world state. -/
def ProbeController.recording {σ : Type} (c : ProbeController σ) :
    ProbeController (σ × List ControllerCall) where
  StartProbe := fun probeType s =>
    let r := c.StartProbe probeType s.1
    (r.1, (r.2, s.2 ++ [ControllerCall.StartProbe probeType]))
  StopProbe := fun probeType s =>
    let r := c.StopProbe probeType s.1
    (r.1, (r.2, s.2 ++ [ControllerCall.StopProbe probeType]))

/-- A registrar that behaves as `r` on the world state and never touches the call log. -/
def Registrar.besideLog {σ : Type} (r : Registrar σ) :
    Registrar (σ × List ControllerCall) where
  RegisterTarget := fun target s =>
    let o := r.RegisterTarget target s.1
    (o.1, (o.2, s.2))
  UnregisterTarget := fun target s =>
    let o := r.UnregisterTarget target s.1
    (o.1, (o.2, s.2))

/-- The controller calls made by `AddOrUpdateTarget`, in order. -/
def callsOfAddOrUpdateTarget {σ : Type} (r : Registrar σ) (c : ProbeController σ)
    (target : Target) (s : σ) : List ControllerCall :=
  ((ProbeLifecycleManager.mk r.besideLog c.recording).AddOrUpdateTarget target (s, [])).2.2

/-- The controller calls made by `DeleteTarget`, in order. -/
def callsOfDeleteTarget {σ : Type} (r : Registrar σ) (c : ProbeController σ)
    (target : Target) (s : σ) : List ControllerCall :=
  ((ProbeLifecycleManager.mk r.besideLog c.recording).DeleteTarget target (s, [])).2.2

/-! ## Go maps -/

/-- A Go `map[string]string` (also used for `map[string][]byte`): `none` is the nil map,
`some l` a map whose entries are the pairs of `l`, the first pair of a key being its entry. -/
abbrev GoMap : Type := Option (List (String × String))

/-- The entries of a map; a nil map has none. -/
def mapentries (m : GoMap) : List (String × String) := m.getD []

/-- The Go expression `m[k]` with its presence flag: `none` when the key is absent. -/
def mapaccess (m : GoMap) (k : String) : Option String := (mapentries m).lookup k

/-- The Go statement `m[k] = v` on a map that is not nil. -/
def mapassign (m : GoMap) (k v : String) : GoMap :=
  some ((k, v) :: (mapentries m).filter (fun e => e.1 != k))

/-- The Go statement `delete(m, k)`; a no-op on a nil map. -/
def mapdelete (m : GoMap) (k : String) : GoMap :=
  m.map (fun l => l.filter (fun e => e.1 != k))

/-- The Go expression `len(m)`: the number of keys. -/
def maplen (m : GoMap) : Nat := ((mapentries m).map Prod.fst).dedup.length

/-! ## Kubernetes secrets and their client (packages `k8s.io/api/core/v1`, `client-go`) -/

/-- The fields of `apiv1.Secret` that the registrar reads or writes. -/
structure Secret where
  Namespace : String
  Name : String
  StringData : GoMap
  Data : GoMap
deriving DecidableEq, Repr

/-- The struct `apiv1.SecretList`. -/
structure SecretList where
  Items : List Secret
deriving DecidableEq, Repr

/-- A field selector with one term `field = value`. -/
structure FieldSelector where
  field : String
  value : String
deriving DecidableEq, Repr

/-- Go `fields.OneTermEqualSelector`. -/
def OneTermEqualSelector (k v : String) : FieldSelector := ⟨k, v⟩

/-- The struct `metav1.ListOptions`; `none` is the empty selector, which selects everything. -/
structure ListOptions where
  FieldSelector : Option FieldSelector
deriving DecidableEq, Repr

/-- The type `types.PatchType`. -/
inductive PatchType where
  | JSONPatchType
  | MergePatchType
  | StrategicMergePatchType
deriving DecidableEq, Repr

/-- The patch of one map field: a key is set to a value or, with `none`, deleted. -/
abbrev MapPatch : Type := List (String × Option String)

/-- A strategic merge patch document for a secret, restricted to the map fields `stringData`
and `data`. -/
structure SecretPatch where
  stringData : MapPatch
  data : MapPatch
deriving DecidableEq, Repr

/-- The difference of two maps as `strategicpatch` computes it: every key whose value in
`modified` differs from its value in `original` is listed once, with its value in `modified`,
or with `none` when `modified` does not have it. -/
def diffMaps (original modified : GoMap) : MapPatch :=
  ((((mapentries modified).map Prod.fst ++ (mapentries original).map Prod.fst).dedup).filter
    (fun k => decide (mapaccess modified k ≠ mapaccess original k))).map
    (fun k => (k, mapaccess modified k))

/-- Go `json.Marshal` of a secret: the document is identified with the secret; marshalling a
secret has no error. -/
def jsonMarshal (secret : Secret) : Secret × Option Error := (secret, none)

/-- Go `strategicpatch.CreateTwoWayMergePatch` on two marshalled secrets that agree on their
metadata: the patch lists the changes of the two map fields. -/
def CreateTwoWayMergePatch (original modified : Secret) : SecretPatch × Option Error :=
  ({ stringData := diffMaps original.StringData modified.StringData,
     data := diffMaps original.Data modified.Data }, none)

/-- Applying the patch of one map field: a field the patch does not mention is left as it is. -/
def applyMapPatch (p : MapPatch) (m : GoMap) : GoMap :=
  if p = [] then m
  else some (p.foldr
    (fun e acc => match e.2 with
      | some v => (e.1, v) :: acc.filter (fun x => x.1 != e.1)
      | none => acc.filter (fun x => x.1 != e.1))
    (mapentries m))

/-- Go `strategicpatch.StrategicMergePatch` of a patch document into a secret. -/
def StrategicMergePatch (secret : Secret) (patch : SecretPatch) : Secret :=
  { secret with
    StringData := applyMapPatch patch.stringData secret.StringData,
    Data := applyMapPatch patch.data secret.Data }

/-- The interface `clientv1.SecretInterface`, restricted to the methods the registrar calls. -/
structure SecretInterface (σ : Type) where
  Create : Secret → Go σ (Option Secret × Option Error)
  List : ListOptions → Go σ (Option SecretList × Option Error)
  Patch : String → PatchType → SecretPatch → Go σ (Option Secret × Option Error)

/-- The interface `clientv1.CoreV1Interface`: the secrets client of a namespace. -/
structure CoreV1Interface (σ : Type) where
  Secrets : String → SecretInterface σ

/-! ## Retrying (packages `wait` and `retry` of `client-go`) -/

/-- The struct `wait.Backoff`; the durations only set the sleeping time between attempts. -/
structure Backoff where
  Steps : Nat
deriving DecidableEq, Repr

/-- The variable `retry.DefaultRetry`. -/
def DefaultRetry : Backoff := { Steps := 5 }

/-- The loop of `wait.ExponentialBackoff` with `n` steps left; `κ` holds the variables that
the closure `condition` captures. -/
def ExponentialBackoffSteps {σ κ : Type} (condition : κ → Go σ ((Bool × Option Error) × κ)) :
    Nat → κ → Go σ (Option Error × κ)
  | 0, k => Go.pure (some Error.waitTimeout, k)
  | n + 1, k =>
    (condition k).bind (fun r =>
      if r.1.2 ≠ none ∨ r.1.1 = true then Go.pure (r.1.2, r.2)
      else ExponentialBackoffSteps condition n r.2)

/-- Go `wait.ExponentialBackoff`: `condition` is tried up to `Steps` times, until it reports
done or an error; when the steps run out the result is `wait.ErrWaitTimeout`. -/
def ExponentialBackoff {σ κ : Type} (backoff : Backoff)
    (condition : κ → Go σ ((Bool × Option Error) × κ)) (k : κ) : Go σ (Option Error × κ) :=
  ExponentialBackoffSteps condition backoff.Steps k

/-- Go `retry.OnError`: `fn` is retried while its error is `retriable`; when the attempts run
out the last retriable error is returned.  The closure variable `lastErr` is carried next to
the captured variables of `fn`. -/
def OnError {σ κ : Type} (backoff : Backoff) (retriable : Error → Bool)
    (fn : κ → Go σ (Option Error × κ)) (k : κ) : Go σ (Option Error × κ) :=
  (ExponentialBackoff backoff
    (fun (c : κ × Option Error) =>
      (fn c.1).bind (fun r =>
        match r.1 with
        | none => Go.pure ((true, none), (r.2, c.2))
        | some e =>
          if retriable e then Go.pure ((false, none), (r.2, some e))
          else Go.pure ((false, some e), (r.2, c.2))))
    (k, none)).bind (fun r =>
      Go.pure (if r.1 = some Error.waitTimeout then r.2.2 else r.1, r.2.1))

/-- Go `retry.RetryOnConflict`. -/
def RetryOnConflict {σ κ : Type} (backoff : Backoff) (fn : κ → Go σ (Option Error × κ))
    (k : κ) : Go σ (Option Error × κ) :=
  OnError backoff IsConflict fn k

/-! ## The registrar on Kubernetes secrets (package `k8s_secret`) -/

/-- The struct `K8sSecretsRegistrar`. -/
structure K8sSecretsRegistrar (σ : Type) where
  client : CoreV1Interface σ
  nameSpace : String

/-- `TargetToSecret` converts the input target to a secret. -/
def TargetToSecret (target : Target) : Option Secret × Option Error :=
  if target.Bytes.2 ≠ none then (none, target.Bytes.2)
  else
    (some { Namespace := "", Name := target.GetProbeType,
            StringData := some [(target.GetId, target.Bytes.1)], Data := none }, none)

/-- `findSecret` returns the secret associated with the input target if found, or nil if not
found. -/
def K8sSecretsRegistrar.findSecret {σ : Type} (r : K8sSecretsRegistrar σ) (target : Target) :
    Go σ (Option Secret × Option Error) := do
  let selectByNameAsProbeType := OneTermEqualSelector "metadata.name" target.GetProbeType
  let (matchedSecrets, err) ←
    (r.client.Secrets r.nameSpace).List { FieldSelector := some selectByNameAsProbeType }
  if err ≠ none then
    return (none, err)
  let matchedSecrets ← deref matchedSecrets
  match matchedSecrets.Items with
  | [] => return (none, err)
  | first :: _ => return (some first, none)

/-- `patchSecret` patches a secret to the given new version; the old version is passed in to
calculate the diff. -/
def K8sSecretsRegistrar.patchSecret {σ : Type} (r : K8sSecretsRegistrar σ)
    (oldSecret newSecret : Secret) : Go σ (Option Secret × Option Error) := do
  let (oldBytes, err) := jsonMarshal oldSecret
  if err ≠ none then
    return (none, err)
  let (newBytes, err) := jsonMarshal newSecret
  if err ≠ none then
    return (none, err)
  let (patchBytes, err) := CreateTwoWayMergePatch oldBytes newBytes
  if err ≠ none then
    return (none, err)
  (r.client.Secrets r.nameSpace).Patch newSecret.Name PatchType.StrategicMergePatchType patchBytes

/-- The closure that `RegisterTarget` hands to `RetryOnConflict`; its captured variable is
`existingSecret`. -/
def K8sSecretsRegistrar.registerAttempt {σ : Type} (r : K8sSecretsRegistrar σ) (target : Target)
    (newData : String) (existingSecret : Option Secret) : Go σ (Option Error × Option Secret) := do
  let updatedSecret ← deref existingSecret
  let updatedSecret :=
    if updatedSecret.StringData = none then { updatedSecret with StringData := some [] }
    else updatedSecret
  let updatedSecret :=
    { updatedSecret with StringData := mapassign updatedSecret.StringData target.GetId newData }
  let oldSecret ← deref existingSecret
  let (patched, err) ← r.patchSecret oldSecret updatedSecret
  return (err, patched)

/-- The statements of `RegisterTarget` that follow the block `if existingSecret == nil`: the
update of the existing secret in a separate copy. -/
def K8sSecretsRegistrar.registerUpdate {σ : Type} (r : K8sSecretsRegistrar σ) (target : Target)
    (existingSecret : Option Secret) : Go σ (Bool × Option Error) := do
  let (newData, err) := target.Bytes
  if err ≠ none then
    return (false, err)
  let (err, _) ← RetryOnConflict DefaultRetry (r.registerAttempt target newData) existingSecret
  return (true, err)

/-- `RegisterTarget` registers the target by storing its info as a Kubernetes secret. -/
def K8sSecretsRegistrar.RegisterTarget {σ : Type} (r : K8sSecretsRegistrar σ) (target : Target) :
    Go σ (Bool × Option Error) := do
  let (existingSecret, err) ← r.findSecret target
  if err ≠ none then
    return (false, err)
  match existingSecret with
  | some _ => r.registerUpdate target existingSecret
  | none =>
    let (secret, err) := TargetToSecret target
    if err ≠ none then
      return (false, err)
    let secret ← deref secret
    let (existingSecret, err) ← (r.client.Secrets r.nameSpace).Create secret
    match err with
    | none => return (true, none)
    | some e =>
      if !IsAlreadyExists e then
        return (false, err)
      r.registerUpdate target existingSecret

/-- The closure that `UnregisterTarget` hands to `RetryOnConflict`; its captured variables
are `existingSecret` and `updatedSecret`. -/
def K8sSecretsRegistrar.unregisterAttempt {σ : Type} (r : K8sSecretsRegistrar σ)
    (target : Target) (captured : Option Secret × Option Secret) :
    Go σ (Option Error × (Option Secret × Option Secret)) := do
  let updatedSecret ← deref captured.1
  let updatedSecret :=
    { updatedSecret with StringData := mapdelete updatedSecret.StringData target.GetId }
  let updatedSecret := { updatedSecret with Data := mapdelete updatedSecret.Data target.GetId }
  let oldSecret ← deref captured.1
  let (patched, err) ← r.patchSecret oldSecret updatedSecret
  return (err, (patched, some updatedSecret))

/-- `UnregisterTarget` unregisters the target, by removing its entry from the secret. -/
def K8sSecretsRegistrar.UnregisterTarget {σ : Type} (r : K8sSecretsRegistrar σ)
    (target : Target) : Go σ (Bool × Option Error) := do
  let (existingSecret, err) ← r.findSecret target
  if err ≠ none then
    return (false, err)
  if existingSecret = none then
    return (true, none)
  let (err, captured) ←
    RetryOnConflict DefaultRetry (r.unregisterAttempt target) (existingSecret, none)
  if err ≠ none then
    return (false, err)
  let updatedSecret ← deref captured.2
  return (maplen updatedSecret.StringData == 0 && maplen updatedSecret.Data == 0, none)

/-- The registrar as a value of the interface `Registrar`. -/
def K8sSecretsRegistrar.toRegistrar {σ : Type} (r : K8sSecretsRegistrar σ) : Registrar σ where
  RegisterTarget := r.RegisterTarget
  UnregisterTarget := r.UnregisterTarget

/-! ## A store of secrets held in memory

The state is the list of the secrets of a cluster.  Its client follows the API server (and
the object tracker of the fake clientset that the tests of the package use): names are unique
in a namespace, a list request filters on the server side, a patch is merged into the stored
object.  No call fails for another reason than the state of the store, and no write is
rejected with a conflict. -/

/-- The state of the store: the secrets of all namespaces. -/
abbrev SecretStore : Type := List Secret

/-- Whether a secret is the one called `name` in namespace `ns`. -/
def Secret.isNamed (ns name : String) (secret : Secret) : Bool :=
  secret.Namespace == ns && secret.Name == name

/-- The stored secret called `name` in namespace `ns`, if there is one. -/
def storedSecret (store : SecretStore) (ns name : String) : Option Secret :=
  store.find? (Secret.isNamed ns name)

/-- Replace the first element that satisfies `p` by its image under `f`. -/
def replaceFirst {α : Type} (p : α → Bool) (f : α → α) : List α → List α
  | [] => []
  | x :: xs => if p x then f x :: xs else x :: replaceFirst p f xs

/-- The `Create` request on the secrets of namespace `ns`. -/
def memCreate (ns : String) (secret : Secret) : Go SecretStore (Option Secret × Option Error) :=
  fun store =>
    let secret := if secret.Namespace = "" then { secret with Namespace := ns } else secret
    if secret.Namespace ≠ ns then
      (.ok (none, some (.status .BadRequest "request namespace does not match object namespace")),
        store)
    else if (storedSecret store ns secret.Name).isSome then
      (.ok (none, some (.status .AlreadyExists ("secrets " ++ secret.Name ++ " already exists"))),
        store)
    else (.ok (some secret, none), store ++ [secret])

/-- The `List` request on the secrets of namespace `ns`. -/
def memList (ns : String) (opts : ListOptions) : Go SecretStore (Option SecretList × Option Error) :=
  fun store =>
    match opts.FieldSelector with
    | none => (.ok (some ⟨store.filter (fun secret => secret.Namespace == ns)⟩, none), store)
    | some selector =>
      if selector.field = "metadata.name" then
        (.ok (some ⟨store.filter (Secret.isNamed ns selector.value)⟩, none), store)
      else
        (.ok (none, some (.status .BadRequest
          ("field label not supported: " ++ selector.field))), store)

/-- The `Patch` request on the secrets of namespace `ns`. -/
def memPatch (ns : String) (name : String) (pt : PatchType) (patch : SecretPatch) :
    Go SecretStore (Option Secret × Option Error) :=
  fun store =>
    match storedSecret store ns name with
    | none =>
      (.ok (none, some (.status .NotFound ("secrets " ++ name ++ " not found"))), store)
    | some stored =>
      if pt ≠ PatchType.StrategicMergePatchType then
        (.ok (none, some (.status .BadRequest "PatchType is not supported")), store)
      else
        (.ok (some (StrategicMergePatch stored patch), none),
          replaceFirst (Secret.isNamed ns name) (fun x => StrategicMergePatch x patch) store)

/-- The client of the store held in memory. -/
def memCoreV1 : CoreV1Interface SecretStore where
  Secrets := fun ns => { Create := memCreate ns, List := memList ns, Patch := memPatch ns }

/-- The registrar of namespace `ns` on the store held in memory. -/
def memRegistrar (ns : String) : K8sSecretsRegistrar SecretStore :=
  { client := memCoreV1, nameSpace := ns }

/-- The payload that a secret holds for a target id: the entry of `StringData`, which takes
precedence, or else the entry of `Data`. -/
def Secret.payload (secret : Secret) (id : String) : Option String :=
  (mapaccess secret.StringData id).orElse (fun _ => mapaccess secret.Data id)

/-- Whether a secret holds an entry for the target id, in `StringData` or in `Data`. -/
def Secret.holds (secret : Secret) (id : String) : Bool :=
  (mapaccess secret.StringData id).isSome || (mapaccess secret.Data id).isSome

/-- The target ids that a secret holds. -/
def Secret.ids (secret : Secret) : List String :=
  (mapentries secret.StringData).map Prod.fst ++ (mapentries secret.Data).map Prod.fst

/-! ## Unstructured objects (package `unstructured` of `apimachinery`) -/

/-- A JSON value as Go holds it in an `interface{}`: `null` is nil, an `object` is a
`map[string]interface{}` whose entries are the pairs of the list, the first pair of a key being
its entry. -/
inductive JSONValue where
  | null
  | bool (b : Bool)
  | number (n : Int)
  | string (s : String)
  | array (items : List JSONValue)
  | object (fields : List (String × JSONValue))

/-- The Go statement `m[k] = v` on a `map[string]interface{}`: the entry of the key is
replaced where it is, or added. -/
def objSet : List (String × JSONValue) → String → JSONValue → List (String × JSONValue)
  | [], k, v => [(k, v)]
  | (k', v') :: rest, k, v => if k' = k then (k, v) :: rest else (k', v') :: objSet rest k v

/-- The rendering of a path of fields, Go `jsonPath`. -/
def jsonPath (fields : List String) : String :=
  "." ++ ".".intercalate fields

/-- Go `unstructured.NestedFieldNoCopy`, from the value reached so far: the value at the
path, whether it was found, and an error when a value on the way is not a map. -/
def nestedFieldFrom : JSONValue → List String → Option JSONValue × Bool × Option Error
  | val, [] => (some val, true, none)
  | .null, _ :: _ => (none, false, none)
  | .object m, field :: rest =>
    match m.lookup field with
    | some v => nestedFieldFrom v rest
    | none => (none, false, none)
  | _, field :: _ =>
    (none, false,
      some (Errorf "%v accessor error: value is not a map[string]interface\x7b\x7d" [jsonPath [field]]))

/-- Go `unstructured.NestedFieldNoCopy`. -/
def NestedFieldNoCopy (obj : List (String × JSONValue)) (fields : List String) :
    Option JSONValue × Bool × Option Error :=
  nestedFieldFrom (.object obj) fields

/-- Go `unstructured.NestedBool`. -/
def NestedBool (obj : List (String × JSONValue)) (fields : List String) :
    Bool × Bool × Option Error :=
  match NestedFieldNoCopy obj fields with
  | (some (.bool b), true, none) => (b, true, none)
  | (_, true, none) =>
    (false, false,
      some (Errorf "%v accessor error: value is not a bool" [jsonPath fields]))
  | (_, found, err) => (false, found, err)

/-- Go `unstructured.NestedString`. -/
def NestedString (obj : List (String × JSONValue)) (fields : List String) :
    String × Bool × Option Error :=
  match NestedFieldNoCopy obj fields with
  | (some (.string s), true, none) => (s, true, none)
  | (_, true, none) =>
    ("", false,
      some (Errorf "%v accessor error: value is not a string" [jsonPath fields]))
  | (_, found, err) => ("", found, err)

/-- Go `unstructured.SetNestedField` (through `setNestedFieldNoCopy`): the object after the
call and the error.  Maps that are missing on the way are made; a value on the way that is
not a map is an error, and then nothing has been changed. -/
def SetNestedField : List (String × JSONValue) → JSONValue → List String →
    List (String × JSONValue) × Option Error
  | m, _, [] => (m, none)
  | m, value, [field] => (objSet m field value, none)
  | m, value, field :: next :: rest =>
    match m.lookup field with
    | some (.object valMap) =>
      match SetNestedField valMap value (next :: rest) with
      | (valMap', none) => (objSet m field (.object valMap'), none)
      | (_, some err) => (m, some err)
    | some _ =>
      (m, some (Errorf "value cannot be set because %v is not a map[string]interface\x7b\x7d"
        [jsonPath [field]]))
    | none =>
      match SetNestedField [] value (next :: rest) with
      | (newVal, none) => (objSet m field (.object newVal), none)
      | (_, some err) => (m, some err)

/-- Two paths of fields diverge when they differ at a position that both have. -/
def pathsDiverge : List String → List String → Prop
  | a :: as, b :: bs => a ≠ b ∨ pathsDiverge as bs
  | _, _ => False

/-- The struct `unstructured.Unstructured`. -/
structure Unstructured where
  Object : List (String × JSONValue)

/-- The struct `unstructured.UnstructuredList`. -/
structure UnstructuredList where
  Items : List Unstructured

/-- The method `GetNamespace` of an unstructured object. -/
def Unstructured.GetNamespace (u : Unstructured) : String :=
  (NestedString u.Object ["metadata", "namespace"]).1

/-- The method `GetName` of an unstructured object. -/
def Unstructured.GetName (u : Unstructured) : String :=
  (NestedString u.Object ["metadata", "name"]).1

/-- The rendering of an unstructured object under `%v`, shortened to its name. -/
def Unstructured.format (u : Unstructured) : String :=
  "&\x7b" ++ u.GetNamespace ++ "/" ++ u.GetName ++ "\x7d"

/-! ## Custom resource definitions (package `apiextensions/v1beta1`) -/

/-- The struct `v1beta1.CustomResourceDefinitionNames`. -/
structure CustomResourceDefinitionNames where
  Plural : String
  Singular : String
  Kind : String
  ListKind : String
deriving DecidableEq, Repr

/-- The struct `v1beta1.CustomResourceDefinitionVersion`. -/
structure CustomResourceDefinitionVersion where
  Name : String
  Served : Bool
  Storage : Bool
deriving DecidableEq, Repr

/-- The struct `v1beta1.CustomResourceDefinitionSpec`. -/
structure CustomResourceDefinitionSpec where
  Group : String
  Version : String
  Names : CustomResourceDefinitionNames
  Scope : String
  Versions : List CustomResourceDefinitionVersion
deriving DecidableEq, Repr

/-- The struct `v1beta1.CustomResourceDefinition`. -/
structure CustomResourceDefinition where
  Name : String
  Spec : CustomResourceDefinitionSpec
deriving DecidableEq, Repr

/-- The struct `v1beta1.CustomResourceDefinitionList`. -/
structure CustomResourceDefinitionList where
  Items : List CustomResourceDefinition
deriving DecidableEq, Repr

/-- The rendering of a definition under `%v`, shortened to its name. -/
def CustomResourceDefinition.format (crd : CustomResourceDefinition) : String :=
  "&\x7b" ++ crd.Name ++ "\x7d"

/-- The struct `schema.GroupVersionResource`. -/
structure GroupVersionResource where
  Group : String
  Version : String
  Resource : String
deriving DecidableEq, Repr

/-- The struct `schema.GroupVersionKind`. -/
structure GroupVersionKind where
  Group : String
  Version : String
  Kind : String
deriving DecidableEq, Repr

/-- The rendering of a group, version and resource under `%v`. -/
def GroupVersionResource.format (gvr : GroupVersionResource) : String :=
  gvr.Group ++ "/" ++ gvr.Version ++ ", Resource=" ++ gvr.Resource

/-- The interface `clientv1beta1.CustomResourceDefinitionInterface`, restricted to the methods
the controller calls. -/
structure CustomResourceDefinitionInterface (σ : Type) where
  Create : CustomResourceDefinition → Go σ (Option CustomResourceDefinition × Option Error)
  Get : String → Go σ (Option CustomResourceDefinition × Option Error)
  List : ListOptions → Go σ (Option CustomResourceDefinitionList × Option Error)

/-- The interface `clientv1beta1.ApiextensionsV1beta1Interface`. -/
structure ApiextensionsV1beta1Interface (σ : Type) where
  CustomResourceDefinitions : CustomResourceDefinitionInterface σ

/-- The interface `dynamic.ResourceInterface`, restricted to the methods the controller
calls. -/
structure ResourceInterface (σ : Type) where
  Create : Unstructured → Go σ (Option Unstructured × Option Error)
  Update : Unstructured → Go σ (Option Unstructured × Option Error)
  List : ListOptions → Go σ (Option UnstructuredList × Option Error)

/-- The interface `dynamic.NamespaceableResourceInterface`. -/
structure NamespaceableResourceInterface (σ : Type) where
  Namespace : String → ResourceInterface σ

/-- The interface `dynamic.Interface`. -/
structure DynamicInterface (σ : Type) where
  Resource : GroupVersionResource → NamespaceableResourceInterface σ

/-! ## The XL custom resource (package `t8c`, file `t8c_xl_crd.go`) -/

/-- The constant `XlCrDefaultName`. -/
def XlCrDefaultName : String := "xl-release"

/-- The variable `defaultCrd`: the definition that `parseXlCrd` decodes from the constant
`XlCrdYaml`. -/
def defaultCrd : CustomResourceDefinition :=
  { Name := "xls.charts.helm.k8s.io",
    Spec :=
      { Group := "charts.helm.k8s.io",
        Version := "v1alpha1",
        Names := { Plural := "xls", Singular := "xl", Kind := "Xl", ListKind := "XlList" },
        Scope := "Namespaced",
        Versions := [{ Name := "v1alpha1", Served := true, Storage := true }] } }

/-- The variable `defaultGvk`: the group, version and kind of the document `XlCrdYaml` that
`parseXlCrd` decodes. -/
def defaultGvk : GroupVersionKind :=
  { Group := "apiextensions.k8s.io", Version := "v1beta1", Kind := "CustomResourceDefinition" }

/-- The variable `parseErr`: decoding the constant `XlCrdYaml` has no error. -/
def parseErr : Option Error := none

/-- `getOrCreateCRD` creates the Turbonomic XL custom resource definition if not already
created.  In the last statement, `return crd, clientretry.OnError(...)`, the variable `crd`
is read after the call, as the Go compiler orders it. -/
def getOrCreateCRD {σ : Type} (client : ApiextensionsV1beta1Interface σ) :
    Go σ (Option CustomResourceDefinition × Option Error) := do
  if parseErr ≠ none then
    return (none, some (Errorf "failed to get/create the t8c XL CRD\n%v" [fmtErr parseErr]))
  let gvr : GroupVersionResource :=
    { Group := defaultGvk.Group, Version := defaultGvk.Version,
      Resource := (defaultGvk.Kind ++ "s").toLower }
  let selectByName := OneTermEqualSelector "metadata.name" defaultCrd.Name
  let (crdList, err) ←
    client.CustomResourceDefinitions.List { FieldSelector := some selectByName }
  if err ≠ none then
    return (none, some (Errorf
      "failed to get/create the t8c XL CRD without being able to list (gvr=%v): %v"
      [gvr.format, fmtErr err]))
  let crdList ← deref crdList
  match crdList.Items with
  | first :: _ => return (some first, none)
  | [] =>
    let (_, err) ← client.CustomResourceDefinitions.Create defaultCrd
    if err ≠ none then
      return (none, some (Errorf "failed to create the t8c XL CRD (gvr=%v)\n%v"
        [gvr.format, fmtErr err]))
    let (err, crd) ← OnError DefaultRetry IsNotFound
      (fun (_ : Option CustomResourceDefinition) => do
        let (crd, err) ← client.CustomResourceDefinitions.Get defaultCrd.Name
        return (err, crd))
      none
    return (crd, err)

/-- The loop of `getGvrFromCrd`: the name of the first version that is marked served, or
else the version chosen so far. -/
def firstServed (versionChosen : String) : List CustomResourceDefinitionVersion → String
  | [] => versionChosen
  | version :: rest => if version.Served then version.Name else firstServed versionChosen rest

/-- `getGvrFromCrd` constructs the GroupVersionResource info of the custom resource from the
CRD. -/
def getGvrFromCrd (crd : CustomResourceDefinition) : Option GroupVersionResource × Option Error :=
  let versionChosen := firstServed crd.Spec.Version crd.Spec.Versions
  if versionChosen = "" then
    (none, some (Errorf
      "failed to construct the GroupVersionResource without a valid served version from the CRD: %v"
      [crd.format]))
  else
    (some { Group := crd.Spec.Group, Version := versionChosen, Resource := crd.Spec.Names.Plural },
      none)

/-- The object that `GetOrCreateCR` builds when it finds no XL CR: the one with the default
name. -/
def newXlCR (gvr : GroupVersionResource) (crd : CustomResourceDefinition) (nameSpace : String) :
    Unstructured :=
  { Object :=
      [("apiVersion", .string (gvr.Group ++ "/" ++ gvr.Version)),
       ("kind", .string crd.Spec.Names.Kind),
       ("metadata", .object
          [("namespace", .string nameSpace), ("name", .string XlCrDefaultName)])] }

/-- `GetOrCreateCR` retrieves a XL CR from the given namespace if one exists.  If multiple
exist, then the first one on the list will be returned.  If none exists, then a default will
be created. -/
def GetOrCreateCR {σ : Type} (v1beta1Client : ApiextensionsV1beta1Interface σ)
    (dynamicClient : DynamicInterface σ) (nameSpace : String) :
    Go σ (Option Unstructured × Option GroupVersionResource × Option Error) := do
  let (crd, err) ← getOrCreateCRD v1beta1Client
  if err ≠ none then
    return (none, none, some (Errorf
      "failed to get/create the t8c XL resource without the CRD: %v" [fmtErr err]))
  let crd ← deref crd
  let (gvr, err) := getGvrFromCrd crd
  if err ≠ none then
    return (none, none, some (Errorf
      "failed to get/create the t8c XL resource without being able to construct the GroupVersionResource from CRD (crd=%v)\n%v"
      [crd.format, fmtErr err]))
  let gvr' ← deref gvr
  let (crList, err) ← ((dynamicClient.Resource gvr').Namespace nameSpace).List
    { FieldSelector := none }
  if err ≠ none then
    return (none, none, some (Errorf
      "failed to get/create the t8c XL resource without being able to retrieve the list: %v"
      [fmtErr err]))
  let crList ← deref crList
  match crList.Items with
  | first :: _ => return (some first, gvr, none)
  | [] =>
    let cr : Unstructured := newXlCR gvr' crd nameSpace
    let (cr, err) ← ((dynamicClient.Resource gvr').Namespace nameSpace).Create cr
    if err ≠ none then
      return (none, none, some (Errorf "failed to create the t8c XL resource: %v" [fmtErr err]))
    return (cr, gvr, none)

/-! ## The probe controller on the XL custom resource (file `t8c_probe_controller.go`) -/

/-- The struct `T8cProbeController`. -/
structure T8cProbeController (σ : Type) where
  v1beta1Client : ApiextensionsV1beta1Interface σ
  dynamicClient : DynamicInterface σ
  nameSpace : String

/-- The closure that `setEnabledFlag` hands to `RetryOnConflict`; its captured variable is
`cr`. -/
def T8cProbeController.setEnabledAttempt {σ : Type} (pc : T8cProbeController σ)
    (probeType : String) (enabled : Bool) (gvr : Option GroupVersionResource)
    (cr : Option Unstructured) : Go σ (Option Error × Option Unstructured) := do
  let crValue ← deref cr
  let (object, err) := SetNestedField crValue.Object (.bool enabled) ["spec", probeType, "enabled"]
  let crValue : Unstructured := { crValue with Object := object }
  if err ≠ none then
    return (some (Errorf "failed to set probe %v to enabled in CR %v in namespace %v\n%v"
      [probeType, crValue.format, pc.nameSpace, fmtErr err]), some crValue)
  let gvr ← deref gvr
  let (cr, err) ← ((pc.dynamicClient.Resource gvr).Namespace pc.nameSpace).Update crValue
  return (err, cr)

/-- `setEnabledFlag` sets the enabled flag for a probe in the deployment CR. -/
def T8cProbeController.setEnabledFlag {σ : Type} (pc : T8cProbeController σ)
    (probeType : String) (enabled : Bool) : Go σ (Option Error) := do
  let (cr, gvr, err) ← GetOrCreateCR pc.v1beta1Client pc.dynamicClient pc.nameSpace
  if err ≠ none then
    return some (Errorf "failed to enable probe %v in namespace %v\n%v"
      [probeType, pc.nameSpace, fmtErr err])
  let (err, _) ← RetryOnConflict DefaultRetry (pc.setEnabledAttempt probeType enabled gvr) cr
  return err

/-- `StartProbe` starts a probe by setting it to enabled in the deployment CR. -/
def T8cProbeController.StartProbe {σ : Type} (pc : T8cProbeController σ) (probeType : String) :
    Go σ (Option Error) :=
  pc.setEnabledFlag probeType true

/-- `StopProbe` stops a probe by setting it to disabled in the deployment CR. -/
def T8cProbeController.StopProbe {σ : Type} (pc : T8cProbeController σ) (probeType : String) :
    Go σ (Option Error) :=
  pc.setEnabledFlag probeType false

/-- The controller as a value of the interface `ProbeController`. -/
def T8cProbeController.toProbeController {σ : Type} (pc : T8cProbeController σ) :
    ProbeController σ where
  StartProbe := pc.StartProbe
  StopProbe := pc.StopProbe

/-! ## A cluster of custom resources held in memory

The state lists the custom resource definitions of a cluster and its custom resources, each
next to its group, version and resource.  The clients follow the object tracker of the fake
clients that the tests of the package use: names are unique in a namespace, an update
replaces the stored object of the same name, and no write is rejected with a conflict. -/

/-- The state of the cluster. -/
structure Cluster where
  crds : List CustomResourceDefinition
  resources : List (GroupVersionResource × Unstructured)

/-- Whether a stored resource belongs to `gvr` and namespace `ns`. -/
def inNamespace (gvr : GroupVersionResource) (ns : String)
    (r : GroupVersionResource × Unstructured) : Bool :=
  decide (r.1 = gvr) && r.2.GetNamespace == ns

/-- Whether a stored resource is the one called `name` of `gvr` in namespace `ns`. -/
def isResource (gvr : GroupVersionResource) (ns name : String)
    (r : GroupVersionResource × Unstructured) : Bool :=
  inNamespace gvr ns r && r.2.GetName == name

/-- The `List` request on the definitions. -/
def memListCRD (opts : ListOptions) :
    Go Cluster (Option CustomResourceDefinitionList × Option Error) :=
  fun cluster =>
    match opts.FieldSelector with
    | none => (.ok (some ⟨cluster.crds⟩, none), cluster)
    | some selector =>
      if selector.field = "metadata.name" then
        (.ok (some ⟨cluster.crds.filter (fun crd => crd.Name == selector.value)⟩, none), cluster)
      else
        (.ok (none, some (.status .BadRequest
          ("field label not supported: " ++ selector.field))), cluster)

/-- The `Create` request on the definitions. -/
def memCreateCRD (crd : CustomResourceDefinition) :
    Go Cluster (Option CustomResourceDefinition × Option Error) :=
  fun cluster =>
    if (cluster.crds.find? (fun x => x.Name == crd.Name)).isSome then
      (.ok (none, some (.status .AlreadyExists
        ("customresourcedefinitions " ++ crd.Name ++ " already exists"))), cluster)
    else (.ok (some crd, none), { cluster with crds := cluster.crds ++ [crd] })

/-- The `Get` request on the definitions. -/
def memGetCRD (name : String) : Go Cluster (Option CustomResourceDefinition × Option Error) :=
  fun cluster =>
    match cluster.crds.find? (fun x => x.Name == name) with
    | some crd => (.ok (some crd, none), cluster)
    | none =>
      (.ok (none, some (.status .NotFound
        ("customresourcedefinitions " ++ name ++ " not found"))), cluster)

/-- The client of the definitions held in memory. -/
def memApiextensions : ApiextensionsV1beta1Interface Cluster where
  CustomResourceDefinitions := { Create := memCreateCRD, Get := memGetCRD, List := memListCRD }

/-- The `List` request on the resources of `gvr` in namespace `ns`. -/
def memListCR (gvr : GroupVersionResource) (ns : String) (opts : ListOptions) :
    Go Cluster (Option UnstructuredList × Option Error) :=
  fun cluster =>
    match opts.FieldSelector with
    | none =>
      (.ok (some ⟨(cluster.resources.filter (inNamespace gvr ns)).map Prod.snd⟩, none), cluster)
    | some selector =>
      if selector.field = "metadata.name" then
        (.ok (some ⟨(cluster.resources.filter (isResource gvr ns selector.value)).map Prod.snd⟩,
          none), cluster)
      else
        (.ok (none, some (.status .BadRequest
          ("field label not supported: " ++ selector.field))), cluster)

/-- The `Create` request on the resources of `gvr` in namespace `ns`. -/
def memCreateCR (gvr : GroupVersionResource) (ns : String) (obj : Unstructured) :
    Go Cluster (Option Unstructured × Option Error) :=
  fun cluster =>
    if obj.GetNamespace ≠ ns then
      (.ok (none, some (.status .BadRequest "request namespace does not match object namespace")),
        cluster)
    else if (cluster.resources.find? (isResource gvr ns obj.GetName)).isSome then
      (.ok (none, some (.status .AlreadyExists (gvr.Resource ++ " " ++ obj.GetName ++ " already exists"))),
        cluster)
    else (.ok (some obj, none), { cluster with resources := cluster.resources ++ [(gvr, obj)] })

/-- The `Update` request on the resources of `gvr` in namespace `ns`. -/
def memUpdateCR (gvr : GroupVersionResource) (ns : String) (obj : Unstructured) :
    Go Cluster (Option Unstructured × Option Error) :=
  fun cluster =>
    if obj.GetNamespace ≠ ns then
      (.ok (none, some (.status .BadRequest "request namespace does not match object namespace")),
        cluster)
    else if (cluster.resources.find? (isResource gvr ns obj.GetName)).isSome then
      (.ok (some obj, none),
        { cluster with
          resources := replaceFirst (isResource gvr ns obj.GetName) (fun _ => (gvr, obj))
            cluster.resources })
    else
      (.ok (none, some (.status .NotFound (gvr.Resource ++ " " ++ obj.GetName ++ " not found"))),
        cluster)

/-- The dynamic client of the resources held in memory. -/
def memDynamic : DynamicInterface Cluster where
  Resource := fun gvr =>
    { Namespace := fun ns =>
        { Create := memCreateCR gvr ns, Update := memUpdateCR gvr ns, List := memListCR gvr ns } }

/-- The controller of namespace `ns` on the cluster held in memory. -/
def memController (ns : String) : T8cProbeController Cluster :=
  { v1beta1Client := memApiextensions, dynamicClient := memDynamic, nameSpace := ns }

/-- The XL definition of a cluster: the stored one or, when none is stored, the default one
that `getOrCreateCRD` creates. -/
def xlCrdOf (cluster : Cluster) : CustomResourceDefinition :=
  (cluster.crds.find? (fun x => x.Name == defaultCrd.Name)).getD defaultCrd

/-- The cluster once it holds an XL definition. -/
def withXlCrd (cluster : Cluster) : Cluster :=
  if (cluster.crds.find? (fun x => x.Name == defaultCrd.Name)).isSome then cluster
  else { cluster with crds := cluster.crds ++ [defaultCrd] }

/-- The activation record of namespace `ns`: the first resource that the cluster lists in the
namespace for the group, version and resource of its XL definition. -/
def activationRecord (cluster : Cluster) (ns : String) : Option Unstructured :=
  match getGvrFromCrd (xlCrdOf cluster) with
  | (some gvr, none) => (cluster.resources.find? (inNamespace gvr ns)).map Prod.snd
  | _ => none

/-- The empty cluster. -/
def emptyCluster : Cluster := { crds := [], resources := [] }

/-! ## Sample data: the entries of the test tables -/

/-- The namespace of the tests. -/
def testNamespace : String := "turbonomic"

/-- The target `{Id: "Moid1", Probetype: "vcenter", Username: "user1", Password: "pass1"}`. -/
def vcenterMoid1 : Target :=
  { GetProbeType := "vcenter", GetId := "Moid1",
    Bytes := ("id: Moid1\nprobetype: vcenter\nusername: user1\npassword: pass1\n", none),
    format := "\x7bMoid1 vcenter user1 pass1\x7d" }

/-- The target `{Id: "Moid2", Probetype: "vcenter", Username: "user2", Password: "pass2"}`. -/
def vcenterMoid2 : Target :=
  { GetProbeType := "vcenter", GetId := "Moid2",
    Bytes := ("id: Moid2\nprobetype: vcenter\nusername: user2\npassword: pass2\n", none),
    format := "\x7bMoid2 vcenter user2 pass2\x7d" }

/-- The secret of probe type `vcenter` when it holds the target `Moid2`. -/
def vcenterSecret : Secret :=
  { Namespace := "turbonomic", Name := "vcenter",
    StringData := some [("Moid2", "id: Moid2\nprobetype: vcenter\nusername: user2\npassword: pass2\n")],
    Data := none }

/-- A store in which the secret of probe type `vcenter` holds the target `Moid2`. -/
def vcenterStore : SecretStore := [vcenterSecret]

/-- The XL resource of the test entry "start a probe when other probes are present": the
default resource with `pure` enabled and `appdynamics` disabled in its spec. -/
def testXlCR : Unstructured :=
  { Object :=
      [("apiVersion", .string "charts.helm.k8s.io/v1alpha1"),
       ("kind", .string "Xl"),
       ("metadata", .object
          [("namespace", .string "turbonomic"), ("name", .string "xl-release")]),
       ("spec", .object
          [("pure", .object [("enabled", .bool true)]),
           ("appdynamics", .object [("enabled", .bool false)])])] }

/-- A cluster that holds the XL definition and the resource `testXlCR`. -/
def testCluster : Cluster :=
  { crds := [defaultCrd],
    resources :=
      [({ Group := "charts.helm.k8s.io", Version := "v1alpha1", Resource := "xls" }, testXlCR)] }

/-! ## Further sample data -/

/-- The XL definition with its only version not served: what the API server stores when the
version of `defaultCrd` is switched off. -/
def unservedCrd : CustomResourceDefinition :=
  { defaultCrd with
    Spec :=
      { defaultCrd.Spec with
        Versions := [{ Name := "v1alpha1", Served := false, Storage := true }] } }

/-- The XL definition with the deprecated field `Spec.Version` only and no list of versions. -/
def versionOnlyCrd : CustomResourceDefinition :=
  { defaultCrd with Spec := { defaultCrd.Spec with Versions := [] } }

/-- An XL definition with several versions: the first one is not served, and the deprecated
field `Spec.Version` names it. -/
def multiVersionCrd : CustomResourceDefinition :=
  { defaultCrd with
    Spec :=
      { defaultCrd.Spec with
        Version := "v2",
        Versions :=
          [{ Name := "v2", Served := false, Storage := false },
           { Name := "v1", Served := true, Storage := true },
           { Name := "v1alpha1", Served := true, Storage := false }] } }

/-- The error of an API server that is not available. -/
def unavailableError : Error :=
  .status .Unknown "the server is currently unable to handle the request"

/-- The secret of probe type `vcenter` when the payload of the target `Moid1`, with the user
`user2`, is held in `Data` and `StringData` is nil. -/
def vcenterDataSecret : Secret :=
  { Namespace := "turbonomic", Name := "vcenter",
    StringData := none,
    Data := some [("Moid1", "id: Moid1\nprobetype: vcenter\nusername: user2\npassword: pass2\n")] }

/-- The error of a target that cannot be encoded. -/
def encodingError : Error := .text "cannot marshal the target"

/-- A target of probe type `vcenter` whose method `Bytes` returns an error. -/
def unencodableTarget : Target :=
  { GetProbeType := "vcenter", GetId := "Moid1",
    Bytes := ("", some encodingError),
    format := "\x7bMoid1 vcenter\x7d" }

/-! ## A secrets client whose patch requests fail

The store is held in memory as before, but every `Patch` request is answered with the error
`e` and nothing is written: the behaviour of a server that cannot be reached for the write. -/

/-- The client whose `Patch` requests fail with `e`. -/
def patchFailsCoreV1 (e : Error) : CoreV1Interface SecretStore where
  Secrets := fun ns =>
    { Create := memCreate ns, List := memList ns,
      Patch := fun _ _ _ store => (.ok (none, some e), store) }

/-- The registrar of namespace `ns` on the client whose `Patch` requests fail with `e`. -/
def patchFailsRegistrar (e : Error) (ns : String) : K8sSecretsRegistrar SecretStore :=
  { client := patchFailsCoreV1 e, nameSpace := ns }

/-! ## The default manager on the stores held in memory -/

/-- A registrar on the state `σ` as a registrar on a pair of states: it works on the first
component. -/
def Registrar.onFst {σ τ : Type} (r : Registrar σ) : Registrar (σ × τ) where
  RegisterTarget := fun target s =>
    let o := r.RegisterTarget target s.1
    (o.1, (o.2, s.2))
  UnregisterTarget := fun target s =>
    let o := r.UnregisterTarget target s.1
    (o.1, (o.2, s.2))

/-- A controller on the state `τ` as a controller on a pair of states: it works on the second
component. -/
def ProbeController.onSnd {σ τ : Type} (c : ProbeController τ) : ProbeController (σ × τ) where
  StartProbe := fun probeType s =>
    let o := c.StartProbe probeType s.2
    (o.1, (s.1, o.2))
  StopProbe := fun probeType s =>
    let o := c.StopProbe probeType s.2
    (o.1, (s.1, o.2))

/-- The manager that `DefaultProbeManagerForConfig` builds, from a registrar on Kubernetes
secrets and a controller on the XL custom resource. -/
def managerOf (r : K8sSecretsRegistrar SecretStore) (pc : T8cProbeController Cluster) :
    ProbeLifecycleManager (SecretStore × Cluster) :=
  { targetRegistrar := r.toRegistrar.onFst, probeController := pc.toProbeController.onSnd }

/-- `DefaultProbeManagerForConfig` on the stores held in memory, for namespace `ns`. -/
def memManager (ns : String) : ProbeLifecycleManager (SecretStore × Cluster) :=
  managerOf (memRegistrar ns) (memController ns)

/-! ## A secrets client of a server that is not available -/

/-- The client whose every request fails with `e`. -/
def unavailableCoreV1 (e : Error) : CoreV1Interface SecretStore where
  Secrets := fun _ =>
    { Create := fun _ store => (.ok (none, some e), store),
      List := fun _ store => (.ok (none, some e), store),
      Patch := fun _ _ _ store => (.ok (none, some e), store) }

/-- The registrar of namespace `ns` on the client whose every request fails with `e`. -/
def unavailableRegistrar (e : Error) (ns : String) : K8sSecretsRegistrar SecretStore :=
  { client := unavailableCoreV1 e, nameSpace := ns }

/-- An XL definition without any version: `getGvrFromCrd` has an error for it. -/
def noVersionCrd : CustomResourceDefinition :=
  { defaultCrd with Spec := { defaultCrd.Spec with Version := "", Versions := [] } }

/-- A cluster whose XL definition has no version, so that the controller fails. -/
def noVersionCluster : Cluster := { crds := [noVersionCrd], resources := [] }

/-! ## A secrets client under contention

The store is held in memory as before, next to one write of another client that is still
under way: the rival write lands just before the next write request of this client.  A
`Create` request then finds the secret of the rival, and a `Patch` request is rejected with a
conflict.  Next to an error the typed client of `client-go` hands back an empty object, and the
fake client a nil pointer; `typed` chooses between the two. -/

/-- The state of the store under contention. -/
structure ContendedStore where
  store : SecretStore
  rival : Option Secret
deriving DecidableEq, Repr

/-- Writing a secret in place of the stored secret of its name, or adding it. -/
def putSecret (store : SecretStore) (secret : Secret) : SecretStore :=
  if (storedSecret store secret.Namespace secret.Name).isSome then
    replaceFirst (Secret.isNamed secret.Namespace secret.Name) (fun _ => secret) store
  else store ++ [secret]

/-- The store once the rival write has landed. -/
def ContendedStore.landed (s : ContendedStore) : SecretStore :=
  match s.rival with
  | some secret => putSecret s.store secret
  | none => s.store

/-- What the client hands back next to an error. -/
def failedResult (typed : Bool) : Option Secret :=
  if typed then some { Namespace := "", Name := "", StringData := none, Data := none } else none

/-- A request of the client in memory, run after the rival write has landed. -/
def afterRival (typed : Bool) (request : Go SecretStore (Option Secret × Option Error)) :
    Go ContendedStore (Option Secret × Option Error) :=
  fun s =>
    match request s.landed with
    | (.ok (result, none), store') => (.ok (result, none), { store := store', rival := none })
    | (.ok (_, some e), store') =>
      (.ok (failedResult typed, some e), { store := store', rival := none })
    | (.nilPanic, store') => (.nilPanic, { store := store', rival := none })

/-- The `Create` request under contention. -/
def contendedCreate (typed : Bool) (ns : String) (secret : Secret) :
    Go ContendedStore (Option Secret × Option Error) :=
  afterRival typed (memCreate ns secret)

/-- The `List` request under contention: it reads the store as it is. -/
def contendedList (ns : String) (opts : ListOptions) :
    Go ContendedStore (Option SecretList × Option Error) :=
  fun s =>
    let r := memList ns opts s.store
    (r.1, { s with store := r.2 })

/-- The `Patch` request under contention.  The typed client refuses an empty name before it
sends anything. -/
def contendedPatch (typed : Bool) (ns : String) (name : String) (pt : PatchType)
    (patch : SecretPatch) : Go ContendedStore (Option Secret × Option Error) :=
  fun s =>
    if typed = true ∧ name = "" then
      (.ok (failedResult typed, some (.text "resource name may not be empty")), s)
    else
      match s.rival with
      | some _ =>
        (.ok (failedResult typed, some (.status .Conflict
          "the object has been modified; please apply your changes to the latest version and try again")),
          { store := s.landed, rival := none })
      | none => afterRival typed (memPatch ns name pt patch) s

/-- The secrets client under contention. -/
def contendedCoreV1 (typed : Bool) : CoreV1Interface ContendedStore where
  Secrets := fun ns =>
    { Create := contendedCreate typed ns, List := contendedList ns,
      Patch := contendedPatch typed ns }

/-- The registrar of namespace `ns` on the secrets client under contention. -/
def contendedRegistrar (typed : Bool) (ns : String) : K8sSecretsRegistrar ContendedStore :=
  { client := contendedCoreV1 typed, nameSpace := ns }

/-- The target `{Id: "Moid3", Probetype: "vcenter", Username: "user3", Password: "pass3"}`. -/
def vcenterMoid3 : Target :=
  { GetProbeType := "vcenter", GetId := "Moid3",
    Bytes := ("id: Moid3\nprobetype: vcenter\nusername: user3\npassword: pass3\n", none),
    format := "\x7bMoid3 vcenter user3 pass3\x7d" }

/-- The secret of probe type `vcenter` after another client has added the target `Moid3` to
`vcenterSecret`. -/
def rivalSecret : Secret :=
  { Namespace := "turbonomic", Name := "vcenter",
    StringData := some
      [("Moid3", "id: Moid3\nprobetype: vcenter\nusername: user3\npassword: pass3\n"),
       ("Moid2", "id: Moid2\nprobetype: vcenter\nusername: user2\npassword: pass2\n")],
    Data := none }

/-! ## A cluster under contention

The cluster is held in memory as before, next to one write of another client that is still
under way: the rival write lands just before the next write request of this client.  A
`Create` request then finds the resource of the rival, and an `Update` request is rejected with
a conflict, as the stored resource is no longer the one that was read.  Next to an error the
dynamic client hands back a nil pointer. -/

/-- The state of the cluster under contention. -/
structure ContendedCluster where
  cluster : Cluster
  rival : Option (GroupVersionResource × Unstructured)

/-- Writing a resource in place of the stored resource of its name, or adding it. -/
def putResource (resources : List (GroupVersionResource × Unstructured))
    (r : GroupVersionResource × Unstructured) : List (GroupVersionResource × Unstructured) :=
  if (resources.find? (isResource r.1 r.2.GetNamespace r.2.GetName)).isSome then
    replaceFirst (isResource r.1 r.2.GetNamespace r.2.GetName) (fun _ => r) resources
  else resources ++ [r]

/-- The cluster once the rival write has landed. -/
def ContendedCluster.landed (s : ContendedCluster) : Cluster :=
  match s.rival with
  | some r => { s.cluster with resources := putResource s.cluster.resources r }
  | none => s.cluster

/-- A request that reads or writes the cluster as it is. -/
def onCluster {α : Type} (request : Go Cluster α) : Go ContendedCluster α :=
  fun s =>
    let r := request s.cluster
    (r.1, { s with cluster := r.2 })

/-- A write request of the client in memory, run after the rival write has landed. -/
def afterRivalWrite {α : Type} (request : Go Cluster α) : Go ContendedCluster α :=
  fun s =>
    let r := request s.landed
    (r.1, { cluster := r.2, rival := none })

/-- The `Update` request under contention. -/
def contendedUpdateCR (gvr : GroupVersionResource) (ns : String) (obj : Unstructured) :
    Go ContendedCluster (Option Unstructured × Option Error) :=
  fun s =>
    match s.rival with
    | some _ =>
      (.ok (none, some (.status .Conflict
        "the object has been modified; please apply your changes to the latest version and try again")),
        { cluster := s.landed, rival := none })
    | none => onCluster (memUpdateCR gvr ns obj) s

/-- The dynamic client under contention. -/
def contendedDynamic : DynamicInterface ContendedCluster where
  Resource := fun gvr =>
    { Namespace := fun ns =>
        { Create := fun obj => afterRivalWrite (memCreateCR gvr ns obj),
          Update := contendedUpdateCR gvr ns,
          List := fun opts => onCluster (memListCR gvr ns opts) } }

/-- The client of the definitions of the cluster under contention. -/
def contendedApiextensions : ApiextensionsV1beta1Interface ContendedCluster where
  CustomResourceDefinitions :=
    { Create := fun crd => onCluster (memCreateCRD crd),
      Get := fun name => onCluster (memGetCRD name),
      List := fun opts => onCluster (memListCRD opts) }

/-- The controller of namespace `ns` on the cluster under contention. -/
def contendedController (ns : String) : T8cProbeController ContendedCluster :=
  { v1beta1Client := contendedApiextensions, dynamicClient := contendedDynamic, nameSpace := ns }

/-- The group, version and resource of the XL custom resource. -/
def xlGvr : GroupVersionResource :=
  { Group := "charts.helm.k8s.io", Version := "v1alpha1", Resource := "xls" }

/-- The resource `testXlCR` after another client has enabled `appdynamics` in it. -/
def rivalXlCR : Unstructured :=
  { Object :=
      [("apiVersion", .string "charts.helm.k8s.io/v1alpha1"),
       ("kind", .string "Xl"),
       ("metadata", .object
          [("namespace", .string "turbonomic"), ("name", .string "xl-release")]),
       ("spec", .object
          [("pure", .object [("enabled", .bool true)]),
           ("appdynamics", .object [("enabled", .bool true)])])] }

/-- A cluster that holds the XL definition and no XL resource. -/
def definitionOnlyCluster : Cluster := { crds := [defaultCrd], resources := [] }

/-- Whether the outcome of a call is that it returned an error. -/
def returnedError : Outcome (Option Error) → Bool
  | .ok (some _) => true
  | _ => false

/-- The flag `spec.<probeType>.enabled` of the activation record of namespace `ns`, as
`NestedBool` reads it, when there is an activation record. -/
def enabledFlag (cluster : Cluster) (ns probeType : String) :
    Option (Bool × Bool × Option Error) :=
  (activationRecord cluster ns).map (fun cr => NestedBool cr.Object ["spec", probeType, "enabled"])

/-- Whether the outcome of `GetOrCreateCR` is that it returned no record and an error. -/
def returnedNoRecord :
    Outcome (Option Unstructured × Option GroupVersionResource × Option Error) → Bool
  | .ok (none, _, some _) => true
  | _ => false

/-! ## Sequences of calls on the manager -/

/-- A call of one of the two methods of the manager. -/
inductive ManagerCall where
  | AddOrUpdateTarget (target : Target)
  | DeleteTarget (target : Target)
deriving DecidableEq, Repr

/-- Running one call. -/
def ProbeLifecycleManager.call {σ : Type} (m : ProbeLifecycleManager σ) :
    ManagerCall → Go σ (Option Error)
  | .AddOrUpdateTarget target => m.AddOrUpdateTarget target
  | .DeleteTarget target => m.DeleteTarget target

/-- Running the calls one after the other, as long as they return nil: whether all of them
returned nil, and the state that was reached. -/
def ProbeLifecycleManager.callAll {σ : Type} (m : ProbeLifecycleManager σ) :
    List ManagerCall → σ → Bool × σ
  | [], s => (true, s)
  | c :: cs, s =>
    match m.call c s with
    | (.ok none, s') => m.callAll cs s'
    | (_, s') => (false, s')

/-- Whether the group record of a probe type exists with a mapping that is not empty; the
test of emptiness is the one of `UnregisterTarget`. -/
def groupOccupied (store : SecretStore) (ns probeType : String) : Bool :=
  match storedSecret store ns probeType with
  | some secret => !(maplen secret.StringData == 0 && maplen secret.Data == 0)
  | none => false

/-- Whether `spec.<probeType>.enabled` is true in the activation record. -/
def probeEnabled (cluster : Cluster) (ns probeType : String) : Bool :=
  match activationRecord cluster ns with
  | some cr => (NestedBool cr.Object ["spec", probeType, "enabled"]).1
  | none => false

/-! ## Theorems -/

/-! ### The state-passing monad -/

@[simp] theorem Go.pure_bind {σ α β : Type} (a : α) (f : α → Go σ β) :
    (Go.pure a).bind f = f a := rfl

@[simp] theorem Go.pure_apply {σ α : Type} (a : α) (s : σ) :
    (Go.pure a : Go σ α) s = (Outcome.ok a, s) := rfl

theorem Go.bind_apply {σ α β : Type} (m : Go σ α) (f : α → Go σ β) (s : σ) :
    m.bind f s = (match m s with
      | (.ok a, s') => f a s'
      | (.nilPanic, s') => (.nilPanic, s')) := rfl

theorem Go.bind_of_ok {σ α β : Type} (m : Go σ α) (f : α → Go σ β) (s s' : σ) (a : α)
    (h : m s = (Outcome.ok a, s')) : m.bind f s = f a s' := by
  simp [Go.bind_apply, h]

theorem Go.bind_of_nilPanic {σ α β : Type} (m : Go σ α) (f : α → Go σ β) (s s' : σ)
    (h : m s = (Outcome.nilPanic, s')) : m.bind f s = (Outcome.nilPanic, s') := by
  simp [Go.bind_apply, h]

/-! ### Go maps -/

theorem lookup_filter_bne (l : List (String × String)) (k k' : String) :
    (l.filter (fun e => e.1 != k)).lookup k' = if k' = k then none else l.lookup k' := by
  induction l with
  | nil => simp
  | cons e es ih =>
    obtain ⟨a, b⟩ := e
    by_cases hak : a = k
    · subst hak
      by_cases hk : k' = a
      · subst hk
        simpa using ih
      · have : (k' == a) = false := by simpa using hk
        simp [List.filter_cons, List.lookup_cons, this, hk] at ih ⊢
        exact ih
    · have hne : (a != k) = true := by simpa using hak
      by_cases hk : k' = k
      · subst hk
        have : (k' == a) = false := by simpa using (Ne.symm hak)
        simp [List.filter_cons, hne, List.lookup_cons, this] at ih ⊢
        exact ih
      · by_cases hka : k' = a
        · subst hka
          simp [List.filter_cons, hne, List.lookup_cons, hk]
        · have : (k' == a) = false := by simpa using hka
          simp [List.filter_cons, hne, List.lookup_cons, this, hk] at ih ⊢
          exact ih

theorem lookup_eq_none_of_not_mem {β : Type} (l : List (String × β)) (k : String)
    (h : k ∉ l.map Prod.fst) : l.lookup k = none := by
  induction l with
  | nil => rfl
  | cons e es ih =>
    obtain ⟨a, b⟩ := e
    simp only [List.map_cons, List.mem_cons, not_or] at h
    have : (k == a) = false := by simpa using h.1
    simp [List.lookup_cons, this, ih h.2]

theorem lookup_isSome_iff_mem {β : Type} (l : List (String × β)) (k : String) :
    (l.lookup k).isSome = true ↔ k ∈ l.map Prod.fst := by
  induction l with
  | nil => simp
  | cons e es ih =>
    obtain ⟨a, b⟩ := e
    by_cases hk : k = a
    · subst hk
      simp [List.lookup_cons]
    · have : (k == a) = false := by simpa using hk
      simp [List.lookup_cons, this, ih, hk]

theorem mapaccess_mapassign (m : GoMap) (k v k' : String) :
    mapaccess (mapassign m k v) k' = if k' = k then some v else mapaccess m k' := by
  unfold mapaccess mapassign
  by_cases hk : k' = k
  · subst hk
    simp [mapentries, List.lookup_cons]
  · have : (k' == k) = false := by simpa using hk
    simp [mapentries, List.lookup_cons, this, lookup_filter_bne, hk]

theorem mapaccess_mapdelete (m : GoMap) (k k' : String) :
    mapaccess (mapdelete m k) k' = if k' = k then none else mapaccess m k' := by
  unfold mapaccess mapdelete
  cases m with
  | none => simp [mapentries]
  | some l => simp [mapentries, lookup_filter_bne]

theorem maplen_eq_zero_iff (m : GoMap) : maplen m = 0 ↔ ∀ k, mapaccess m k = none := by
  unfold maplen mapaccess
  constructor
  · intro h k
    have h1 : (mapentries m).map Prod.fst = [] := by
      have := List.length_eq_zero.mp h
      exact List.dedup_eq_nil _ |>.mp this
    exact lookup_eq_none_of_not_mem _ _ (by simp [h1])
  · intro h
    rcases hm : mapentries m with _ | ⟨⟨a, b⟩, es⟩
    · simp
    · have := h a
      simp [hm, List.lookup_cons] at this

/-- The patch of one map field, read at a key: the last word on a key is its first entry. -/
theorem lookup_foldr_patch (p : MapPatch) (l : List (String × String)) (k : String) :
    (p.foldr
      (fun e acc => match e.2 with
        | some v => (e.1, v) :: acc.filter (fun x => x.1 != e.1)
        | none => acc.filter (fun x => x.1 != e.1)) l).lookup k =
      (match p.lookup k with
        | some (some v) => some v
        | some none => none
        | none => l.lookup k) := by
  induction p with
  | nil => simp
  | cons e es ih =>
    obtain ⟨a, b⟩ := e
    by_cases hk : k = a
    · subst hk
      cases b with
      | none => simp [List.lookup_cons, lookup_filter_bne]
      | some v => simp [List.lookup_cons]
    · have hka : (k == a) = false := by simpa using hk
      cases b with
      | none =>
        simp only [List.foldr_cons, List.lookup_cons, hka, lookup_filter_bne, if_neg hk]
        exact ih
      | some v =>
        simp only [List.foldr_cons, List.lookup_cons, hka, lookup_filter_bne, if_neg hk]
        exact ih

theorem lookup_map_self {β : Type} (L : List String) (f : String → β) (k : String) :
    (L.map (fun x => (x, f x))).lookup k = if k ∈ L then some (f k) else none := by
  induction L with
  | nil => simp
  | cons a as ih =>
    by_cases hk : k = a
    · subst hk
      simp [List.lookup_cons]
    · have hka : (k == a) = false := by simpa using hk
      simp [List.lookup_cons, hka, ih, hk]

theorem lookup_diffMaps (original modified : GoMap) (k : String) :
    (diffMaps original modified).lookup k =
      if mapaccess modified k = mapaccess original k then none
      else some (mapaccess modified k) := by
  unfold diffMaps
  rw [lookup_map_self]
  by_cases h : mapaccess modified k = mapaccess original k
  · simp [h]
  · have hmem : k ∈ (mapentries modified).map Prod.fst ++ (mapentries original).map Prod.fst := by
      by_contra hn
      simp only [List.mem_append, not_or] at hn
      apply h
      unfold mapaccess
      rw [lookup_eq_none_of_not_mem _ _ hn.1, lookup_eq_none_of_not_mem _ _ hn.2]
    simp [h, hmem]

/-- Merging the difference between `original` and `modified` into a stored map `stored`: a key
takes its value in `modified` where the two differ, and keeps its stored value elsewhere. -/
theorem mapaccess_applyMapPatch_diffMaps (original modified stored : GoMap) (k : String) :
    mapaccess (applyMapPatch (diffMaps original modified) stored) k =
      if mapaccess modified k = mapaccess original k then mapaccess stored k
      else mapaccess modified k := by
  unfold applyMapPatch
  by_cases hp : diffMaps original modified = []
  · have hl := lookup_diffMaps original modified k
    rw [hp] at hl
    by_cases h : mapaccess modified k = mapaccess original k
    · simp [hp, h]
    · simp [h] at hl
  · rw [if_neg hp]
    show List.lookup k _ = _
    simp only [mapentries, Option.getD_some]
    rw [lookup_foldr_patch, lookup_diffMaps]
    by_cases h : mapaccess modified k = mapaccess original k
    · rw [if_pos h, if_pos h]
      rfl
    · rw [if_neg h, if_neg h]
      cases mapaccess modified k <;> rfl

/-! ### Retrying -/

/-- An attempt that succeeds at once ends the retry loop with its result. -/
theorem RetryOnConflict_of_success {σ κ : Type} (fn : κ → Go σ (Option Error × κ)) (k k' : κ)
    (s s' : σ) (h : fn k s = (Outcome.ok (none, k'), s')) :
    RetryOnConflict DefaultRetry fn k s = (Outcome.ok (none, k'), s') := by
  unfold RetryOnConflict OnError ExponentialBackoff
  show (ExponentialBackoffSteps _ (4 + 1) (k, none)).bind _ s = _
  rw [ExponentialBackoffSteps]
  rw [Go.bind_apply, Go.bind_apply, Go.bind_apply, h]
  simp only [Go.pure_apply]
  rw [if_pos (Or.inr trivial)]
  rfl

/-! ### The store of secrets held in memory -/

theorem find?_eq_head?_filter {α : Type} (p : α → Bool) (l : List α) :
    l.find? p = (l.filter p).head? := by
  induction l with
  | nil => rfl
  | cons x xs ih =>
    by_cases hx : p x = true
    · rw [List.find?_cons, List.filter_cons, hx]
      rfl
    · have hx' : p x = false := by simpa using hx
      rw [List.find?_cons, List.filter_cons, hx']
      exact ih

theorem storedSecret_isNamed {store : SecretStore} {ns name : String} {secret : Secret}
    (h : storedSecret store ns name = some secret) :
    secret.Namespace = ns ∧ secret.Name = name := by
  have := List.find?_some h
  simpa [Secret.isNamed] using this

theorem findSecret_mem (ns : String) (target : Target) (store : SecretStore) :
    (memRegistrar ns).findSecret target store =
      (Outcome.ok (storedSecret store ns target.GetProbeType, none), store) := by
  unfold K8sSecretsRegistrar.findSecret storedSecret
  rw [find?_eq_head?_filter]
  simp only [bind, pure, memRegistrar, memCoreV1, OneTermEqualSelector, Go.bind_apply, memList]
  rcases hf : List.filter (Secret.isNamed ns target.GetProbeType) store with _ | ⟨x, xs⟩
  · simp [deref]
  · simp [deref]

theorem find?_replaceFirst_same {α : Type} (p : α → Bool) (f : α → α)
    (hf : ∀ x, p x = true → p (f x) = true) (l : List α) :
    (replaceFirst p f l).find? p = (l.find? p).map f := by
  induction l with
  | nil => rfl
  | cons x xs ih =>
    by_cases hx : p x = true
    · simp [replaceFirst, hx, List.find?_cons, hf x hx]
    · have hx' : p x = false := by simpa using hx
      simp [replaceFirst, hx', List.find?_cons, ih]

theorem find?_replaceFirst_other {α : Type} (p q : α → Bool) (f : α → α)
    (hq : ∀ x, p x = true → q x = false ∧ q (f x) = false) (l : List α) :
    (replaceFirst p f l).find? q = l.find? q := by
  induction l with
  | nil => rfl
  | cons x xs ih =>
    by_cases hx : p x = true
    · simp [replaceFirst, hx, List.find?_cons, (hq x hx).1, (hq x hx).2]
    · have hx' : p x = false := by simpa using hx
      simp [replaceFirst, hx', List.find?_cons, ih]

theorem map_replaceFirst {α β : Type} (p : α → Bool) (f : α → α) (g : α → β)
    (hg : ∀ x, g (f x) = g x) (l : List α) : (replaceFirst p f l).map g = l.map g := by
  induction l with
  | nil => rfl
  | cons x xs ih =>
    by_cases hx : p x = true
    · simp [replaceFirst, hx, hg]
    · have hx' : p x = false := by simpa using hx
      simp [replaceFirst, hx', ih]

theorem storedSecret_patched_same (ns name : String) (patch : SecretPatch) (store : SecretStore) :
    storedSecret (replaceFirst (Secret.isNamed ns name) (fun x => StrategicMergePatch x patch) store)
        ns name =
      (storedSecret store ns name).map (fun x => StrategicMergePatch x patch) := by
  unfold storedSecret
  exact find?_replaceFirst_same _ _ (fun x hx => by simpa [Secret.isNamed, StrategicMergePatch] using hx) _

theorem storedSecret_patched_other (ns name ns' name' : String) (patch : SecretPatch)
    (store : SecretStore) (hne : ¬ (ns' = ns ∧ name' = name)) :
    storedSecret (replaceFirst (Secret.isNamed ns name) (fun x => StrategicMergePatch x patch) store)
        ns' name' = storedSecret store ns' name' := by
  unfold storedSecret
  apply find?_replaceFirst_other
  intro x hx
  simp only [Secret.isNamed, Bool.and_eq_true, beq_iff_eq] at hx
  have : Secret.isNamed ns' name' x = false := by
    simp only [Secret.isNamed, Bool.and_eq_false_iff, beq_eq_false_iff_ne, ne_eq]
    by_cases h1 : x.Namespace = ns'
    · right
      intro h2
      exact hne ⟨by rw [← h1, hx.1], by rw [← h2, hx.2]⟩
    · left
      exact h1
  exact ⟨this, by simpa [Secret.isNamed, StrategicMergePatch] using this⟩

theorem storedSecret_append (store : SecretStore) (secret : Secret) (ns name : String) :
    storedSecret (store ++ [secret]) ns name =
      (storedSecret store ns name).orElse
        (fun _ => if Secret.isNamed ns name secret then some secret else none) := by
  unfold storedSecret
  rw [List.find?_append]
  cases List.find? (Secret.isNamed ns name) store with
  | some x => rfl
  | none =>
    by_cases h : Secret.isNamed ns name secret = true
    · simp [h, List.find?_cons]
    · have h' : Secret.isNamed ns name secret = false := by simpa using h
      simp [h', List.find?_cons]

theorem patchSecret_mem (ns : String) (oldSecret newSecret stored : Secret) (store : SecretStore)
    (h : storedSecret store ns newSecret.Name = some stored) :
    (memRegistrar ns).patchSecret oldSecret newSecret store =
      (Outcome.ok (some (StrategicMergePatch stored (CreateTwoWayMergePatch oldSecret newSecret).1),
          none),
        replaceFirst (Secret.isNamed ns newSecret.Name)
          (fun x => StrategicMergePatch x (CreateTwoWayMergePatch oldSecret newSecret).1) store) := by
  unfold K8sSecretsRegistrar.patchSecret
  simp [jsonMarshal, CreateTwoWayMergePatch, memRegistrar, memCoreV1, memPatch, h, pure, bind]

/-- Registering the first target of a probe type creates the secret of the probe type. -/
theorem registerTarget_mem_new (ns : String) (target : Target) (store : SecretStore)
    (hnone : storedSecret store ns target.GetProbeType = none) (hb : target.Bytes.2 = none) :
    (memRegistrar ns).RegisterTarget target store =
      (Outcome.ok (true, none),
        store ++ [{ Namespace := ns, Name := target.GetProbeType,
                    StringData := some [(target.GetId, target.Bytes.1)], Data := none }]) := by
  unfold K8sSecretsRegistrar.RegisterTarget
  simp only [bind, Go.bind_apply, findSecret_mem, hnone]
  simp [TargetToSecret, hb, deref, memRegistrar, memCoreV1, memCreate, hnone, pure, Go.bind_apply]

/-- Registering a target of a probe type that has a secret merges the entry of the target
into that secret and leaves everything else as it was. -/
theorem registerTarget_mem_existing (ns : String) (target : Target) (store : SecretStore)
    (stored : Secret) (h : storedSecret store ns target.GetProbeType = some stored)
    (hb : target.Bytes.2 = none) :
    ∃ store' stored',
      (memRegistrar ns).RegisterTarget target store = (Outcome.ok (true, none), store') ∧
      storedSecret store' ns target.GetProbeType = some stored' ∧
      (∀ k, mapaccess stored'.StringData k =
        if k = target.GetId then some target.Bytes.1 else mapaccess stored.StringData k) ∧
      (∀ k, mapaccess stored'.Data k = mapaccess stored.Data k) ∧
      (∀ ns' name', ¬ (ns' = ns ∧ name' = target.GetProbeType) →
        storedSecret store' ns' name' = storedSecret store ns' name') := by
  have hname := (storedSecret_isNamed h).2
  let updated : Secret :=
    { (if stored.StringData = none then { stored with StringData := some [] } else stored) with
      StringData := mapassign
        (if stored.StringData = none then { stored with StringData := some [] } else stored).StringData
        target.GetId target.Bytes.1 }
  have hupd : (if stored.StringData = none then { stored with StringData := some [] }
      else stored).Name = target.GetProbeType := by
    split <;> exact hname
  have hattempt : (memRegistrar ns).registerAttempt target target.Bytes.1 (some stored) store =
      (Outcome.ok (none, some (StrategicMergePatch stored (CreateTwoWayMergePatch stored updated).1)),
        replaceFirst (Secret.isNamed ns target.GetProbeType)
          (fun x => StrategicMergePatch x (CreateTwoWayMergePatch stored updated).1) store) := by
    unfold K8sSecretsRegistrar.registerAttempt
    simp only [bind, Go.bind_apply, deref, Go.pure_apply, pure]
    rw [patchSecret_mem ns stored updated stored store (by rw [show updated.Name = _ from hupd]; exact h)]
    simp only [hupd]
  refine ⟨replaceFirst (Secret.isNamed ns target.GetProbeType)
      (fun x => StrategicMergePatch x (CreateTwoWayMergePatch stored updated).1) store,
    StrategicMergePatch stored (CreateTwoWayMergePatch stored updated).1, ?_, ?_, ?_, ?_, ?_⟩
  · unfold K8sSecretsRegistrar.RegisterTarget
    simp only [bind, Go.bind_apply, findSecret_mem, h]
    simp only [K8sSecretsRegistrar.registerUpdate, hb, bind, pure]
    show Go.bind (RetryOnConflict DefaultRetry
      ((memRegistrar ns).registerAttempt target target.Bytes.1) (some stored)) _ store = _
    rw [Go.bind_apply, RetryOnConflict_of_success _ _ _ _ _ hattempt]
    rfl
  · rw [storedSecret_patched_same, h]
    rfl
  · intro k
    show mapaccess (applyMapPatch (diffMaps stored.StringData updated.StringData) stored.StringData) k = _
    rw [mapaccess_applyMapPatch_diffMaps]
    have hm : mapaccess updated.StringData k =
        if k = target.GetId then some target.Bytes.1 else mapaccess stored.StringData k := by
      show mapaccess (mapassign _ _ _) k = _
      rw [mapaccess_mapassign]
      by_cases hk : k = target.GetId
      · simp [hk]
      · simp only [hk, if_false]
        cases hs : stored.StringData <;> simp [mapaccess, mapentries, hs]
    rw [hm]
    by_cases hk : k = target.GetId
    · simp only [hk, if_true]
      split
      · next heq => exact heq.symm
      · rfl
    · simp [hk]
  · intro k
    show mapaccess (applyMapPatch (diffMaps stored.Data updated.Data) stored.Data) k = _
    rw [mapaccess_applyMapPatch_diffMaps]
    have hd : updated.Data = stored.Data := by
      show (if stored.StringData = none then _ else stored).Data = _
      split <;> rfl
    rw [hd]
    exact if_pos rfl
  · intro ns' name' hne
    exact storedSecret_patched_other _ _ _ _ _ _ hne

/-- Unregistering a target of a probe type that has no secret does nothing. -/
theorem unregisterTarget_mem_none (ns : String) (target : Target) (store : SecretStore)
    (h : storedSecret store ns target.GetProbeType = none) :
    (memRegistrar ns).UnregisterTarget target store = (Outcome.ok (true, none), store) := by
  unfold K8sSecretsRegistrar.UnregisterTarget
  simp only [bind, Go.bind_apply, findSecret_mem, h]
  simp [pure]

theorem holds_iff (secret : Secret) (k : String) :
    secret.holds k = true ↔
      mapaccess secret.StringData k ≠ none ∨ mapaccess secret.Data k ≠ none := by
  unfold Secret.holds
  simp [Option.isSome_iff_ne_none]

/-- Unregistering a target of a probe type that has a secret removes the entry of the target
from that secret, leaves everything else as it was, and reports whether no other target is
left. -/
theorem unregisterTarget_mem_existing (ns : String) (target : Target) (store : SecretStore)
    (stored : Secret) (h : storedSecret store ns target.GetProbeType = some stored) :
    ∃ b store' stored',
      (memRegistrar ns).UnregisterTarget target store = (Outcome.ok (b, none), store') ∧
      (b = true ↔ ∀ k, stored.holds k = true → k = target.GetId) ∧
      storedSecret store' ns target.GetProbeType = some stored' ∧
      (∀ k, mapaccess stored'.StringData k =
        if k = target.GetId then none else mapaccess stored.StringData k) ∧
      (∀ k, mapaccess stored'.Data k =
        if k = target.GetId then none else mapaccess stored.Data k) ∧
      (∀ ns' name', ¬ (ns' = ns ∧ name' = target.GetProbeType) →
        storedSecret store' ns' name' = storedSecret store ns' name') ∧
      store'.map (fun secret => (secret.Namespace, secret.Name))
        = store.map (fun secret => (secret.Namespace, secret.Name)) := by
  have hname := (storedSecret_isNamed h).2
  let updated : Secret :=
    { stored with
      StringData := mapdelete stored.StringData target.GetId,
      Data := mapdelete stored.Data target.GetId }
  have hattempt : (memRegistrar ns).unregisterAttempt target (some stored, none) store =
      (Outcome.ok (none, (some (StrategicMergePatch stored (CreateTwoWayMergePatch stored updated).1),
          some updated)),
        replaceFirst (Secret.isNamed ns target.GetProbeType)
          (fun x => StrategicMergePatch x (CreateTwoWayMergePatch stored updated).1) store) := by
    unfold K8sSecretsRegistrar.unregisterAttempt
    simp only [bind, Go.bind_apply, deref, Go.pure_apply, pure]
    rw [patchSecret_mem ns stored updated stored store (by rw [show updated.Name = _ from hname]; exact h)]
    simp [updated, hname]
  refine ⟨maplen updated.StringData == 0 && maplen updated.Data == 0,
    replaceFirst (Secret.isNamed ns target.GetProbeType)
      (fun x => StrategicMergePatch x (CreateTwoWayMergePatch stored updated).1) store,
    StrategicMergePatch stored (CreateTwoWayMergePatch stored updated).1, ?_, ?_, ?_, ?_, ?_, ?_, ?_⟩
  · unfold K8sSecretsRegistrar.UnregisterTarget
    simp only [bind, Go.bind_apply, findSecret_mem, h]
    simp only [ne_eq, not_true_eq_false, if_false, pure, Go.pure_bind, reduceCtorEq]
    rw [Go.bind_apply, RetryOnConflict_of_success _ _ _ _ _ hattempt]
    rfl
  · simp only [Bool.and_eq_true, beq_iff_eq, maplen_eq_zero_iff, holds_iff]
    show ((∀ k, mapaccess (mapdelete stored.StringData target.GetId) k = none) ∧
      (∀ k, mapaccess (mapdelete stored.Data target.GetId) k = none)) ↔ _
    simp only [mapaccess_mapdelete]
    constructor
    · rintro ⟨h1, h2⟩ k hk
      by_contra hne
      have a1 := h1 k
      have a2 := h2 k
      simp only [hne, if_false] at a1 a2
      rcases hk with hk | hk
      · exact hk a1
      · exact hk a2
    · intro hall
      constructor
      · intro k
        by_cases hk : k = target.GetId
        · simp [hk]
        · simp only [hk, if_false]
          by_contra hc
          exact hk (hall k (Or.inl hc))
      · intro k
        by_cases hk : k = target.GetId
        · simp [hk]
        · simp only [hk, if_false]
          by_contra hc
          exact hk (hall k (Or.inr hc))
  · rw [storedSecret_patched_same, h]
    rfl
  · intro k
    show mapaccess (applyMapPatch (diffMaps stored.StringData updated.StringData) stored.StringData) k = _
    rw [mapaccess_applyMapPatch_diffMaps]
    show (if mapaccess (mapdelete stored.StringData target.GetId) k = _ then _
      else mapaccess (mapdelete stored.StringData target.GetId) k) = _
    rw [mapaccess_mapdelete]
    by_cases hk : k = target.GetId
    · simp only [hk, if_true]
      split
      · next heq => exact heq.symm
      · rfl
    · simp [hk]
  · intro k
    show mapaccess (applyMapPatch (diffMaps stored.Data updated.Data) stored.Data) k = _
    rw [mapaccess_applyMapPatch_diffMaps]
    show (if mapaccess (mapdelete stored.Data target.GetId) k = _ then _
      else mapaccess (mapdelete stored.Data target.GetId) k) = _
    rw [mapaccess_mapdelete]
    by_cases hk : k = target.GetId
    · simp only [hk, if_true]
      split
      · next heq => exact heq.symm
      · rfl
    · simp [hk]
  · intro ns' name' hne
    exact storedSecret_patched_other _ _ _ _ _ _ hne
  · exact map_replaceFirst (Secret.isNamed ns target.GetProbeType)
      (fun x => StrategicMergePatch x (CreateTwoWayMergePatch stored updated).1)
      (fun secret => (secret.Namespace, secret.Name)) (fun x => rfl) store

/-! ### The lifecycle manager -/

/-- C1: the controller calls made by `AddOrUpdateTarget` are exactly one `StartProbe` with the
probe type of the target when `RegisterTarget` returned `(true, nil)`, and no call at all in
every other case (`(false, nil)`, any error, a panic); `StopProbe` is never called. -/
theorem addOrUpdateTarget_calls {σ : Type} (r : Registrar σ) (c : ProbeController σ)
    (target : Target) (s : σ) :
    callsOfAddOrUpdateTarget r c target s =
      (match (r.RegisterTarget target s).1 with
        | .ok (true, none) => [ControllerCall.StartProbe target.GetProbeType]
        | _ => []) := by
  unfold callsOfAddOrUpdateTarget ProbeLifecycleManager.AddOrUpdateTarget
  simp only [bind, Go.bind, Registrar.besideLog, ProbeController.recording, pure, Go.pure]
  rcases h : r.RegisterTarget target s with ⟨o, s'⟩
  rcases o with ⟨b, e⟩ | _
  · cases b <;> cases e <;> simp [Go.pure]
  · simp

/-- C2: the controller calls made by `DeleteTarget` are exactly one `StopProbe` with the probe
type of the target when `UnregisterTarget` returned `(true, nil)`, and no call at all in every
other case; `StartProbe` is never called. -/
theorem deleteTarget_calls {σ : Type} (r : Registrar σ) (c : ProbeController σ)
    (target : Target) (s : σ) :
    callsOfDeleteTarget r c target s =
      (match (r.UnregisterTarget target s).1 with
        | .ok (true, none) => [ControllerCall.StopProbe target.GetProbeType]
        | _ => []) := by
  unfold callsOfDeleteTarget ProbeLifecycleManager.DeleteTarget
  simp only [bind, Go.bind, Registrar.besideLog, ProbeController.recording, pure, Go.pure]
  rcases h : r.UnregisterTarget target s with ⟨o, s'⟩
  rcases o with ⟨b, e⟩ | _
  · cases b <;> cases e <;> simp [Go.pure]
  · simp

/-! ### The registrar on Kubernetes secrets -/

theorem registerUpdate_no_error_paths {σ : Type} (r : K8sSecretsRegistrar σ) (target : Target)
    (existingSecret : Option Secret) (s s' : σ) (b : Bool)
    (h : r.registerUpdate target existingSecret s = (Outcome.ok (b, none), s')) : b = true := by
  unfold K8sSecretsRegistrar.registerUpdate at h
  by_cases hb : target.Bytes.2 = none
  · simp only [hb, ne_eq, not_true_eq_false, if_false, bind, pure, Go.pure_bind] at h
    rw [Go.bind_apply] at h
    rcases hr : RetryOnConflict DefaultRetry (r.registerAttempt target target.Bytes.1)
      existingSecret s with ⟨o, s''⟩
    rw [show RetryOnConflict DefaultRetry (r.registerAttempt target target.3.1) existingSecret s
      = (o, s'') from hr] at h
    cases o with
    | ok a =>
      simp only [Go.pure_apply, Prod.mk.injEq, Outcome.ok.injEq] at h
      exact h.1.1.symm
    | nilPanic => simp at h
  · simp [hb, pure] at h

theorem registerTarget_no_error_paths {σ : Type} (r : K8sSecretsRegistrar σ) (target : Target)
    (s s' : σ) (b : Bool) (h : r.RegisterTarget target s = (Outcome.ok (b, none), s')) :
    b = true := by
  unfold K8sSecretsRegistrar.RegisterTarget at h
  simp only [bind, Go.bind_apply, pure] at h
  rcases hf : r.findSecret target s with ⟨o, s1⟩
  rw [hf] at h
  rcases o with ⟨existing, err⟩ | _
  · cases err with
    | some e => simp at h
    | none =>
      simp only [ne_eq, not_true_eq_false, if_false, Go.pure_bind] at h
      cases existing with
      | some x => exact registerUpdate_no_error_paths r target _ _ _ _ h
      | none =>
        simp only at h
        by_cases hb : target.Bytes.2 = none
        · simp only [TargetToSecret, hb, ne_eq, not_true_eq_false, if_false, Go.pure_bind, deref,
            Go.bind_apply] at h
          rcases hc : (r.client.Secrets r.nameSpace).Create
            { Namespace := "", Name := target.GetProbeType,
              StringData := some [(target.GetId, target.Bytes.1)], Data := none } s1 with ⟨o, s2⟩
          rw [hc] at h
          rcases o with ⟨created, err⟩ | _
          · cases err with
            | none =>
              simp only [Go.pure_apply, Prod.mk.injEq, Outcome.ok.injEq] at h
              exact h.1.1.symm
            | some e =>
              by_cases he : IsAlreadyExists e = true
              · simp only [he, Bool.not_true, Bool.false_eq_true, if_false, Go.pure_bind] at h
                exact registerUpdate_no_error_paths r target _ _ _ _ h
              · simp [he] at h
          · simp at h
        · simp [TargetToSecret, hb] at h
  · simp at h


/-- C3, as the code has it: when the secret of the probe type exists already (with or without
targets in it) and the target encodes without error, `RegisterTarget` on the store held in
memory returns `(true, nil)`, not `(false, nil)`. -/
theorem registerTarget_existing_reports_true (ns : String) (target : Target)
    (store : SecretStore) (stored : Secret)
    (h : storedSecret store ns target.GetProbeType = some stored)
    (hb : target.Bytes.2 = none) :
    ((memRegistrar ns).RegisterTarget target store).1 = Outcome.ok (true, none) := by
  obtain ⟨store', stored', hr, -⟩ := registerTarget_mem_existing ns target store stored h hb
  rw [hr]

theorem registerTarget_existing_reports_true_witness :
    storedSecret vcenterStore testNamespace vcenterMoid1.GetProbeType = some vcenterSecret ∧
      vcenterMoid1.Bytes.2 = none ∧
      ((memRegistrar testNamespace).RegisterTarget vcenterMoid1 vcenterStore).1
        = Outcome.ok (true, none) :=
  ⟨by decide, by decide,
    registerTarget_existing_reports_true testNamespace vcenterMoid1 vcenterStore vcenterSecret
      (by decide) (by decide)⟩

/-- C3 fails as stated: with the secret of `vcenter` holding `Moid2`, registering `Moid1`
succeeds and reports `true`; and registering `Moid1` twice in a row from the empty store
reports `true` both times. -/
theorem registerTarget_existing_reports_false_counterexample :
    (storedSecret vcenterStore testNamespace "vcenter").map (fun secret => secret.holds "Moid2")
        = some true ∧
      ((memRegistrar testNamespace).RegisterTarget vcenterMoid1 vcenterStore).1
        = Outcome.ok (true, none) ∧
      ((memRegistrar testNamespace).RegisterTarget vcenterMoid1 []).1 = Outcome.ok (true, none) ∧
      ((memRegistrar testNamespace).RegisterTarget vcenterMoid1
          ((memRegistrar testNamespace).RegisterTarget vcenterMoid1 []).2).1
        = Outcome.ok (true, none) := by
  decide

/-- C4: whatever the secrets client does and whatever the state of the store, a call of
`RegisterTarget` that returns without an error returns `true`. -/
theorem registerTarget_true_of_no_error {σ : Type} (r : K8sSecretsRegistrar σ) (target : Target)
    (s : σ) (b : Bool) (h : (r.RegisterTarget target s).1 = Outcome.ok (b, none)) :
    b = true :=
  registerTarget_no_error_paths r target s (r.RegisterTarget target s).2 b
    (Prod.ext h rfl)

theorem registerTarget_true_of_no_error_witness :
    ((memRegistrar testNamespace).RegisterTarget vcenterMoid1 vcenterStore).1
        = Outcome.ok (true, none) ∧ true = true :=
  ⟨by decide,
    registerTarget_true_of_no_error (memRegistrar testNamespace) vcenterMoid1 vcenterStore true
      (by decide)⟩

theorem registerTarget_mem_bytes_error (ns : String) (target : Target) (store : SecretStore)
    (e : Error) (hb : target.Bytes.2 = some e) :
    (memRegistrar ns).RegisterTarget target store = (Outcome.ok (false, some e), store) := by
  unfold K8sSecretsRegistrar.RegisterTarget
  simp only [bind, Go.bind_apply, findSecret_mem]
  cases storedSecret store ns target.GetProbeType with
  | none => simp [TargetToSecret, hb, pure]
  | some x => simp [K8sSecretsRegistrar.registerUpdate, hb, pure]

/-- C5, as the code has it, on the store held in memory: after a successful
`RegisterTarget` the secret named after the probe type exists in the namespace and its
`StringData` maps the target id to the bytes of the target, whatever it held for the id
before; a secret that did not exist before holds this entry only and a nil `Data`; in a
secret that existed, every other id keeps its entry of `StringData`, and `Data` is left as
it was for every id, the id of the target included; the secrets of other names or
namespaces are unchanged. -/
theorem registerTarget_stores_target (ns : String) (target : Target) (store : SecretStore)
    (b : Bool)
    (h : ((memRegistrar ns).RegisterTarget target store).1 = Outcome.ok (b, none)) :
    ∃ stored',
      storedSecret ((memRegistrar ns).RegisterTarget target store).2 ns target.GetProbeType
        = some stored' ∧
      mapaccess stored'.StringData target.GetId = some target.Bytes.1 ∧
      (storedSecret store ns target.GetProbeType = none →
        stored'.StringData = some [(target.GetId, target.Bytes.1)] ∧ stored'.Data = none) ∧
      (∀ stored, storedSecret store ns target.GetProbeType = some stored →
        (∀ k, k ≠ target.GetId →
          mapaccess stored'.StringData k = mapaccess stored.StringData k) ∧
        (∀ k, mapaccess stored'.Data k = mapaccess stored.Data k)) ∧
      (∀ ns' name', ¬ (ns' = ns ∧ name' = target.GetProbeType) →
        storedSecret ((memRegistrar ns).RegisterTarget target store).2 ns' name'
          = storedSecret store ns' name') := by
  have hb : target.Bytes.2 = none := by
    cases hbe : target.Bytes.2 with
    | none => rfl
    | some e =>
      rw [registerTarget_mem_bytes_error ns target store e hbe] at h
      simp at h
  cases hs : storedSecret store ns target.GetProbeType with
  | none =>
    rw [registerTarget_mem_new ns target store hs hb]
    refine ⟨{ Namespace := ns, Name := target.GetProbeType,
              StringData := some [(target.GetId, target.Bytes.1)], Data := none }, ?_, ?_, ?_, ?_, ?_⟩
    · simp [storedSecret_append, hs, Secret.isNamed]
    · simp [mapaccess, mapentries, List.lookup_cons]
    · intro _
      exact ⟨rfl, rfl⟩
    · intro stored hst
      cases hst
    · intro ns' name' hne
      rw [storedSecret_append]
      have hnot : ∀ sd d, Secret.isNamed ns' name' ⟨ns, target.GetProbeType, sd, d⟩ = false := by
        intro sd d
        simp only [Secret.isNamed, Bool.and_eq_false_iff, beq_eq_false_iff_ne, ne_eq]
        by_cases h1 : ns = ns'
        · right
          intro h2
          exact hne ⟨h1.symm, h2.symm⟩
        · left
          exact h1
      simp [hnot]
  | some stored =>
    obtain ⟨store', stored', hr, hst, hsd, hd, hframe⟩ :=
      registerTarget_mem_existing ns target store stored hs hb
    rw [hr]
    refine ⟨stored', hst, ?_, ?_, ?_, hframe⟩
    · simp [hsd]
    · intro hn
      cases hn
    · intro stored2 hst2
      cases hst2
      refine ⟨?_, hd⟩
      intro k hk
      simp [hsd, hk]

theorem registerTarget_stores_target_witness :
    ((memRegistrar testNamespace).RegisterTarget vcenterMoid1 vcenterStore).1
        = Outcome.ok (true, none) ∧
    ∃ stored',
      storedSecret ((memRegistrar testNamespace).RegisterTarget vcenterMoid1 vcenterStore).2
        testNamespace vcenterMoid1.GetProbeType = some stored' ∧
      mapaccess stored'.StringData vcenterMoid1.GetId = some vcenterMoid1.Bytes.1 ∧
      (storedSecret vcenterStore testNamespace vcenterMoid1.GetProbeType = none →
        stored'.StringData = some [(vcenterMoid1.GetId, vcenterMoid1.Bytes.1)] ∧
        stored'.Data = none) ∧
      (∀ stored, storedSecret vcenterStore testNamespace vcenterMoid1.GetProbeType = some stored →
        (∀ k, k ≠ vcenterMoid1.GetId →
          mapaccess stored'.StringData k = mapaccess stored.StringData k) ∧
        (∀ k, mapaccess stored'.Data k = mapaccess stored.Data k)) ∧
      (∀ ns' name', ¬ (ns' = testNamespace ∧ name' = vcenterMoid1.GetProbeType) →
        storedSecret ((memRegistrar testNamespace).RegisterTarget vcenterMoid1 vcenterStore).2
          ns' name' = storedSecret vcenterStore ns' name') :=
  ⟨by decide,
    registerTarget_stores_target testNamespace vcenterMoid1 vcenterStore true (by decide)⟩

/-- C5 fails as stated: the secret of `vcenter` holds an earlier payload of `Moid1` in
`Data`; `RegisterTarget` of `Moid1` succeeds and writes the new payload to `StringData`, and
the earlier payload stays in `Data`, so the secret holds two entries for the id and the
earlier payload is not overwritten. -/
theorem registerTarget_keeps_data_entry_counterexample :
    (memRegistrar testNamespace).RegisterTarget vcenterMoid1 [vcenterDataSecret]
      = (Outcome.ok (true, none),
          [{ Namespace := "turbonomic", Name := "vcenter",
             StringData := some
               [("Moid1", "id: Moid1\nprobetype: vcenter\nusername: user1\npassword: pass1\n")],
             Data := some
               [("Moid1", "id: Moid1\nprobetype: vcenter\nusername: user2\npassword: pass2\n")] }]) := by
  decide

theorem holds_false_iff (secret : Secret) (k : String) :
    secret.holds k = false ↔
      mapaccess secret.StringData k = none ∧ mapaccess secret.Data k = none := by
  unfold Secret.holds
  simp

/-- C6: `UnregisterTarget` on the store held in memory succeeds, and it returns `true`
exactly when the secret of the probe type holds no id other than the id of the target (in
particular when there is no such secret), which is exactly when the secret of the probe type
holds no id at all after the call. -/
theorem unregisterTarget_reports_last (ns : String) (target : Target) (store : SecretStore) :
    ∃ b,
      ((memRegistrar ns).UnregisterTarget target store).1 = Outcome.ok (b, none) ∧
      (b = true ↔ ∀ stored, storedSecret store ns target.GetProbeType = some stored →
        ∀ k, stored.holds k = true → k = target.GetId) ∧
      (b = true ↔ ∀ stored',
        storedSecret ((memRegistrar ns).UnregisterTarget target store).2 ns target.GetProbeType
          = some stored' → ∀ k, stored'.holds k = false) := by
  cases hs : storedSecret store ns target.GetProbeType with
  | none =>
    rw [unregisterTarget_mem_none ns target store hs]
    refine ⟨true, rfl, ?_, ?_⟩
    · simp
    · simp [hs]
  | some stored =>
    obtain ⟨b, store', stored', hr, hb, hst, hsd, hd, -⟩ :=
      unregisterTarget_mem_existing ns target store stored hs
    rw [hr]
    refine ⟨b, rfl, ?_, ?_⟩
    · rw [hb]
      constructor
      · intro hall stored2 hst2
        cases hst2
        exact hall
      · intro hall
        exact hall stored rfl
    · rw [hb]
      show _ ↔ ∀ stored2, storedSecret store' ns target.GetProbeType = some stored2 → _
      rw [hst]
      constructor
      · intro hall stored2 hst2 k
        cases hst2
        rw [holds_false_iff, hsd, hd]
        by_cases hk : k = target.GetId
        · simp [hk]
        · simp only [hk, if_false]
          constructor
          · by_contra hc
            exact hk (hall k ((holds_iff stored k).mpr (Or.inl hc)))
          · by_contra hc
            exact hk (hall k ((holds_iff stored k).mpr (Or.inr hc)))
      · intro hall k hk
        by_contra hne
        have := hall stored' rfl k
        rw [holds_false_iff, hsd, hd] at this
        simp only [hne, if_false] at this
        rcases (holds_iff stored k).mp hk with h1 | h1
        · exact h1 this.1
        · exact h1 this.2

/-- C7: `UnregisterTarget` on the store held in memory writes nothing when the probe type has
no secret; otherwise it removes the entry of the target id from the secret of the probe type
and keeps every other entry of it; the secrets of other names or namespaces are unchanged,
and no secret is created or deleted. -/
theorem unregisterTarget_frame (ns : String) (target : Target) (store : SecretStore) :
    (storedSecret store ns target.GetProbeType = none →
      ((memRegistrar ns).UnregisterTarget target store).2 = store) ∧
    (∀ stored, storedSecret store ns target.GetProbeType = some stored →
      ∃ stored',
        storedSecret ((memRegistrar ns).UnregisterTarget target store).2 ns target.GetProbeType
          = some stored' ∧
        (∀ k, mapaccess stored'.StringData k =
          if k = target.GetId then none else mapaccess stored.StringData k) ∧
        (∀ k, mapaccess stored'.Data k =
          if k = target.GetId then none else mapaccess stored.Data k)) ∧
    (∀ ns' name', ¬ (ns' = ns ∧ name' = target.GetProbeType) →
      storedSecret ((memRegistrar ns).UnregisterTarget target store).2 ns' name'
        = storedSecret store ns' name') ∧
    (((memRegistrar ns).UnregisterTarget target store).2.map
        (fun secret => (secret.Namespace, secret.Name))
      = store.map (fun secret => (secret.Namespace, secret.Name))) := by
  cases hs : storedSecret store ns target.GetProbeType with
  | none =>
    rw [unregisterTarget_mem_none ns target store hs]
    refine ⟨fun _ => rfl, ?_, fun _ _ _ => rfl, rfl⟩
    intro stored hst
    cases hst
  | some stored =>
    obtain ⟨b, store', stored', hr, hb, hst, hsd, hd, hframe, hkeys⟩ :=
      unregisterTarget_mem_existing ns target store stored hs
    refine ⟨?_, ?_, ?_, ?_⟩
    · intro hn
      cases hn
    · intro stored2 hst2
      cases hst2
      rw [hr]
      exact ⟨stored', hst, hsd, hd⟩
    · rw [hr]
      exact hframe
    · rw [hr]
      exact hkeys

/-- C8, as the code has it: round trip on the store held in memory, for a target whose
method `Bytes` returns no error.  When the probe type has no secret, `RegisterTarget`
returns `(true, nil)`, the `UnregisterTarget` that follows returns `(true, nil)`, and
afterwards the secret of the probe type holds no entry, neither for the id of the target nor
for any other id. -/
theorem register_unregister_round_trip (ns : String) (target : Target) (store : SecretStore)
    (hnone : storedSecret store ns target.GetProbeType = none)
    (hb : target.Bytes.2 = none) :
    ((memRegistrar ns).RegisterTarget target store).1 = Outcome.ok (true, none) ∧
    ((memRegistrar ns).UnregisterTarget target
        ((memRegistrar ns).RegisterTarget target store).2).1 = Outcome.ok (true, none) ∧
    ∃ stored',
      storedSecret
        ((memRegistrar ns).UnregisterTarget target
          ((memRegistrar ns).RegisterTarget target store).2).2 ns target.GetProbeType
        = some stored' ∧
      ∀ k, stored'.holds k = false ∧ stored'.payload k = none := by
  rw [registerTarget_mem_new ns target store hnone hb]
  refine ⟨rfl, ?_⟩
  have hs : storedSecret
      (store ++ [{ Namespace := ns, Name := target.GetProbeType,
                   StringData := some [(target.GetId, target.Bytes.1)], Data := none }])
      ns target.GetProbeType
      = some { Namespace := ns, Name := target.GetProbeType,
               StringData := some [(target.GetId, target.Bytes.1)], Data := none } := by
    simp [storedSecret_append, hnone, Secret.isNamed]
  obtain ⟨b, store', stored', hr, hbt, hst, hsd, hd, -⟩ :=
    unregisterTarget_mem_existing ns target _ _ hs
  have hbtrue : b = true := by
    rw [hbt]
    intro k hk
    by_contra hne
    have hka : (k == target.GetId) = false := by simpa using hne
    simp [Secret.holds, mapaccess, mapentries, List.lookup_cons, hka] at hk
  subst hbtrue
  simp only [hr, true_and]
  refine ⟨stored', hst, ?_⟩
  intro k
  have h1 : mapaccess stored'.StringData k = none := by
    rw [hsd]
    by_cases hk : k = target.GetId
    · simp [hk]
    · have hka : (k == target.GetId) = false := by simpa using hk
      simp [hk, mapaccess, mapentries, List.lookup_cons, hka]
  have h2 : mapaccess stored'.Data k = none := by
    rw [hd]
    by_cases hk : k = target.GetId
    · simp [hk]
    · simp [hk, mapaccess, mapentries]
  simp [Secret.holds, Secret.payload, h1, h2]

theorem register_unregister_round_trip_witness :
    storedSecret [] testNamespace vcenterMoid1.GetProbeType = none ∧
    vcenterMoid1.Bytes.2 = none ∧
    ((memRegistrar testNamespace).RegisterTarget vcenterMoid1 []).1 = Outcome.ok (true, none) ∧
    ((memRegistrar testNamespace).UnregisterTarget vcenterMoid1
        ((memRegistrar testNamespace).RegisterTarget vcenterMoid1 []).2).1
      = Outcome.ok (true, none) ∧
    ∃ stored',
      storedSecret
        ((memRegistrar testNamespace).UnregisterTarget vcenterMoid1
          ((memRegistrar testNamespace).RegisterTarget vcenterMoid1 []).2).2
        testNamespace vcenterMoid1.GetProbeType = some stored' ∧
      ∀ k, stored'.holds k = false ∧ stored'.payload k = none :=
  ⟨by decide, by decide,
    register_unregister_round_trip testNamespace vcenterMoid1 [] (by decide) (by decide)⟩

/-- C8 fails as stated: for a target whose method `Bytes` returns an error, on a store
without a secret of the probe type and without any store error, `RegisterTarget` returns
`(false, err)` and not `(true, nil)`, and nothing is stored. -/
theorem register_unencodable_target_counterexample :
    storedSecret [] testNamespace unencodableTarget.GetProbeType = none ∧
    (memRegistrar testNamespace).RegisterTarget unencodableTarget []
      = (Outcome.ok (false, some encodingError), []) := by
  decide

/-! ### Unstructured objects -/

theorem lookup_objSet (m : List (String × JSONValue)) (k k' : String) (v : JSONValue) :
    (objSet m k v).lookup k' = if k' = k then some v else m.lookup k' := by
  induction m with
  | nil =>
    by_cases hk : k' = k
    · simp [objSet, List.lookup_cons, hk]
    · have hb : (k' == k) = false := by simpa using hk
      simp [objSet, List.lookup_cons, hk, hb]
  | cons e es ih =>
    obtain ⟨a, b⟩ := e
    by_cases hak : a = k
    · subst hak
      by_cases hk : k' = a
      · simp [objSet, List.lookup_cons, hk]
      · have hb : (k' == a) = false := by simpa using hk
        simp [objSet, List.lookup_cons, hk, hb]
    · by_cases hka : k' = a
      · subst hka
        simp [objSet, hak, List.lookup_cons]
      · have hb : (k' == a) = false := by simpa using hka
        simp only [objSet, hak, if_false, List.lookup_cons, hb, ih]

theorem objSet_of_lookup (m : List (String × JSONValue)) (k : String) (v : JSONValue)
    (h : m.lookup k = some v) : objSet m k v = m := by
  induction m with
  | nil => simp at h
  | cons e es ih =>
    obtain ⟨a, b⟩ := e
    by_cases hak : a = k
    · subst hak
      simp only [List.lookup_cons, beq_self_eq_true, Option.some.injEq] at h
      simp [objSet, h]
    · have hb : (k == a) = false := by simpa using (Ne.symm hak)
      simp only [List.lookup_cons, hb] at h
      simp [objSet, hak, ih h]

theorem nestedFieldFrom_object_cons (m : List (String × JSONValue)) (field : String)
    (rest : List String) :
    nestedFieldFrom (.object m) (field :: rest) =
      (match m.lookup field with
        | some v => nestedFieldFrom v rest
        | none => (none, false, none)) := by
  rw [nestedFieldFrom]

/-- A failed `SetNestedField` has changed nothing. -/
theorem SetNestedField_error_unchanged (fields : List String) (m : List (String × JSONValue))
    (value : JSONValue) (e : Error) (h : (SetNestedField m value fields).2 = some e) :
    (SetNestedField m value fields).1 = m := by
  match fields with
  | [] => simp [SetNestedField] at h
  | [field] => simp [SetNestedField] at h
  | field :: next :: rest =>
    rw [SetNestedField] at h ⊢
    cases hl : m.lookup field with
    | none =>
      simp only [hl] at h ⊢
      rcases hrec : SetNestedField [] value (next :: rest) with ⟨nv, _ | err⟩
      · simp [hrec] at h
      · simp [hrec]
    | some v =>
      cases v with
      | object valMap =>
        simp only [hl] at h ⊢
        rcases hrec : SetNestedField valMap value (next :: rest) with ⟨nv, _ | err⟩
        · simp [hrec] at h
        · simp [hrec]
      | null => simp [hl]
      | bool b => simp [hl]
      | number n => simp [hl]
      | string s => simp [hl]
      | array items => simp [hl]

/-- After a successful `SetNestedField` the value is found at the path. -/
theorem SetNestedField_get (fields : List String) (hne : fields ≠ [])
    (m m' : List (String × JSONValue)) (value : JSONValue)
    (h : SetNestedField m value fields = (m', none)) :
    nestedFieldFrom (.object m') fields = (some value, true, none) := by
  induction fields generalizing m m' with
  | nil => exact absurd rfl hne
  | cons field tail ih =>
    cases tail with
    | nil =>
      simp only [SetNestedField, Prod.mk.injEq, and_true] at h
      subst h
      rw [nestedFieldFrom_object_cons, lookup_objSet]
      simp [nestedFieldFrom]
    | cons next rest =>
      rw [SetNestedField] at h
      split at h
      · next valMap hl =>
        split at h
        · next valMap' hrec =>
          simp only [Prod.mk.injEq, and_true] at h
          subst h
          rw [nestedFieldFrom_object_cons, lookup_objSet]
          simpa using ih (by simp) valMap valMap' hrec
        · simp at h
      · simp at h
      · next hl =>
        split at h
        · next newVal hrec =>
          simp only [Prod.mk.injEq, and_true] at h
          subst h
          rw [nestedFieldFrom_object_cons, lookup_objSet]
          simpa using ih (by simp) [] newVal hrec
        · simp at h

/-- A successful `SetNestedField` changes nothing at a path that diverges from its own. -/
theorem SetNestedField_other (fields : List String) (m m' : List (String × JSONValue))
    (value : JSONValue) (h : SetNestedField m value fields = (m', none))
    (path : List String) (hd : pathsDiverge path fields) :
    nestedFieldFrom (.object m') path = nestedFieldFrom (.object m) path := by
  induction fields generalizing m m' path with
  | nil => cases path <;> simp [pathsDiverge] at hd
  | cons field tail ih =>
    cases path with
    | nil => simp [pathsDiverge] at hd
    | cons a as =>
      simp only [pathsDiverge] at hd
      by_cases hab : a = field
      · subst hab
        have hd' : pathsDiverge as tail := by
          rcases hd with hd | hd
          · exact absurd rfl hd
          · exact hd
        cases tail with
        | nil => cases as <;> simp [pathsDiverge] at hd'
        | cons next rest =>
          rw [SetNestedField] at h
          split at h
          · next valMap hl =>
            split at h
            · next valMap' hrec =>
              simp only [Prod.mk.injEq, and_true] at h
              subst h
              rw [nestedFieldFrom_object_cons, nestedFieldFrom_object_cons, lookup_objSet, hl]
              simpa using ih valMap valMap' hrec as hd'
            · simp at h
          · simp at h
          · next hl =>
            split at h
            · next newVal hrec =>
              simp only [Prod.mk.injEq, and_true] at h
              subst h
              rw [nestedFieldFrom_object_cons, nestedFieldFrom_object_cons, lookup_objSet, hl]
              simp only [if_true]
              rw [ih [] newVal hrec as hd']
              cases as with
              | nil => simp [pathsDiverge] at hd'
              | cons a2 as2 => simp [nestedFieldFrom_object_cons]
            · simp at h
      · have hlook : m'.lookup a = m.lookup a := by
          cases tail with
          | nil =>
            simp only [SetNestedField, Prod.mk.injEq, and_true] at h
            subst h
            rw [lookup_objSet, if_neg hab]
          | cons next rest =>
            rw [SetNestedField] at h
            split at h
            · split at h
              · simp only [Prod.mk.injEq, and_true] at h
                subst h
                rw [lookup_objSet, if_neg hab]
              · simp at h
            · simp at h
            · split at h
              · simp only [Prod.mk.injEq, and_true] at h
                subst h
                rw [lookup_objSet, if_neg hab]
              · simp at h
        rw [nestedFieldFrom_object_cons, nestedFieldFrom_object_cons, hlook]

/-- Setting a value that is there already changes nothing. -/
theorem SetNestedField_of_get (fields : List String) (hne : fields ≠ [])
    (m : List (String × JSONValue)) (value : JSONValue)
    (h : nestedFieldFrom (.object m) fields = (some value, true, none)) :
    SetNestedField m value fields = (m, none) := by
  induction fields generalizing m with
  | nil => exact absurd rfl hne
  | cons field tail ih =>
    rw [nestedFieldFrom_object_cons] at h
    cases hl : m.lookup field with
    | none => simp [hl] at h
    | some v =>
      rw [hl] at h
      simp only at h
      cases tail with
      | nil =>
        simp only [nestedFieldFrom, Prod.mk.injEq, Option.some.injEq, and_true] at h
        subst h
        simp [SetNestedField, objSet_of_lookup m field v hl]
      | cons next rest =>
        cases v with
        | object valMap =>
          have hrec := ih (by simp) valMap h
          rw [SetNestedField, hl]
          simp only [hrec]
          rw [objSet_of_lookup m field _ hl]
        | null => simp [nestedFieldFrom] at h
        | bool b => simp [nestedFieldFrom] at h
        | number n => simp [nestedFieldFrom] at h
        | string s => simp [nestedFieldFrom] at h
        | array items => simp [nestedFieldFrom] at h

/-! ### The cluster held in memory -/

/-- An attempt that succeeds at once ends the retry loop with its result. -/
theorem OnError_of_success {σ κ : Type} (retriable : Error → Bool)
    (fn : κ → Go σ (Option Error × κ)) (k k' : κ) (s s' : σ)
    (h : fn k s = (Outcome.ok (none, k'), s')) :
    OnError DefaultRetry retriable fn k s = (Outcome.ok (none, k'), s') := by
  unfold OnError ExponentialBackoff
  show (ExponentialBackoffSteps _ (4 + 1) (k, none)).bind _ s = _
  rw [ExponentialBackoffSteps]
  rw [Go.bind_apply, Go.bind_apply, Go.bind_apply, h]
  simp only [Go.pure_apply]
  rw [if_pos (Or.inr trivial)]
  rfl

/-- An attempt that fails with an error that is not retried ends the retry loop with that
error. -/
theorem OnError_of_error {σ κ : Type} (retriable : Error → Bool)
    (fn : κ → Go σ (Option Error × κ)) (k k' : κ) (s s' : σ) (e : Error)
    (h : fn k s = (Outcome.ok (some e, k'), s')) (hr : retriable e = false)
    (hw : e ≠ Error.waitTimeout) :
    OnError DefaultRetry retriable fn k s = (Outcome.ok (some e, k'), s') := by
  unfold OnError ExponentialBackoff
  show (ExponentialBackoffSteps _ (4 + 1) (k, none)).bind _ s = _
  rw [ExponentialBackoffSteps]
  rw [Go.bind_apply, Go.bind_apply, Go.bind_apply, h]
  simp only [hr, Bool.false_eq_true, if_false, Go.pure_apply]
  rw [if_pos (Or.inl (by simp))]
  simp [hw]

theorem find?_append_of_none {α : Type} (p : α → Bool) (l : List α) (x : α)
    (h : l.find? p = none) (hx : p x = true) : (l ++ [x]).find? p = some x := by
  rw [List.find?_append, h]
  simp [List.find?_cons, hx]

theorem filter_of_find?_none {α : Type} (p : α → Bool) (l : List α) (h : l.find? p = none) :
    l.filter p = [] := by
  rw [find?_eq_head?_filter] at h
  cases hf : l.filter p with
  | nil => rfl
  | cons x xs => simp [hf] at h

theorem filter_of_find?_some {α : Type} (p : α → Bool) (l : List α) (x : α)
    (h : l.find? p = some x) : ∃ xs, l.filter p = x :: xs := by
  rw [find?_eq_head?_filter] at h
  cases hf : l.filter p with
  | nil => simp [hf] at h
  | cons y ys =>
    rw [hf] at h
    simp only [List.head?_cons, Option.some.injEq] at h
    exact ⟨ys, by rw [h]⟩

theorem getOrCreateCRD_mem (cluster : Cluster) :
    getOrCreateCRD memApiextensions cluster
      = (Outcome.ok (some (xlCrdOf cluster), none), withXlCrd cluster) := by
  unfold getOrCreateCRD xlCrdOf withXlCrd
  simp only [parseErr, ne_eq, not_true_eq_false, if_false, bind, pure, Go.pure_bind,
    memApiextensions, OneTermEqualSelector, Go.bind_apply, memListCRD, if_true, deref]
  cases hfind : cluster.crds.find? (fun x => x.Name == defaultCrd.Name) with
  | none =>
    have hget : (fun (_ : Option CustomResourceDefinition) =>
          Go.bind (memGetCRD defaultCrd.Name) (fun r => Go.pure (r.2, r.1))) none
          { cluster with crds := cluster.crds ++ [defaultCrd] }
        = (Outcome.ok (none, some defaultCrd),
            { cluster with crds := cluster.crds ++ [defaultCrd] }) := by
      show Go.bind (memGetCRD defaultCrd.Name) (fun r => Go.pure (r.2, r.1)) _ = _
      rw [Go.bind_apply]
      simp only [memGetCRD]
      rw [find?_append_of_none _ _ _ hfind (by simp)]
      rfl
    simp only [filter_of_find?_none _ _ hfind, Go.pure_apply, memCreateCRD, hfind,
      Option.isSome_none, Bool.false_eq_true, if_false, ne_eq, not_true_eq_false,
      Option.getD_none]
    have hcreate : memCreateCRD defaultCrd cluster
        = (Outcome.ok (some defaultCrd, none),
            { cluster with crds := cluster.crds ++ [defaultCrd] }) := by
      simp [memCreateCRD, hfind]
    rw [Go.bind_apply, hcreate]
    simp only [not_true_eq_false, if_false]
    rw [Go.bind_apply, OnError_of_success IsNotFound _ _ _ _ _ hget]
    rfl
  | some crd =>
    obtain ⟨xs, hxs⟩ := filter_of_find?_some _ _ _ hfind
    simp only [hxs, Go.pure_apply, Option.isSome_some, if_true, Option.getD_some]

theorem find?_of_first {α : Type} (p q : α → Bool) (l : List α) (x : α)
    (hfind : l.find? p = some x) (hq : q x = true) (hqp : ∀ y, q y = true → p y = true) :
    l.find? q = some x := by
  induction l with
  | nil => simp at hfind
  | cons y ys ih =>
    by_cases hy : p y = true
    · simp only [List.find?_cons, hy, Option.some.injEq] at hfind
      subst hfind
      simp [List.find?_cons, hq]
    · have hy' : p y = false := by simpa using hy
      have hqy : q y = false := by
        by_contra hc
        exact hy (hqp y (by simpa using hc))
      simp only [List.find?_cons, hy'] at hfind
      simp [List.find?_cons, hqy, ih hfind]

theorem find?_replaceFirst_of_first {α : Type} (p q : α → Bool) (f : α → α) (l : List α)
    (x : α) (hfind : l.find? p = some x) (hq : q x = true)
    (hqp : ∀ y, q y = true → p y = true) (hpf : p (f x) = true) :
    (replaceFirst q f l).find? p = some (f x) := by
  induction l with
  | nil => simp at hfind
  | cons y ys ih =>
    by_cases hy : p y = true
    · simp only [List.find?_cons, hy, Option.some.injEq] at hfind
      subst hfind
      simp [replaceFirst, hq, List.find?_cons, hpf]
    · have hy' : p y = false := by simpa using hy
      have hqy : q y = false := by
        by_contra hc
        exact hy (hqp y (by simpa using hc))
      simp only [List.find?_cons, hy'] at hfind
      simp [replaceFirst, hqy, List.find?_cons, hy', ih hfind]

theorem replaceFirst_of_find? {α : Type} (q : α → Bool) (l : List α) (x : α)
    (hfind : l.find? q = some x) : replaceFirst q (fun _ => x) l = l := by
  induction l with
  | nil => rfl
  | cons y ys ih =>
    by_cases hy : q y = true
    · simp only [List.find?_cons, hy, Option.some.injEq] at hfind
      subst hfind
      simp [replaceFirst, hy]
    · have hy' : q y = false := by simpa using hy
      simp only [List.find?_cons, hy'] at hfind
      simp [replaceFirst, hy', ih hfind]

theorem getGvrFromCrd_cases (crd : CustomResourceDefinition) :
    (∃ e, getGvrFromCrd crd = (none, some e)) ∨ (∃ gvr, getGvrFromCrd crd = (some gvr, none)) := by
  unfold getGvrFromCrd
  by_cases h : firstServed crd.Spec.Version crd.Spec.Versions = ""
  · left
    simp [h]
  · right
    simp [h]

theorem xlCrdOf_withXlCrd (cluster : Cluster) : xlCrdOf (withXlCrd cluster) = xlCrdOf cluster := by
  unfold xlCrdOf withXlCrd
  cases h : cluster.crds.find? (fun x => x.Name == defaultCrd.Name) with
  | none =>
    simp only [Option.isSome_none, Bool.false_eq_true, if_false, Option.getD_none]
    rw [find?_append_of_none _ _ _ h (by simp)]
    rfl
  | some crd => simp [h]

theorem withXlCrd_stored (cluster : Cluster) :
    ((withXlCrd cluster).crds.find? (fun x => x.Name == defaultCrd.Name)).isSome = true := by
  unfold withXlCrd
  cases h : cluster.crds.find? (fun x => x.Name == defaultCrd.Name) with
  | none =>
    simp only [Option.isSome_none, Bool.false_eq_true, if_false]
    rw [find?_append_of_none _ _ _ h (by simp)]
    rfl
  | some crd => simp [h]

theorem withXlCrd_resources (cluster : Cluster) :
    (withXlCrd cluster).resources = cluster.resources := by
  unfold withXlCrd
  split <;> rfl

theorem withXlCrd_of_stored (cluster : Cluster)
    (h : (cluster.crds.find? (fun x => x.Name == defaultCrd.Name)).isSome = true) :
    withXlCrd cluster = cluster := by
  unfold withXlCrd
  rw [if_pos h]

theorem newXlCR_GetNamespace (gvr : GroupVersionResource) (crd : CustomResourceDefinition)
    (ns : String) : (newXlCR gvr crd ns).GetNamespace = ns := by
  rfl

theorem newXlCR_GetName (gvr : GroupVersionResource) (crd : CustomResourceDefinition)
    (ns : String) : (newXlCR gvr crd ns).GetName = XlCrDefaultName := by
  rfl

theorem GetOrCreateCR_mem_error (ns : String) (cluster : Cluster) (e : Error)
    (hg : getGvrFromCrd (xlCrdOf cluster) = (none, some e)) :
    ∃ e', (GetOrCreateCR memApiextensions memDynamic ns cluster).1
      = Outcome.ok (none, none, some e') := by
  unfold GetOrCreateCR
  simp only [bind, Go.bind_apply, getOrCreateCRD_mem, pure, Go.pure_bind, deref, hg]
  simp

theorem GetOrCreateCR_mem_ok (ns : String) (cluster : Cluster) (gvr : GroupVersionResource)
    (hg : getGvrFromCrd (xlCrdOf cluster) = (some gvr, none)) :
    ∃ cr c2,
      GetOrCreateCR memApiextensions memDynamic ns cluster
        = (Outcome.ok (some cr, some gvr, none), c2) ∧
      c2.crds = (withXlCrd cluster).crds ∧
      c2.resources.find? (inNamespace gvr ns) = some (gvr, cr) ∧
      (∀ r, cluster.resources.find? (inNamespace gvr ns) = some r →
        cr = r.2 ∧ c2 = withXlCrd cluster) ∧
      (cluster.resources.find? (inNamespace gvr ns) = none →
        cr = newXlCR gvr (xlCrdOf cluster) ns) := by
  unfold GetOrCreateCR
  simp only [bind, Go.bind_apply, getOrCreateCRD_mem, pure, Go.pure_bind, deref, hg, memDynamic,
    memListCR, ne_eq, not_true_eq_false, if_false, Go.pure_apply]
  cases hfind : cluster.resources.find? (inNamespace gvr ns) with
  | none =>
    have hfind' : (withXlCrd cluster).resources.find? (inNamespace gvr ns) = none := by
      rw [withXlCrd_resources]
      exact hfind
    have hres : (withXlCrd cluster).resources.find?
        (isResource gvr ns (newXlCR gvr (xlCrdOf cluster) ns).GetName) = none := by
      rw [List.find?_eq_none] at hfind' ⊢
      intro x hx
      have := hfind' x hx
      simp only [isResource, Bool.and_eq_true, not_and]
      intro h1
      exact absurd h1 this
    refine ⟨newXlCR gvr (xlCrdOf cluster) ns,
      { withXlCrd cluster with
        resources := (withXlCrd cluster).resources ++ [(gvr, newXlCR gvr (xlCrdOf cluster) ns)] },
      ?_, rfl, ?_, ?_, fun _ => rfl⟩
    · simp only [filter_of_find?_none _ _ hfind', List.map_nil]
      rw [Go.bind_apply]
      simp only [memCreateCR, newXlCR_GetNamespace, ne_eq, not_true_eq_false, if_false, hres,
        Option.isSome_none, Bool.false_eq_true]
      rfl
    · exact find?_append_of_none _ _ _ hfind'
        (by simp [inNamespace, newXlCR_GetNamespace])
    · intro r hr
      cases hr
  | some r =>
    have hfind' : (withXlCrd cluster).resources.find? (inNamespace gvr ns) = some r := by
      rw [withXlCrd_resources]
      exact hfind
    obtain ⟨xs, hxs⟩ := filter_of_find?_some _ _ _ hfind'
    have hr1 : r.1 = gvr := by
      have := List.find?_some hfind
      simp only [inNamespace, Bool.and_eq_true, decide_eq_true_eq] at this
      exact this.1
    refine ⟨r.2, withXlCrd cluster, ?_, rfl, ?_, ?_, ?_⟩
    · simp only [hxs, List.map_cons]
      rfl
    · rw [hfind', ← hr1]
    · intro r' hr'
      cases hr'
      exact ⟨rfl, rfl⟩
    · intro hn
      cases hn

theorem SetNestedField_spec_GetNamespace (m m' : List (String × JSONValue)) (value : JSONValue)
    (rest : List String) (h : SetNestedField m value ("spec" :: rest) = (m', none)) :
    (Unstructured.mk m').GetNamespace = (Unstructured.mk m).GetNamespace := by
  unfold Unstructured.GetNamespace NestedString NestedFieldNoCopy
  rw [SetNestedField_other _ _ _ _ h ["metadata", "namespace"] (Or.inl (by decide))]

theorem SetNestedField_spec_GetName (m m' : List (String × JSONValue)) (value : JSONValue)
    (rest : List String) (h : SetNestedField m value ("spec" :: rest) = (m', none)) :
    (Unstructured.mk m').GetName = (Unstructured.mk m).GetName := by
  unfold Unstructured.GetName NestedString NestedFieldNoCopy
  rw [SetNestedField_other _ _ _ _ h ["metadata", "name"] (Or.inl (by decide))]

/-- When the flag can be set in the record that `GetOrCreateCR` hands over, `setEnabledFlag`
stores the record with the flag set and returns no error. -/
theorem setEnabledFlag_mem_run_ok (ns probeType : String) (enabled : Bool) (cluster c2 : Cluster)
    (gvr : GroupVersionResource) (cr : Unstructured) (obj' : List (String × JSONValue))
    (hG : GetOrCreateCR memApiextensions memDynamic ns cluster
      = (Outcome.ok (some cr, some gvr, none), c2))
    (hfind : c2.resources.find? (inNamespace gvr ns) = some (gvr, cr))
    (hset : SetNestedField cr.Object (.bool enabled) ["spec", probeType, "enabled"]
      = (obj', none)) :
    (memController ns).setEnabledFlag probeType enabled cluster =
      (Outcome.ok none,
        { c2 with
          resources := replaceFirst (isResource gvr ns cr.GetName) (fun _ => (gvr, ⟨obj'⟩))
            c2.resources }) := by
  have hin : inNamespace gvr ns (gvr, cr) = true := List.find?_some hfind
  have hns : cr.GetNamespace = ns := by
    simpa [inNamespace] using hin
  have hns' : (Unstructured.mk obj').GetNamespace = ns := by
    rw [SetNestedField_spec_GetNamespace _ _ _ _ hset]
    exact hns
  have hname' : (Unstructured.mk obj').GetName = cr.GetName :=
    SetNestedField_spec_GetName _ _ _ _ hset
  have hres : c2.resources.find? (isResource gvr ns cr.GetName) = some (gvr, cr) :=
    find?_of_first _ _ _ _ hfind (by simp [isResource, hin])
      (fun y hy => by
        simp only [isResource, Bool.and_eq_true] at hy
        exact hy.1)
  have hattempt : (memController ns).setEnabledAttempt probeType enabled (some gvr) (some cr) c2
      = (Outcome.ok (none, some ⟨obj'⟩),
          { c2 with
            resources := replaceFirst (isResource gvr ns cr.GetName) (fun _ => (gvr, ⟨obj'⟩))
              c2.resources }) := by
    unfold T8cProbeController.setEnabledAttempt
    simp only [bind, Go.bind_apply, deref, Go.pure_apply, pure, hset, ne_eq, not_true_eq_false,
      if_false, memController, memDynamic, Go.pure_bind]
    simp only [memUpdateCR, hns', ne_eq, not_true_eq_false, if_false, hname', hres,
      Option.isSome_some, if_true]
  unfold T8cProbeController.setEnabledFlag
  simp only [bind, pure]
  rw [Go.bind_apply]
  rw [show GetOrCreateCR (memController ns).v1beta1Client (memController ns).dynamicClient
    (memController ns).nameSpace cluster = _ from hG]
  simp only [ne_eq, not_true_eq_false, if_false, Go.pure_bind]
  rw [Go.bind_apply, RetryOnConflict_of_success _ _ _ _ _ hattempt]
  rfl

/-- When the flag cannot be set in the record that `GetOrCreateCR` hands over,
`setEnabledFlag` returns an error. -/
theorem setEnabledFlag_mem_run_error (ns probeType : String) (enabled : Bool)
    (cluster c2 : Cluster) (gvr : GroupVersionResource) (cr : Unstructured)
    (obj' : List (String × JSONValue)) (err : Error)
    (hG : GetOrCreateCR memApiextensions memDynamic ns cluster
      = (Outcome.ok (some cr, some gvr, none), c2))
    (hset : SetNestedField cr.Object (.bool enabled) ["spec", probeType, "enabled"]
      = (obj', some err)) :
    ∃ e, ((memController ns).setEnabledFlag probeType enabled cluster).1
      = Outcome.ok (some e) := by
  have hattempt : (memController ns).setEnabledAttempt probeType enabled (some gvr) (some cr) c2
      = (Outcome.ok (some (Errorf "failed to set probe %v to enabled in CR %v in namespace %v\n%v"
            [probeType, (Unstructured.mk obj').format, ns, fmtErr (some err)]),
            some ⟨obj'⟩), c2) := by
    unfold T8cProbeController.setEnabledAttempt
    simp only [bind, Go.bind_apply, deref, Go.pure_apply, pure, hset, memController]
    simp
  unfold T8cProbeController.setEnabledFlag
  simp only [bind, pure]
  rw [Go.bind_apply]
  rw [show GetOrCreateCR (memController ns).v1beta1Client (memController ns).dynamicClient
    (memController ns).nameSpace cluster = _ from hG]
  simp only [ne_eq, not_true_eq_false, if_false, Go.pure_bind]
  rw [Go.bind_apply, RetryOnConflict,
    OnError_of_error _ _ _ _ _ _ _ hattempt (by simp [Errorf, IsConflict])
      (by simp [Errorf])]
  exact ⟨_, rfl⟩

/-- What a successful `setEnabledFlag` does on the cluster held in memory: it retrieves the
activation record, or creates the default one, sets the flag in it and stores it back. -/
theorem setEnabledFlag_mem (ns probeType : String) (enabled : Bool) (cluster : Cluster)
    (h : ((memController ns).setEnabledFlag probeType enabled cluster).1 = Outcome.ok none) :
    ∃ gvr cr c2 obj',
      getGvrFromCrd (xlCrdOf cluster) = (some gvr, none) ∧
      c2.crds = (withXlCrd cluster).crds ∧
      c2.resources.find? (inNamespace gvr ns) = some (gvr, cr) ∧
      (∀ r, cluster.resources.find? (inNamespace gvr ns) = some r →
        cr = r.2 ∧ c2 = withXlCrd cluster) ∧
      (cluster.resources.find? (inNamespace gvr ns) = none →
        cr = newXlCR gvr (xlCrdOf cluster) ns) ∧
      SetNestedField cr.Object (.bool enabled) ["spec", probeType, "enabled"] = (obj', none) ∧
      (memController ns).setEnabledFlag probeType enabled cluster =
        (Outcome.ok none,
          { c2 with
            resources := replaceFirst (isResource gvr ns cr.GetName) (fun _ => (gvr, ⟨obj'⟩))
              c2.resources }) := by
  rcases getGvrFromCrd_cases (xlCrdOf cluster) with ⟨e, hg⟩ | ⟨gvr, hg⟩
  · exfalso
    obtain ⟨e', he'⟩ := GetOrCreateCR_mem_error ns cluster e hg
    rcases hG : GetOrCreateCR memApiextensions memDynamic ns cluster with ⟨o, s⟩
    rw [hG] at he'
    simp only at he'
    subst he'
    unfold T8cProbeController.setEnabledFlag at h
    simp only [memController, bind, Go.bind_apply, hG, pure] at h
    simp at h
  · obtain ⟨cr, c2, hG, hcrds, hfind, hfound, hnew⟩ := GetOrCreateCR_mem_ok ns cluster gvr hg
    rcases hset : SetNestedField cr.Object (.bool enabled) ["spec", probeType, "enabled"]
      with ⟨obj', _ | err⟩
    · exact ⟨gvr, cr, c2, obj', hg, hcrds, hfind, hfound, hnew, hset,
        setEnabledFlag_mem_run_ok ns probeType enabled cluster c2 gvr cr obj' hG hfind hset⟩
    · exfalso
      obtain ⟨e, he⟩ :=
        setEnabledFlag_mem_run_error ns probeType enabled cluster c2 gvr cr obj' err hG hset
      rw [he] at h
      simp at h

theorem xlCrdOf_congr (c1 c2 : Cluster) (h : c1.crds = c2.crds) : xlCrdOf c1 = xlCrdOf c2 := by
  unfold xlCrdOf
  rw [h]

theorem NestedBool_found (obj : List (String × JSONValue)) (path : List String) (b : Bool)
    (h : NestedBool obj path = (b, true, none)) :
    nestedFieldFrom (.object obj) path = (some (.bool b), true, none) := by
  unfold NestedBool NestedFieldNoCopy at h
  rcases hn : nestedFieldFrom (.object obj) path with ⟨v, found, err⟩
  rw [hn] at h
  cases found with
  | false =>
    simp only [Prod.mk.injEq] at h
    exact absurd h.2.1 (by simp)
  | true =>
    cases err with
    | some e =>
      simp only [Prod.mk.injEq] at h
      exact absurd h.2.2 (by simp)
    | none =>
      cases v with
      | none => simp at h
      | some j =>
        cases j with
        | bool b' =>
          simp only [Prod.mk.injEq, and_true] at h
          rw [h]
        | null => simp at h
        | number n => simp at h
        | string s => simp at h
        | array items => simp at h
        | object fields => simp at h

theorem NestedBool_of_found (obj : List (String × JSONValue)) (path : List String) (b : Bool)
    (h : nestedFieldFrom (.object obj) path = (some (.bool b), true, none)) :
    NestedBool obj path = (b, true, none) := by
  unfold NestedBool NestedFieldNoCopy
  rw [h]

/-- The state after a successful `setEnabledFlag`: the activation record is the record that
was retrieved or created, with the flag set. -/
theorem setEnabledFlag_mem_record (ns probeType : String) (enabled : Bool) (cluster : Cluster)
    (h : ((memController ns).setEnabledFlag probeType enabled cluster).1 = Outcome.ok none) :
    ∃ gvr cr obj',
      getGvrFromCrd (xlCrdOf cluster) = (some gvr, none) ∧
      (∀ r, cluster.resources.find? (inNamespace gvr ns) = some r → cr = r.2) ∧
      (cluster.resources.find? (inNamespace gvr ns) = none →
        cr = newXlCR gvr (xlCrdOf cluster) ns) ∧
      SetNestedField cr.Object (.bool enabled) ["spec", probeType, "enabled"] = (obj', none) ∧
      activationRecord ((memController ns).setEnabledFlag probeType enabled cluster).2 ns
        = some ⟨obj'⟩ ∧
      ((((memController ns).setEnabledFlag probeType enabled cluster).2).crds.find?
        (fun x => x.Name == defaultCrd.Name)).isSome = true := by
  obtain ⟨gvr, cr, c2, obj', hg, hcrds, hfind, hfound, hnew, hset, hrun⟩ :=
    setEnabledFlag_mem ns probeType enabled cluster h
  refine ⟨gvr, cr, obj', hg, fun r hr => (hfound r hr).1, hnew, hset, ?_, ?_⟩
  · rw [hrun]
    unfold activationRecord
    have hx : xlCrdOf { c2 with
        resources := replaceFirst (isResource gvr ns cr.GetName) (fun _ => (gvr, ⟨obj'⟩))
          c2.resources } = xlCrdOf cluster := by
      exact (xlCrdOf_congr _ (withXlCrd cluster) hcrds).trans (xlCrdOf_withXlCrd cluster)
    simp only [hx, hg]
    have hin : inNamespace gvr ns (gvr, cr) = true := List.find?_some hfind
    have hns : cr.GetNamespace = ns := by
      simpa [inNamespace] using hin
    rw [find?_replaceFirst_of_first (inNamespace gvr ns) (isResource gvr ns cr.GetName)
      (fun _ => (gvr, ⟨obj'⟩)) c2.resources (gvr, cr) hfind (by simp [isResource, hin])
      (fun y hy => by
        simp only [isResource, Bool.and_eq_true] at hy
        exact hy.1)
      (by
        simp only [inNamespace, decide_True, Bool.true_and, beq_iff_eq]
        rw [SetNestedField_spec_GetNamespace _ _ _ _ hset]
        exact hns)]
    rfl
  · rw [hrun]
    show (c2.crds.find? _).isSome = true
    rw [hcrds]
    exact withXlCrd_stored cluster

/-- Setting the flag to the value that the stored activation record has already changes
nothing. -/
theorem setEnabledFlag_mem_noop (ns probeType : String) (enabled : Bool) (cluster : Cluster)
    (cr : Unstructured)
    (hstored : (cluster.crds.find? (fun x => x.Name == defaultCrd.Name)).isSome = true)
    (hrec : activationRecord cluster ns = some cr)
    (hflag : NestedBool cr.Object ["spec", probeType, "enabled"] = (enabled, true, none)) :
    (memController ns).setEnabledFlag probeType enabled cluster = (Outcome.ok none, cluster) := by
  rcases getGvrFromCrd_cases (xlCrdOf cluster) with ⟨e, hg⟩ | ⟨gvr, hg⟩
  · unfold activationRecord at hrec
    simp [hg] at hrec
  · unfold activationRecord at hrec
    simp only [hg] at hrec
    cases hfind0 : cluster.resources.find? (inNamespace gvr ns) with
    | none => simp [hfind0] at hrec
    | some r =>
      rw [hfind0] at hrec
      simp only [Option.map_some', Option.some.injEq] at hrec
      obtain ⟨cr', c2, hG, hcrds, hfind, hfound, hnew⟩ := GetOrCreateCR_mem_ok ns cluster gvr hg
      obtain ⟨hcr, hc2⟩ := hfound r hfind0
      rw [withXlCrd_of_stored cluster hstored] at hc2
      subst hc2
      rw [hrec] at hcr
      subst hcr
      have hset : SetNestedField cr'.Object (.bool enabled) ["spec", probeType, "enabled"]
          = (cr'.Object, none) :=
        SetNestedField_of_get _ (by simp) _ _ (NestedBool_found _ _ _ hflag)
      rw [setEnabledFlag_mem_run_ok ns probeType enabled c2 c2 gvr cr' cr'.Object hG hfind hset]
      have hin : inNamespace gvr ns (gvr, cr') = true := List.find?_some hfind
      have hres : c2.resources.find? (isResource gvr ns cr'.GetName) = some (gvr, cr') :=
        find?_of_first _ _ _ _ hfind (by simp [isResource, hin])
          (fun y hy => by
            simp only [isResource, Bool.and_eq_true] at hy
            exact hy.1)
      rw [replaceFirst_of_find? _ _ _ hres]

/-! ### The probe controller on the XL custom resource -/

theorem setEnabledFlag_sets_flag (ns probeType : String) (enabled : Bool) (cluster : Cluster)
    (h : ((memController ns).setEnabledFlag probeType enabled cluster).1 = Outcome.ok none) :
    ∃ cr,
      activationRecord ((memController ns).setEnabledFlag probeType enabled cluster).2 ns
        = some cr ∧
      NestedBool cr.Object ["spec", probeType, "enabled"] = (enabled, true, none) ∧
      (memController ns).setEnabledFlag probeType enabled
          ((memController ns).setEnabledFlag probeType enabled cluster).2
        = (Outcome.ok none, ((memController ns).setEnabledFlag probeType enabled cluster).2) := by
  obtain ⟨gvr, cr, obj', hg, -, -, hset, hrec, hstored⟩ :=
    setEnabledFlag_mem_record ns probeType enabled cluster h
  have hflag : NestedBool (Unstructured.mk obj').Object ["spec", probeType, "enabled"]
      = (enabled, true, none) :=
    NestedBool_of_found _ _ _ (SetNestedField_get _ (by simp) _ _ _ hset)
  exact ⟨⟨obj'⟩, hrec, hflag,
    setEnabledFlag_mem_noop ns probeType enabled _ ⟨obj'⟩ hstored hrec hflag⟩

/-- C9: on the cluster held in memory, whatever the activation record holds before, a
successful `StartProbe` leaves the activation record with `spec.<probeType>.enabled` found and
true, a successful `StopProbe` leaves it found and false, and repeating the call succeeds
and leaves the cluster as it is. -/
theorem startProbe_stopProbe_set_flag (ns probeType : String) (cluster : Cluster) :
    (((memController ns).StartProbe probeType cluster).1 = Outcome.ok none →
      ∃ cr,
        activationRecord ((memController ns).StartProbe probeType cluster).2 ns = some cr ∧
        NestedBool cr.Object ["spec", probeType, "enabled"] = (true, true, none) ∧
        (memController ns).StartProbe probeType ((memController ns).StartProbe probeType cluster).2
          = (Outcome.ok none, ((memController ns).StartProbe probeType cluster).2)) ∧
    (((memController ns).StopProbe probeType cluster).1 = Outcome.ok none →
      ∃ cr,
        activationRecord ((memController ns).StopProbe probeType cluster).2 ns = some cr ∧
        NestedBool cr.Object ["spec", probeType, "enabled"] = (false, true, none) ∧
        (memController ns).StopProbe probeType ((memController ns).StopProbe probeType cluster).2
          = (Outcome.ok none, ((memController ns).StopProbe probeType cluster).2)) :=
  ⟨fun h => setEnabledFlag_sets_flag ns probeType true cluster h,
    fun h => setEnabledFlag_sets_flag ns probeType false cluster h⟩

theorem startProbe_stopProbe_set_flag_witness :
    (((memController testNamespace).StartProbe "vcenter" testCluster).1 = Outcome.ok none ∧
      ∃ cr,
        activationRecord ((memController testNamespace).StartProbe "vcenter" testCluster).2
          testNamespace = some cr ∧
        NestedBool cr.Object ["spec", "vcenter", "enabled"] = (true, true, none) ∧
        (memController testNamespace).StartProbe "vcenter"
            ((memController testNamespace).StartProbe "vcenter" testCluster).2
          = (Outcome.ok none, ((memController testNamespace).StartProbe "vcenter" testCluster).2)) ∧
    (((memController testNamespace).StopProbe "vcenter" emptyCluster).1 = Outcome.ok none ∧
      ∃ cr,
        activationRecord ((memController testNamespace).StopProbe "vcenter" emptyCluster).2
          testNamespace = some cr ∧
        NestedBool cr.Object ["spec", "vcenter", "enabled"] = (false, true, none) ∧
        (memController testNamespace).StopProbe "vcenter"
            ((memController testNamespace).StopProbe "vcenter" emptyCluster).2
          = (Outcome.ok none, ((memController testNamespace).StopProbe "vcenter" emptyCluster).2)) :=
  ⟨⟨by decide,
      (startProbe_stopProbe_set_flag testNamespace "vcenter" testCluster).1 (by decide)⟩,
    ⟨by decide,
      (startProbe_stopProbe_set_flag testNamespace "vcenter" emptyCluster).2 (by decide)⟩⟩

theorem setEnabledFlag_frame (ns probeType : String) (enabled : Bool) (cluster : Cluster)
    (h : ((memController ns).setEnabledFlag probeType enabled cluster).1 = Outcome.ok none) :
    ∃ gvr before after,
      getGvrFromCrd (xlCrdOf cluster) = (some gvr, none) ∧
      before = (activationRecord cluster ns).getD (newXlCR gvr (xlCrdOf cluster) ns) ∧
      activationRecord ((memController ns).setEnabledFlag probeType enabled cluster).2 ns
        = some after ∧
      (∀ q rest, q ≠ probeType →
        NestedFieldNoCopy after.Object ("spec" :: q :: rest)
          = NestedFieldNoCopy before.Object ("spec" :: q :: rest)) ∧
      (∀ f rest, f ≠ "enabled" →
        NestedFieldNoCopy after.Object ("spec" :: probeType :: f :: rest)
          = NestedFieldNoCopy before.Object ("spec" :: probeType :: f :: rest)) ∧
      (∀ k rest, k ≠ "spec" →
        NestedFieldNoCopy after.Object (k :: rest) = NestedFieldNoCopy before.Object (k :: rest)) := by
  obtain ⟨gvr, cr, obj', hg, hfound, hnew, hset, hrec, -⟩ :=
    setEnabledFlag_mem_record ns probeType enabled cluster h
  have hbefore : cr = (activationRecord cluster ns).getD (newXlCR gvr (xlCrdOf cluster) ns) := by
    unfold activationRecord
    simp only [hg]
    cases hfind : cluster.resources.find? (inNamespace gvr ns) with
    | none => exact hnew hfind
    | some r => exact hfound r hfind
  refine ⟨gvr, cr, ⟨obj'⟩, hg, hbefore, hrec, ?_, ?_, ?_⟩
  · intro q rest hq
    exact SetNestedField_other _ _ _ _ hset _ (Or.inr (Or.inl hq))
  · intro f rest hf
    exact SetNestedField_other _ _ _ _ hset _ (Or.inr (Or.inr (Or.inl hf)))
  · intro k rest hk
    exact SetNestedField_other _ _ _ _ hset _ (Or.inl hk)

/-- C10: on the cluster held in memory, a successful `StartProbe` or `StopProbe` changes
nothing in the activation record but `spec.<probeType>.enabled`.  With `before` the activation
record before the call (or, when there was none, the default record that the call creates) and
`after` the one after it: everything under `spec.q` for another probe type `q`, every other
field under `spec.<probeType>`, and every field outside `spec` reads the same in both. -/
theorem startProbe_stopProbe_frame (ns probeType : String) (cluster : Cluster) :
    (((memController ns).StartProbe probeType cluster).1 = Outcome.ok none →
      ∃ gvr before after,
        getGvrFromCrd (xlCrdOf cluster) = (some gvr, none) ∧
        before = (activationRecord cluster ns).getD (newXlCR gvr (xlCrdOf cluster) ns) ∧
        activationRecord ((memController ns).StartProbe probeType cluster).2 ns = some after ∧
        (∀ q rest, q ≠ probeType →
          NestedFieldNoCopy after.Object ("spec" :: q :: rest)
            = NestedFieldNoCopy before.Object ("spec" :: q :: rest)) ∧
        (∀ f rest, f ≠ "enabled" →
          NestedFieldNoCopy after.Object ("spec" :: probeType :: f :: rest)
            = NestedFieldNoCopy before.Object ("spec" :: probeType :: f :: rest)) ∧
        (∀ k rest, k ≠ "spec" →
          NestedFieldNoCopy after.Object (k :: rest)
            = NestedFieldNoCopy before.Object (k :: rest))) ∧
    (((memController ns).StopProbe probeType cluster).1 = Outcome.ok none →
      ∃ gvr before after,
        getGvrFromCrd (xlCrdOf cluster) = (some gvr, none) ∧
        before = (activationRecord cluster ns).getD (newXlCR gvr (xlCrdOf cluster) ns) ∧
        activationRecord ((memController ns).StopProbe probeType cluster).2 ns = some after ∧
        (∀ q rest, q ≠ probeType →
          NestedFieldNoCopy after.Object ("spec" :: q :: rest)
            = NestedFieldNoCopy before.Object ("spec" :: q :: rest)) ∧
        (∀ f rest, f ≠ "enabled" →
          NestedFieldNoCopy after.Object ("spec" :: probeType :: f :: rest)
            = NestedFieldNoCopy before.Object ("spec" :: probeType :: f :: rest)) ∧
        (∀ k rest, k ≠ "spec" →
          NestedFieldNoCopy after.Object (k :: rest)
            = NestedFieldNoCopy before.Object (k :: rest))) :=
  ⟨fun h => setEnabledFlag_frame ns probeType true cluster h,
    fun h => setEnabledFlag_frame ns probeType false cluster h⟩

theorem startProbe_stopProbe_frame_witness :
    (((memController testNamespace).StartProbe "vcenter" testCluster).1 = Outcome.ok none ∧
      ∃ gvr before after,
        getGvrFromCrd (xlCrdOf testCluster) = (some gvr, none) ∧
        before = (activationRecord testCluster testNamespace).getD
          (newXlCR gvr (xlCrdOf testCluster) testNamespace) ∧
        activationRecord ((memController testNamespace).StartProbe "vcenter" testCluster).2
          testNamespace = some after ∧
        (∀ q rest, q ≠ "vcenter" →
          NestedFieldNoCopy after.Object ("spec" :: q :: rest)
            = NestedFieldNoCopy before.Object ("spec" :: q :: rest)) ∧
        (∀ f rest, f ≠ "enabled" →
          NestedFieldNoCopy after.Object ("spec" :: "vcenter" :: f :: rest)
            = NestedFieldNoCopy before.Object ("spec" :: "vcenter" :: f :: rest)) ∧
        (∀ k rest, k ≠ "spec" →
          NestedFieldNoCopy after.Object (k :: rest)
            = NestedFieldNoCopy before.Object (k :: rest))) ∧
    (((memController testNamespace).StopProbe "pure" testCluster).1 = Outcome.ok none ∧
      ∃ gvr before after,
        getGvrFromCrd (xlCrdOf testCluster) = (some gvr, none) ∧
        before = (activationRecord testCluster testNamespace).getD
          (newXlCR gvr (xlCrdOf testCluster) testNamespace) ∧
        activationRecord ((memController testNamespace).StopProbe "pure" testCluster).2
          testNamespace = some after ∧
        (∀ q rest, q ≠ "pure" →
          NestedFieldNoCopy after.Object ("spec" :: q :: rest)
            = NestedFieldNoCopy before.Object ("spec" :: q :: rest)) ∧
        (∀ f rest, f ≠ "enabled" →
          NestedFieldNoCopy after.Object ("spec" :: "pure" :: f :: rest)
            = NestedFieldNoCopy before.Object ("spec" :: "pure" :: f :: rest)) ∧
        (∀ k rest, k ≠ "spec" →
          NestedFieldNoCopy after.Object (k :: rest)
            = NestedFieldNoCopy before.Object (k :: rest))) :=
  ⟨⟨by decide, (startProbe_stopProbe_frame testNamespace "vcenter" testCluster).1 (by decide)⟩,
    ⟨by decide, (startProbe_stopProbe_frame testNamespace "pure" testCluster).2 (by decide)⟩⟩

/-! ### The choice of the version of the XL definition -/

theorem firstServed_append (versionChosen : String)
    (pre post : List CustomResourceDefinitionVersion) (v : CustomResourceDefinitionVersion)
    (hpre : ∀ x ∈ pre, x.Served = false) (hs : v.Served = true) :
    firstServed versionChosen (pre ++ v :: post) = v.Name := by
  induction pre with
  | nil => simp [firstServed, hs]
  | cons x xs ih =>
    have hx : x.Served = false := hpre x (by simp)
    simp only [List.cons_append, firstServed, hx, Bool.false_eq_true, if_false]
    exact ih (fun y hy => hpre y (by simp [hy]))

/-- C18 fails on the code: for the XL definition whose only version is not served, and for
the one that has no list of versions at all, `getGvrFromCrd` returns no error but the group,
version and resource with the deprecated `Spec.Version`. -/
theorem getGvrFromCrd_nothing_served :
    (unservedCrd.Spec.Versions.all (fun v => !v.Served) = true ∧
      getGvrFromCrd unservedCrd
        = (some { Group := "charts.helm.k8s.io", Version := "v1alpha1", Resource := "xls" },
            none)) ∧
    (versionOnlyCrd.Spec.Versions = [] ∧
      getGvrFromCrd versionOnlyCrd
        = (some { Group := "charts.helm.k8s.io", Version := "v1alpha1", Resource := "xls" },
            none)) := by
  decide

/-- C19: when the versions before `v` in `Spec.Versions` are not served and `v` is, the version
that `getGvrFromCrd` chooses is the name of `v`, whatever `Spec.Version` and the later entries
are; and when that name is not empty the result is, without error, the group of the
definition, that name and the plural name of the definition. -/
theorem getGvrFromCrd_first_served (crd : CustomResourceDefinition)
    (pre post : List CustomResourceDefinitionVersion) (v : CustomResourceDefinitionVersion)
    (hv : crd.Spec.Versions = pre ++ v :: post)
    (hpre : ∀ x ∈ pre, x.Served = false) (hs : v.Served = true) :
    firstServed crd.Spec.Version crd.Spec.Versions = v.Name ∧
    (v.Name ≠ "" →
      getGvrFromCrd crd
        = (some { Group := crd.Spec.Group, Version := v.Name,
                  Resource := crd.Spec.Names.Plural }, none)) := by
  have hf : firstServed crd.Spec.Version crd.Spec.Versions = v.Name := by
    rw [hv]
    exact firstServed_append _ pre post v hpre hs
  refine ⟨hf, ?_⟩
  intro hne
  unfold getGvrFromCrd
  simp only [hf, hne, if_false]

theorem getGvrFromCrd_first_served_witness :
    multiVersionCrd.Spec.Versions
        = [{ Name := "v2", Served := false, Storage := false }]
          ++ { Name := "v1", Served := true, Storage := true }
            :: [{ Name := "v1alpha1", Served := true, Storage := false }] ∧
    (∀ x ∈ [CustomResourceDefinitionVersion.mk "v2" false false], x.Served = false) ∧
    (CustomResourceDefinitionVersion.mk "v1" true true).Served = true ∧
    firstServed multiVersionCrd.Spec.Version multiVersionCrd.Spec.Versions
        = (CustomResourceDefinitionVersion.mk "v1" true true).Name ∧
    ((CustomResourceDefinitionVersion.mk "v1" true true).Name ≠ "" →
      getGvrFromCrd multiVersionCrd
        = (some { Group := multiVersionCrd.Spec.Group,
                  Version := (CustomResourceDefinitionVersion.mk "v1" true true).Name,
                  Resource := multiVersionCrd.Spec.Names.Plural }, none)) :=
  ⟨by decide, by decide, by decide,
    getGvrFromCrd_first_served multiVersionCrd [⟨"v2", false, false⟩]
      [⟨"v1alpha1", true, false⟩] ⟨"v1", true, true⟩ (by decide) (by decide) (by decide)⟩

/-! ### The errors that the lifecycle manager returns -/

theorem addOrUpdateTarget_of_register_error {σ : Type} (m : ProbeLifecycleManager σ)
    (target : Target) (s : σ) (b : Bool) (e : Error)
    (h : (m.targetRegistrar.RegisterTarget target s).1 = Outcome.ok (b, some e)) :
    (m.AddOrUpdateTarget target s).1
      = Outcome.ok (some (Errorf "failed to register target %v\n%v" [target.format, e.Error])) := by
  unfold ProbeLifecycleManager.AddOrUpdateTarget
  simp only [bind, Go.bind_apply, pure]
  rcases hr : m.targetRegistrar.RegisterTarget target s with ⟨o, s'⟩
  rw [hr] at h
  simp only at h
  subst h
  simp [fmtErr]

theorem deleteTarget_of_unregister_error {σ : Type} (m : ProbeLifecycleManager σ)
    (target : Target) (s : σ) (b : Bool) (e : Error)
    (h : (m.targetRegistrar.UnregisterTarget target s).1 = Outcome.ok (b, some e)) :
    (m.DeleteTarget target s).1 = Outcome.ok (some e) := by
  unfold ProbeLifecycleManager.DeleteTarget
  simp only [bind, Go.bind_apply, pure]
  rcases hr : m.targetRegistrar.UnregisterTarget target s with ⟨o, s'⟩
  rw [hr] at h
  simp only at h
  subst h
  simp

theorem addOrUpdateTarget_of_first {σ : Type} (m : ProbeLifecycleManager σ)
    (target : Target) (s : σ)
    (h : (m.targetRegistrar.RegisterTarget target s).1 = Outcome.ok (true, none)) :
    m.AddOrUpdateTarget target s
      = m.probeController.StartProbe target.GetProbeType
          (m.targetRegistrar.RegisterTarget target s).2 := by
  unfold ProbeLifecycleManager.AddOrUpdateTarget
  simp only [bind, Go.bind_apply, pure]
  rcases hr : m.targetRegistrar.RegisterTarget target s with ⟨o, s'⟩
  rw [hr] at h
  simp only at h
  subst h
  simp

theorem deleteTarget_of_last {σ : Type} (m : ProbeLifecycleManager σ)
    (target : Target) (s : σ)
    (h : (m.targetRegistrar.UnregisterTarget target s).1 = Outcome.ok (true, none)) :
    m.DeleteTarget target s
      = m.probeController.StopProbe target.GetProbeType
          (m.targetRegistrar.UnregisterTarget target s).2 := by
  unfold ProbeLifecycleManager.DeleteTarget
  simp only [bind, Go.bind_apply, pure]
  rcases hr : m.targetRegistrar.UnregisterTarget target s with ⟨o, s'⟩
  rw [hr] at h
  simp only at h
  subst h
  simp

/-- C12, as the code has it: an error `e` of `UnregisterTarget` is returned by `DeleteTarget`
as it is, and what `StartProbe` or `StopProbe` returns (an error or nil) is returned by
`AddOrUpdateTarget` or `DeleteTarget` as it is; but for an error `e` of `RegisterTarget`,
`AddOrUpdateTarget` returns the new error that `fmt.Errorf` makes from the rendering of the
target and the text of `e`. -/
theorem manager_returned_errors {σ : Type} (m : ProbeLifecycleManager σ) (target : Target)
    (s : σ) :
    (∀ b e, (m.targetRegistrar.RegisterTarget target s).1 = Outcome.ok (b, some e) →
      (m.AddOrUpdateTarget target s).1
        = Outcome.ok (some (Errorf "failed to register target %v\n%v"
            [target.format, e.Error]))) ∧
    (∀ b e, (m.targetRegistrar.UnregisterTarget target s).1 = Outcome.ok (b, some e) →
      (m.DeleteTarget target s).1 = Outcome.ok (some e)) ∧
    ((m.targetRegistrar.RegisterTarget target s).1 = Outcome.ok (true, none) →
      m.AddOrUpdateTarget target s
        = m.probeController.StartProbe target.GetProbeType
            (m.targetRegistrar.RegisterTarget target s).2) ∧
    ((m.targetRegistrar.UnregisterTarget target s).1 = Outcome.ok (true, none) →
      m.DeleteTarget target s
        = m.probeController.StopProbe target.GetProbeType
            (m.targetRegistrar.UnregisterTarget target s).2) :=
  ⟨fun b e h => addOrUpdateTarget_of_register_error m target s b e h,
    fun b e h => deleteTarget_of_unregister_error m target s b e h,
    fun h => addOrUpdateTarget_of_first m target s h,
    fun h => deleteTarget_of_last m target s h⟩

theorem manager_returned_errors_witness :
    ((((managerOf (unavailableRegistrar unavailableError testNamespace)
          (memController testNamespace)).targetRegistrar.RegisterTarget vcenterMoid1
          ([], emptyCluster)).1 = Outcome.ok (false, some unavailableError)) ∧
      ((managerOf (unavailableRegistrar unavailableError testNamespace)
          (memController testNamespace)).AddOrUpdateTarget vcenterMoid1 ([], emptyCluster)).1
        = Outcome.ok (some (Errorf "failed to register target %v\n%v"
            [vcenterMoid1.format, unavailableError.Error]))) ∧
    ((((managerOf (unavailableRegistrar unavailableError testNamespace)
          (memController testNamespace)).targetRegistrar.UnregisterTarget vcenterMoid1
          ([], emptyCluster)).1 = Outcome.ok (false, some unavailableError)) ∧
      ((managerOf (unavailableRegistrar unavailableError testNamespace)
          (memController testNamespace)).DeleteTarget vcenterMoid1 ([], emptyCluster)).1
        = Outcome.ok (some unavailableError)) ∧
    ((((memManager testNamespace).targetRegistrar.RegisterTarget vcenterMoid1
          ([], noVersionCluster)).1 = Outcome.ok (true, none)) ∧
      (memManager testNamespace).AddOrUpdateTarget vcenterMoid1 ([], noVersionCluster)
        = (memManager testNamespace).probeController.StartProbe vcenterMoid1.GetProbeType
            ((memManager testNamespace).targetRegistrar.RegisterTarget vcenterMoid1
              ([], noVersionCluster)).2) ∧
    ((((memManager testNamespace).targetRegistrar.UnregisterTarget vcenterMoid1
          ([], noVersionCluster)).1 = Outcome.ok (true, none)) ∧
      (memManager testNamespace).DeleteTarget vcenterMoid1 ([], noVersionCluster)
        = (memManager testNamespace).probeController.StopProbe vcenterMoid1.GetProbeType
            ((memManager testNamespace).targetRegistrar.UnregisterTarget vcenterMoid1
              ([], noVersionCluster)).2) :=
  ⟨⟨by decide,
      (manager_returned_errors (managerOf (unavailableRegistrar unavailableError testNamespace)
        (memController testNamespace)) vcenterMoid1 ([], emptyCluster)).1 false
        unavailableError (by decide)⟩,
    ⟨by decide,
      (manager_returned_errors (managerOf (unavailableRegistrar unavailableError testNamespace)
        (memController testNamespace)) vcenterMoid1 ([], emptyCluster)).2.1 false
        unavailableError (by decide)⟩,
    ⟨by decide,
      (manager_returned_errors (memManager testNamespace) vcenterMoid1
        ([], noVersionCluster)).2.2.1 (by decide)⟩,
    ⟨by decide,
      (manager_returned_errors (memManager testNamespace) vcenterMoid1
        ([], noVersionCluster)).2.2.2 (by decide)⟩⟩

/-- C12 fails as stated: when the secrets client is not available, `RegisterTarget` returns
the error of the server, and `AddOrUpdateTarget` returns another error, the one that
`fmt.Errorf` makes. -/
theorem addOrUpdateTarget_wraps_error_counterexample :
    ((managerOf (unavailableRegistrar unavailableError testNamespace)
        (memController testNamespace)).targetRegistrar.RegisterTarget vcenterMoid1
        ([], emptyCluster)).1 = Outcome.ok (false, some unavailableError) ∧
    ((managerOf (unavailableRegistrar unavailableError testNamespace)
        (memController testNamespace)).AddOrUpdateTarget vcenterMoid1 ([], emptyCluster)).1
      ≠ Outcome.ok (some unavailableError) := by
  refine ⟨by decide, ?_⟩
  rw [addOrUpdateTarget_of_register_error _ _ _ false unavailableError (by decide)]
  simp [Errorf, unavailableError]

/-! ### The registrar when a write fails -/

/-- C17 fails on the code: with the target `Moid2` registered and a server that cannot be
reached for the patch, `RegisterTarget` of `Moid1` returns `true` together with the error;
nothing has been registered. -/
theorem registerTarget_true_with_error :
    (patchFailsRegistrar unavailableError testNamespace).RegisterTarget vcenterMoid1 vcenterStore
      = (Outcome.ok (true, some unavailableError), vcenterStore) := by
  decide

/-- C14 fails on the code: the secret of `vcenter` holds `Moid2`, and another client adds
`Moid3` while `RegisterTarget` of `Moid1` (or `UnregisterTarget` of `Moid2`) is under way, so
that the patch is rejected with a conflict.  The next attempt does not read the stored secret
again but goes on from what the failed patch handed back: with the fake client, a nil pointer,
the call panics; with the typed client, an empty object, the next patch is refused and the
call returns its error.  In each case the stored secret is the one of the other client, with
`Moid2` and `Moid3` and without `Moid1`. -/
theorem registrar_retry_does_not_reread :
    ((contendedRegistrar false testNamespace).RegisterTarget vcenterMoid1
        { store := vcenterStore, rival := some rivalSecret }
      = (Outcome.nilPanic, { store := [rivalSecret], rival := none })) ∧
    ((contendedRegistrar true testNamespace).RegisterTarget vcenterMoid1
        { store := vcenterStore, rival := some rivalSecret }
      = (Outcome.ok (true, some (Error.text "resource name may not be empty")),
          { store := [rivalSecret], rival := none })) ∧
    ((contendedRegistrar false testNamespace).UnregisterTarget vcenterMoid2
        { store := vcenterStore, rival := some rivalSecret }
      = (Outcome.nilPanic, { store := [rivalSecret], rival := none })) ∧
    ((contendedRegistrar true testNamespace).UnregisterTarget vcenterMoid2
        { store := vcenterStore, rival := some rivalSecret }
      = (Outcome.ok (false, some (Error.text "resource name may not be empty")),
          { store := [rivalSecret], rival := none })) ∧
    (rivalSecret.holds "Moid1" = false ∧ rivalSecret.holds "Moid2" = true ∧
      rivalSecret.holds "Moid3" = true) := by
  decide

/-- C15 fails on the code: no secret of `vcenter` is listed, and another client creates it
with `Moid2` before the `Create` request of `RegisterTarget` of `Moid1`, which is rejected as
already existing.  The update that follows does not work on the stored secret but on what the
failed `Create` handed back: with the fake client, a nil pointer, the call panics; with the
typed client, an empty object, the patch is refused and the call returns its error.  In each
case the stored secret holds `Moid2` only. -/
theorem registerTarget_create_race :
    ((contendedRegistrar false testNamespace).RegisterTarget vcenterMoid1
        { store := [], rival := some vcenterSecret }
      = (Outcome.nilPanic, { store := [vcenterSecret], rival := none })) ∧
    ((contendedRegistrar true testNamespace).RegisterTarget vcenterMoid1
        { store := [], rival := some vcenterSecret }
      = (Outcome.ok (true, some (Error.text "resource name may not be empty")),
          { store := [vcenterSecret], rival := none })) ∧
    (vcenterSecret.holds "Moid1" = false ∧ vcenterSecret.holds "Moid2" = true) := by
  decide

/-! ### The controller when a write fails -/

/-- C13 fails on the code: the activation record has `pure` enabled and `appdynamics`
disabled, and another client enables `appdynamics` while `StartProbe` of `vcenter` is under
way, so that the update is rejected with a conflict.  The next attempt does not read the
stored record again but goes on from what the failed update handed back, a nil pointer, and
the call panics.  The stored record is the one of the other client: `appdynamics` is enabled
in it and `vcenter` has no flag. -/
theorem setEnabledFlag_retry_does_not_reread :
    ((contendedController testNamespace).StartProbe "vcenter"
        { cluster := testCluster, rival := some (xlGvr, rivalXlCR) }).1 = Outcome.nilPanic ∧
    enabledFlag
        ((contendedController testNamespace).StartProbe "vcenter"
          { cluster := testCluster, rival := some (xlGvr, rivalXlCR) }).2.cluster
        testNamespace "appdynamics" = some (true, true, none) ∧
    enabledFlag
        ((contendedController testNamespace).StartProbe "vcenter"
          { cluster := testCluster, rival := some (xlGvr, rivalXlCR) }).2.cluster
        testNamespace "vcenter" = some (false, false, none) ∧
    enabledFlag testCluster testNamespace "appdynamics" = some (false, true, none) := by
  decide

theorem GetOrCreateCR_of_create_error {σ : Type} (v1beta1Client : ApiextensionsV1beta1Interface σ)
    (dynamicClient : DynamicInterface σ) (ns : String) (s : σ) (crd : CustomResourceDefinition)
    (gvr : GroupVersionResource) (o : Option Unstructured) (e : Error)
    (h1 : (getOrCreateCRD v1beta1Client s).1 = Outcome.ok (some crd, none))
    (h2 : getGvrFromCrd crd = (some gvr, none))
    (h3 : (((dynamicClient.Resource gvr).Namespace ns).List { FieldSelector := none }
        (getOrCreateCRD v1beta1Client s).2).1 = Outcome.ok (some ⟨[]⟩, none))
    (h4 : (((dynamicClient.Resource gvr).Namespace ns).Create (newXlCR gvr crd ns)
        (((dynamicClient.Resource gvr).Namespace ns).List { FieldSelector := none }
          (getOrCreateCRD v1beta1Client s).2).2).1 = Outcome.ok (o, some e)) :
    (GetOrCreateCR v1beta1Client dynamicClient ns s).1
      = Outcome.ok (none, none,
          some (Errorf "failed to create the t8c XL resource: %v" [e.Error])) := by
  unfold GetOrCreateCR
  simp only [bind, pure]
  rw [Go.bind_apply]
  rcases hc : getOrCreateCRD v1beta1Client s with ⟨oc, s1⟩
  rw [hc] at h1 h3 h4
  simp only at h1 h3 h4
  subst h1
  simp only [ne_eq, not_true_eq_false, if_false, Go.pure_bind, deref, h2]
  rw [Go.bind_apply]
  rcases hl : ((dynamicClient.Resource gvr).Namespace ns).List { FieldSelector := none } s1
    with ⟨ol, s2⟩
  rw [hl] at h3 h4
  simp only at h3 h4
  subst h3
  simp only [ne_eq, not_true_eq_false, if_false, Go.pure_bind]
  rw [Go.bind_apply]
  rcases hcr : ((dynamicClient.Resource gvr).Namespace ns).Create (newXlCR gvr crd ns) s2
    with ⟨ocr, s3⟩
  rw [hcr] at h4
  simp only at h4
  subst h4
  simp [fmtErr]

theorem setEnabledFlag_of_GetOrCreateCR_error {σ : Type} (pc : T8cProbeController σ)
    (probeType : String) (enabled : Bool) (s : σ) (cr : Option Unstructured)
    (gvr : Option GroupVersionResource) (e : Error)
    (h : (GetOrCreateCR pc.v1beta1Client pc.dynamicClient pc.nameSpace s).1
      = Outcome.ok (cr, gvr, some e)) :
    (pc.setEnabledFlag probeType enabled s).1
      = Outcome.ok (some (Errorf "failed to enable probe %v in namespace %v\n%v"
          [probeType, pc.nameSpace, e.Error])) := by
  unfold T8cProbeController.setEnabledFlag
  simp only [bind, pure]
  rw [Go.bind_apply]
  rcases hg : GetOrCreateCR pc.v1beta1Client pc.dynamicClient pc.nameSpace s with ⟨og, s1⟩
  rw [hg] at h
  simp only at h
  subst h
  simp [fmtErr]

/-- C16, as the code has it: when `GetOrCreateCR` lists no XL resource and its `Create` request
is rejected with an error `e` (also when `e` says that the resource exists already),
`GetOrCreateCR` returns no record but the error made from `e`, and `StartProbe` and
`StopProbe` return an error made from that. -/
theorem GetOrCreateCR_create_rejected {σ : Type} (pc : T8cProbeController σ) (s : σ)
    (crd : CustomResourceDefinition) (gvr : GroupVersionResource) (o : Option Unstructured)
    (e : Error)
    (h1 : (getOrCreateCRD pc.v1beta1Client s).1 = Outcome.ok (some crd, none))
    (h2 : getGvrFromCrd crd = (some gvr, none))
    (h3 : (((pc.dynamicClient.Resource gvr).Namespace pc.nameSpace).List { FieldSelector := none }
        (getOrCreateCRD pc.v1beta1Client s).2).1 = Outcome.ok (some ⟨[]⟩, none))
    (h4 : (((pc.dynamicClient.Resource gvr).Namespace pc.nameSpace).Create
        (newXlCR gvr crd pc.nameSpace)
        (((pc.dynamicClient.Resource gvr).Namespace pc.nameSpace).List { FieldSelector := none }
          (getOrCreateCRD pc.v1beta1Client s).2).2).1 = Outcome.ok (o, some e)) :
    (GetOrCreateCR pc.v1beta1Client pc.dynamicClient pc.nameSpace s).1
      = Outcome.ok (none, none,
          some (Errorf "failed to create the t8c XL resource: %v" [e.Error])) ∧
    (∀ probeType,
      (pc.StartProbe probeType s).1
        = Outcome.ok (some (Errorf "failed to enable probe %v in namespace %v\n%v"
            [probeType, pc.nameSpace,
              (Errorf "failed to create the t8c XL resource: %v" [e.Error]).Error])) ∧
      (pc.StopProbe probeType s).1
        = Outcome.ok (some (Errorf "failed to enable probe %v in namespace %v\n%v"
            [probeType, pc.nameSpace,
              (Errorf "failed to create the t8c XL resource: %v" [e.Error]).Error]))) := by
  have hg := GetOrCreateCR_of_create_error pc.v1beta1Client pc.dynamicClient pc.nameSpace s crd
    gvr o e h1 h2 h3 h4
  exact ⟨hg, fun probeType =>
    ⟨setEnabledFlag_of_GetOrCreateCR_error pc probeType true s _ _ _ hg,
      setEnabledFlag_of_GetOrCreateCR_error pc probeType false s _ _ _ hg⟩⟩

theorem GetOrCreateCR_create_rejected_witness :
    (getOrCreateCRD (contendedController testNamespace).v1beta1Client
        { cluster := definitionOnlyCluster,
          rival := some (xlGvr, newXlCR xlGvr defaultCrd testNamespace) }).1
      = Outcome.ok (some defaultCrd, none) ∧
    getGvrFromCrd defaultCrd = (some xlGvr, none) ∧
    (GetOrCreateCR (contendedController testNamespace).v1beta1Client
        (contendedController testNamespace).dynamicClient
        (contendedController testNamespace).nameSpace
        { cluster := definitionOnlyCluster,
          rival := some (xlGvr, newXlCR xlGvr defaultCrd testNamespace) }).1
      = Outcome.ok (none, none,
          some (Errorf "failed to create the t8c XL resource: %v"
            [(Error.status StatusReason.AlreadyExists "xls xl-release already exists").Error])) ∧
    (∀ probeType,
      ((contendedController testNamespace).StartProbe probeType
          { cluster := definitionOnlyCluster,
            rival := some (xlGvr, newXlCR xlGvr defaultCrd testNamespace) }).1
        = Outcome.ok (some (Errorf "failed to enable probe %v in namespace %v\n%v"
            [probeType, (contendedController testNamespace).nameSpace,
              (Errorf "failed to create the t8c XL resource: %v"
                [(Error.status StatusReason.AlreadyExists
                  "xls xl-release already exists").Error]).Error])) ∧
      ((contendedController testNamespace).StopProbe probeType
          { cluster := definitionOnlyCluster,
            rival := some (xlGvr, newXlCR xlGvr defaultCrd testNamespace) }).1
        = Outcome.ok (some (Errorf "failed to enable probe %v in namespace %v\n%v"
            [probeType, (contendedController testNamespace).nameSpace,
              (Errorf "failed to create the t8c XL resource: %v"
                [(Error.status StatusReason.AlreadyExists
                  "xls xl-release already exists").Error]).Error]))) :=
  ⟨by decide, by decide,
    GetOrCreateCR_create_rejected (contendedController testNamespace)
      { cluster := definitionOnlyCluster,
        rival := some (xlGvr, newXlCR xlGvr defaultCrd testNamespace) }
      defaultCrd xlGvr none (Error.status StatusReason.AlreadyExists "xls xl-release already exists")
      (by decide) (by decide) (by rfl) (by rfl)⟩

/-- C16 fails as stated: the cluster holds the XL definition and no XL resource, and another
caller creates the resource `xl-release` before the `Create` request of `GetOrCreateCR`.
`GetOrCreateCR` returns no record and an error, `StartProbe` and `StopProbe` return an error,
although the activation record is in the cluster. -/
theorem GetOrCreateCR_create_race_counterexample :
    returnedNoRecord
        (GetOrCreateCR contendedApiextensions contendedDynamic testNamespace
          { cluster := definitionOnlyCluster,
            rival := some (xlGvr, newXlCR xlGvr defaultCrd testNamespace) }).1 = true ∧
    returnedError
        ((contendedController testNamespace).StartProbe "vcenter"
          { cluster := definitionOnlyCluster,
            rival := some (xlGvr, newXlCR xlGvr defaultCrd testNamespace) }).1 = true ∧
    returnedError
        ((contendedController testNamespace).StopProbe "vcenter"
          { cluster := definitionOnlyCluster,
            rival := some (xlGvr, newXlCR xlGvr defaultCrd testNamespace) }).1 = true ∧
    (activationRecord
        (GetOrCreateCR contendedApiextensions contendedDynamic testNamespace
          { cluster := definitionOnlyCluster,
            rival := some (xlGvr, newXlCR xlGvr defaultCrd testNamespace) }).2.cluster
        testNamespace).isSome = true := by
  decide

/-! ### Occupancy and activation along a sequence of calls -/

theorem occupied_iff_holds (secret : Secret) :
    (!(maplen secret.StringData == 0 && maplen secret.Data == 0)) = true ↔
      ∃ k, secret.holds k = true := by
  rw [Bool.not_eq_true', Bool.and_eq_false_iff]
  simp only [beq_eq_false_iff_ne, ne_eq, maplen_eq_zero_iff, not_forall, holds_iff]
  constructor
  · rintro (⟨k, hk⟩ | ⟨k, hk⟩)
    · exact ⟨k, Or.inl hk⟩
    · exact ⟨k, Or.inr hk⟩
  · rintro ⟨k, hk | hk⟩
    · exact Or.inl ⟨k, hk⟩
    · exact Or.inr ⟨k, hk⟩

theorem groupOccupied_of_stored (store : SecretStore) (ns probeType : String) (secret : Secret)
    (h : storedSecret store ns probeType = some secret) :
    groupOccupied store ns probeType = true ↔ ∃ k, secret.holds k = true := by
  unfold groupOccupied
  rw [h]
  exact occupied_iff_holds secret

theorem groupOccupied_congr (store store' : SecretStore) (ns probeType : String)
    (h : storedSecret store' ns probeType = storedSecret store ns probeType) :
    groupOccupied store' ns probeType = groupOccupied store ns probeType := by
  unfold groupOccupied
  rw [h]

/-- Occupancy after a successful `RegisterTarget`: the probe type of the target is occupied,
and the occupancy of the other probe types is as before. -/
theorem groupOccupied_register (ns : String) (target : Target) (store store' : SecretStore)
    (b : Bool)
    (h : (memRegistrar ns).RegisterTarget target store = (Outcome.ok (b, none), store')) :
    groupOccupied store' ns target.GetProbeType = true ∧
    ∀ p, p ≠ target.GetProbeType → groupOccupied store' ns p = groupOccupied store ns p := by
  have hb : target.Bytes.2 = none := by
    cases hbe : target.Bytes.2 with
    | none => rfl
    | some e =>
      rw [registerTarget_mem_bytes_error ns target store e hbe] at h
      simp at h
  cases hs : storedSecret store ns target.GetProbeType with
  | none =>
    rw [registerTarget_mem_new ns target store hs hb] at h
    simp only [Prod.mk.injEq] at h
    obtain ⟨-, hst⟩ := h
    subst hst
    constructor
    · have hst : storedSecret
          (store ++ [{ Namespace := ns, Name := target.GetProbeType,
                       StringData := some [(target.GetId, target.Bytes.1)], Data := none }])
          ns target.GetProbeType
          = some { Namespace := ns, Name := target.GetProbeType,
                   StringData := some [(target.GetId, target.Bytes.1)], Data := none } := by
        simp [storedSecret_append, hs, Secret.isNamed]
      rw [groupOccupied_of_stored _ _ _ _ hst]
      exact ⟨target.GetId, by simp [Secret.holds, mapaccess, mapentries, List.lookup_cons]⟩
    · intro p hp
      apply groupOccupied_congr
      rw [storedSecret_append]
      have hnot : ∀ sd d, Secret.isNamed ns p ⟨ns, target.GetProbeType, sd, d⟩ = false := by
        intro sd d
        simp only [Secret.isNamed, Bool.and_eq_false_iff, beq_eq_false_iff_ne, ne_eq]
        right
        exact fun h2 => hp h2.symm
      simp [hnot]
  | some stored =>
    obtain ⟨store2, stored', hr, hst, hsd, hd, hframe⟩ :=
      registerTarget_mem_existing ns target store stored hs hb
    rw [hr] at h
    simp only [Prod.mk.injEq] at h
    obtain ⟨-, hst2⟩ := h
    subst hst2
    constructor
    · rw [groupOccupied_of_stored _ _ _ _ hst]
      exact ⟨target.GetId, by simp [Secret.holds, hsd]⟩
    · intro p hp
      apply groupOccupied_congr
      exact hframe ns p (fun hc => hp hc.2)

/-- Occupancy after a successful `UnregisterTarget`: the probe type of the target is occupied
exactly when the call returned `false`, in which case it was occupied before; the occupancy of
the other probe types is as before. -/
theorem groupOccupied_unregister (ns : String) (target : Target) (store store' : SecretStore)
    (b : Bool)
    (h : (memRegistrar ns).UnregisterTarget target store = (Outcome.ok (b, none), store')) :
    groupOccupied store' ns target.GetProbeType = !b ∧
    (b = false → groupOccupied store ns target.GetProbeType = true) ∧
    ∀ p, p ≠ target.GetProbeType → groupOccupied store' ns p = groupOccupied store ns p := by
  cases hs : storedSecret store ns target.GetProbeType with
  | none =>
    rw [unregisterTarget_mem_none ns target store hs] at h
    simp only [Prod.mk.injEq, Outcome.ok.injEq, and_true] at h
    obtain ⟨hb, hst⟩ := h
    subst hb hst
    refine ⟨?_, fun hc => absurd hc (by simp), fun p _ => rfl⟩
    simp [groupOccupied, hs]
  | some stored =>
    obtain ⟨b2, store2, stored', hr, hbt, hst, hsd, hd, hframe, -⟩ :=
      unregisterTarget_mem_existing ns target store stored hs
    rw [hr] at h
    simp only [Prod.mk.injEq, Outcome.ok.injEq, and_true] at h
    obtain ⟨hb, hst2⟩ := h
    subst hb hst2
    have hholds' : ∀ k, stored'.holds k = true ↔ (k ≠ target.GetId ∧ stored.holds k = true) := by
      intro k
      rw [holds_iff, holds_iff, hsd, hd]
      by_cases hk : k = target.GetId
      · simp [hk]
      · simp [hk]
    refine ⟨?_, ?_, ?_⟩
    · cases hbv : b2 with
      | true =>
        have hall := hbt.mp hbv
        rw [Bool.not_true, ← Bool.not_eq_true, groupOccupied_of_stored _ _ _ _ hst]
        rintro ⟨k, hk⟩
        have := (hholds' k).mp hk
        exact this.1 (hall k this.2)
      | false =>
        rw [Bool.not_false, groupOccupied_of_stored _ _ _ _ hst]
        have hnall : ¬ ∀ k, stored.holds k = true → k = target.GetId := by
          intro hc
          have := hbt.mpr hc
          rw [hbv] at this
          exact absurd this (by simp)
        push_neg at hnall
        obtain ⟨k, hk1, hk2⟩ := hnall
        exact ⟨k, (hholds' k).mpr ⟨hk2, hk1⟩⟩
    · intro hbv
      rw [groupOccupied_of_stored _ _ _ _ hs]
      have hnall : ¬ ∀ k, stored.holds k = true → k = target.GetId := by
        intro hc
        have := hbt.mpr hc
        rw [hbv] at this
        exact absurd this (by simp)
      push_neg at hnall
      obtain ⟨k, hk1, -⟩ := hnall
      exact ⟨k, hk1⟩
    · intro p hp
      apply groupOccupied_congr
      exact hframe ns p (fun hc => hp hc.2)

theorem NestedBool_newXlCR (gvr : GroupVersionResource) (crd : CustomResourceDefinition)
    (ns : String) (q : String) (rest : List String) :
    NestedFieldNoCopy (newXlCR gvr crd ns).Object ("spec" :: q :: rest) = (none, false, none) := by
  rfl

theorem NestedBool_congr (obj obj' : List (String × JSONValue)) (path : List String)
    (h : NestedFieldNoCopy obj' path = NestedFieldNoCopy obj path) :
    NestedBool obj' path = NestedBool obj path := by
  unfold NestedBool
  rw [h]

/-- Activation after a successful `setEnabledFlag`: the flag of the probe type is the one that
was set, and the flags of the other probe types are as before. -/
theorem probeEnabled_setEnabledFlag (ns probeType : String) (enabled : Bool)
    (cluster cluster' : Cluster)
    (h : (memController ns).setEnabledFlag probeType enabled cluster
      = (Outcome.ok none, cluster')) :
    probeEnabled cluster' ns probeType = enabled ∧
    ∀ q, q ≠ probeType → probeEnabled cluster' ns q = probeEnabled cluster ns q := by
  have h1 : ((memController ns).setEnabledFlag probeType enabled cluster).1 = Outcome.ok none := by
    rw [h]
  have h2 : ((memController ns).setEnabledFlag probeType enabled cluster).2 = cluster' := by
    rw [h]
  constructor
  · obtain ⟨cr, hrec, hflag, -⟩ := setEnabledFlag_sets_flag ns probeType enabled cluster h1
    rw [h2] at hrec
    simp [probeEnabled, hrec, hflag]
  · intro q hq
    obtain ⟨gvr, before, after, hg, hbefore, hafter, hspec, -, -⟩ :=
      setEnabledFlag_frame ns probeType enabled cluster h1
    rw [h2] at hafter
    have hq' := hspec q ["enabled"] hq
    unfold probeEnabled
    rw [hafter]
    simp only
    rw [NestedBool_congr _ _ _ hq']
    cases hrec : activationRecord cluster ns with
    | some cr =>
      rw [hrec] at hbefore
      simp only [Option.getD_some] at hbefore
      rw [hbefore]
    | none =>
      rw [hrec] at hbefore
      simp only [Option.getD_none] at hbefore
      rw [hbefore]
      simp [NestedBool, NestedBool_newXlCR]

/-- What a call of `AddOrUpdateTarget` that returns nil has done on the stores held in
memory. -/
theorem memManager_addOrUpdateTarget (ns : String) (target : Target) (store : SecretStore)
    (cluster : Cluster) (s' : SecretStore × Cluster)
    (h : (memManager ns).AddOrUpdateTarget target (store, cluster) = (Outcome.ok none, s')) :
    (memRegistrar ns).RegisterTarget target store = (Outcome.ok (true, none), s'.1) ∧
    (memController ns).setEnabledFlag target.GetProbeType true cluster
      = (Outcome.ok none, s'.2) := by
  unfold ProbeLifecycleManager.AddOrUpdateTarget at h
  simp only [bind, pure, memManager, managerOf, Registrar.onFst, ProbeController.onSnd,
    K8sSecretsRegistrar.toRegistrar, T8cProbeController.toProbeController] at h
  rw [Go.bind_apply] at h
  rcases hr : (memRegistrar ns).RegisterTarget target store with ⟨o, st1⟩
  rw [hr] at h
  rcases o with ⟨b, err⟩ | _
  · cases err with
    | some e => simp at h
    | none =>
      have hb : b = true := registerTarget_no_error_paths _ _ _ _ _ hr
      subst hb
      simp only [ne_eq, not_true_eq_false, if_false, Go.pure_bind, Bool.not_true,
        Bool.false_eq_true] at h
      unfold T8cProbeController.StartProbe at h
      rcases hc : (memController ns).setEnabledFlag target.GetProbeType true cluster
        with ⟨oc, cl1⟩
      rw [hc] at h
      simp only [Prod.mk.injEq] at h
      obtain ⟨h1, h2⟩ := h
      subst h1 h2
      exact ⟨rfl, rfl⟩
  · simp at h

/-- What a call of `DeleteTarget` that returns nil has done on the stores held in memory. -/
theorem memManager_deleteTarget (ns : String) (target : Target) (store : SecretStore)
    (cluster : Cluster) (s' : SecretStore × Cluster)
    (h : (memManager ns).DeleteTarget target (store, cluster) = (Outcome.ok none, s')) :
    ∃ b, (memRegistrar ns).UnregisterTarget target store = (Outcome.ok (b, none), s'.1) ∧
      (b = true →
        (memController ns).setEnabledFlag target.GetProbeType false cluster
          = (Outcome.ok none, s'.2)) ∧
      (b = false → s'.2 = cluster) := by
  unfold ProbeLifecycleManager.DeleteTarget at h
  simp only [bind, pure, memManager, managerOf, Registrar.onFst, ProbeController.onSnd,
    K8sSecretsRegistrar.toRegistrar, T8cProbeController.toProbeController] at h
  rw [Go.bind_apply] at h
  rcases hr : (memRegistrar ns).UnregisterTarget target store with ⟨o, st1⟩
  rw [hr] at h
  rcases o with ⟨b, err⟩ | _
  · cases err with
    | some e => simp at h
    | none =>
      cases b with
      | false =>
        simp only [ne_eq, not_true_eq_false, if_false, Go.pure_bind, Bool.not_false, if_true,
          Go.pure_apply, Prod.mk.injEq, true_and] at h
        subst h
        exact ⟨false, rfl, fun hc => absurd hc (by simp), fun _ => rfl⟩
      | true =>
        simp only [ne_eq, not_true_eq_false, if_false, Go.pure_bind, Bool.not_true,
          Bool.false_eq_true] at h
        unfold T8cProbeController.StopProbe at h
        rcases hc : (memController ns).setEnabledFlag target.GetProbeType false cluster
          with ⟨oc, cl1⟩
        rw [hc] at h
        simp only [Prod.mk.injEq] at h
        obtain ⟨h1, h2⟩ := h
        subst h1 h2
        exact ⟨true, rfl, fun _ => rfl, fun hc => absurd hc (by simp)⟩
  · simp at h

/-- One call that returns nil keeps the activation flags equal to the occupancy of the
groups. -/
theorem enabled_eq_occupied_step (ns : String) (c : ManagerCall) (s s' : SecretStore × Cluster)
    (hinv : ∀ p, probeEnabled s.2 ns p = groupOccupied s.1 ns p)
    (h : (memManager ns).call c s = (Outcome.ok none, s')) :
    ∀ p, probeEnabled s'.2 ns p = groupOccupied s'.1 ns p := by
  obtain ⟨store, cluster⟩ := s
  cases c with
  | AddOrUpdateTarget target =>
    obtain ⟨hreg, hctl⟩ := memManager_addOrUpdateTarget ns target store cluster s' h
    obtain ⟨hocc, hoccf⟩ := groupOccupied_register ns target store s'.1 true hreg
    obtain ⟨hen, henf⟩ := probeEnabled_setEnabledFlag ns target.GetProbeType true cluster s'.2 hctl
    intro p
    by_cases hp : p = target.GetProbeType
    · subst hp
      rw [hocc, hen]
    · rw [hoccf p hp, henf p hp]
      exact hinv p
  | DeleteTarget target =>
    obtain ⟨b, hunreg, htrue, hfalse⟩ := memManager_deleteTarget ns target store cluster s' h
    obtain ⟨hocc, hbefore, hoccf⟩ := groupOccupied_unregister ns target store s'.1 b hunreg
    intro p
    cases hb : b with
    | true =>
      obtain ⟨hen, henf⟩ :=
        probeEnabled_setEnabledFlag ns target.GetProbeType false cluster s'.2 (htrue hb)
      by_cases hp : p = target.GetProbeType
      · subst hp
        rw [hocc, hen, hb]
        rfl
      · rw [hoccf p hp, henf p hp]
        exact hinv p
    | false =>
      rw [hfalse hb]
      by_cases hp : p = target.GetProbeType
      · subst hp
        rw [hocc, hb]
        have := hinv target.GetProbeType
        simp only at this
        rw [this, hbefore hb]
        rfl
      · rw [hoccf p hp]
        exact hinv p

theorem enabled_eq_occupied_callAll (ns : String) (calls : List ManagerCall)
    (s : SecretStore × Cluster)
    (hinv : ∀ p, probeEnabled s.2 ns p = groupOccupied s.1 ns p)
    (h : ((memManager ns).callAll calls s).1 = true) :
    ∀ p, probeEnabled ((memManager ns).callAll calls s).2.2 ns p
      = groupOccupied ((memManager ns).callAll calls s).2.1 ns p := by
  induction calls generalizing s with
  | nil => exact hinv
  | cons c cs ih =>
    rw [ProbeLifecycleManager.callAll] at h ⊢
    rcases hc : (memManager ns).call c s with ⟨o, s'⟩
    rw [hc] at h
    rcases o with (_ | e) | _
    · simp only at h ⊢
      exact ih s' (enabled_eq_occupied_step ns c s s' hinv hc) h
    · simp at h
    · simp at h

/-- C11: on the stores held in memory, start from a state in which namespace `ns` has no
group record and its activation record, if there is one, has no flag that is true.  After
every sequence of calls of `AddOrUpdateTarget` and `DeleteTarget` on the default manager that
all return nil, for every probe type, `spec.<probe type>.enabled` is true in the activation
record exactly when the group record of the probe type exists with a mapping that is not
empty. -/
theorem enabled_iff_occupied (ns : String) (calls : List ManagerCall) (store : SecretStore)
    (cluster : Cluster)
    (hstore : ∀ p, storedSecret store ns p = none)
    (hcluster : ∀ p, probeEnabled cluster ns p = false)
    (h : ((memManager ns).callAll calls (store, cluster)).1 = true) :
    ∀ p, probeEnabled ((memManager ns).callAll calls (store, cluster)).2.2 ns p = true ↔
      groupOccupied ((memManager ns).callAll calls (store, cluster)).2.1 ns p = true := by
  intro p
  rw [enabled_eq_occupied_callAll ns calls (store, cluster)
    (fun q => by simp [hcluster q, groupOccupied, hstore q]) h p]

theorem enabled_iff_occupied_witness :
    (∀ p, storedSecret [] testNamespace p = none) ∧
    (∀ p, probeEnabled emptyCluster testNamespace p = false) ∧
    ((memManager testNamespace).callAll
        [ManagerCall.AddOrUpdateTarget vcenterMoid1, ManagerCall.AddOrUpdateTarget vcenterMoid2,
         ManagerCall.DeleteTarget vcenterMoid1, ManagerCall.DeleteTarget vcenterMoid2]
        ([], emptyCluster)).1 = true ∧
    ∀ p, probeEnabled ((memManager testNamespace).callAll
        [ManagerCall.AddOrUpdateTarget vcenterMoid1, ManagerCall.AddOrUpdateTarget vcenterMoid2,
         ManagerCall.DeleteTarget vcenterMoid1, ManagerCall.DeleteTarget vcenterMoid2]
        ([], emptyCluster)).2.2 testNamespace p = true ↔
      groupOccupied ((memManager testNamespace).callAll
        [ManagerCall.AddOrUpdateTarget vcenterMoid1, ManagerCall.AddOrUpdateTarget vcenterMoid2,
         ManagerCall.DeleteTarget vcenterMoid1, ManagerCall.DeleteTarget vcenterMoid2]
        ([], emptyCluster)).2.1 testNamespace p = true :=
  ⟨fun _ => rfl, fun _ => rfl, by decide,
    enabled_iff_occupied testNamespace
      [ManagerCall.AddOrUpdateTarget vcenterMoid1, ManagerCall.AddOrUpdateTarget vcenterMoid2,
       ManagerCall.DeleteTarget vcenterMoid1, ManagerCall.DeleteTarget vcenterMoid2]
      [] emptyCluster (fun _ => rfl) (fun _ => rfl) (by decide)⟩

end ProbeLifecycle
